import Mathlib

/-!
The AGI supervisory proxy of aerolab (`src/cmdAgiExecProxy.go`).

A shallow embedding of the proxy command: token store reload, the auth gate
(`checkAuth`), the three reverse-proxy handlers, the status aggregator
(`getAgiStatus`), the ingest-detail handler, the four monitors and the two
control endpoints, followed by theorems about them.

Conventions of the embedding.
* A Go `string` (and a `[]byte`) is a list of bytes, `GoString`; `len` is the list length.
* `time.Time` instants are natural numbers.
* Calls into `net/http` act on an explicit `ResponseWriter` value (header map, status line,
  body) and read an explicit `Request` value holding what the accessors `FormValue`, `Cookie`
  and `BasicAuth` return.
* A `go f(x)` statement evaluates its arguments at once and records the pending call.
* A round of a monitor loop gives the command state it ends in and the list of its effects
  (sleeps, writes to the Shutdown Flag and Activity Timestamp, notifications, commands) in
  program order; each read of the clock is an input of its own.
* An `int64` is an integer wrapped into the signed 64-bit range.
-/

set_option autoImplicit false

namespace Aerolab

/-! ## Go strings -/

/-- A Go string: an immutable sequence of bytes. -/
abbrev GoString := List UInt8

/-- The bytes of a string literal of the source. -/
def gs (s : String) : GoString := s.toUTF8.data.toList

/-- An instant (`time.Time`), counted in nanoseconds. -/
abbrev Time := Nat

/-- Library `inslice.HasString`: does the slice hold the string. -/
def HasString (slice : List GoString) (s : GoString) : Bool :=
  slice.any (fun x => x == s)

/-- Library `subtle.ConstantTimeCompare`: 1 when the two slices have equal contents, else 0. -/
def ConstantTimeCompare (x y : GoString) : Int :=
  if x = y then 1 else 0

/-- Library `strings.Split` with a one-byte separator: the pieces between separators, empty
pieces kept. -/
def stringsSplit (sep : UInt8) : GoString → List GoString
  | [] => [[]]
  | b :: rest =>
    if b = sep then [] :: stringsSplit sep rest
    else
      match stringsSplit sep rest with
      | [] => [[b]]
      | x :: xs => (b :: x) :: xs

/-- The pieces put together again with the separator byte between neighbours. -/
def joinWith (sep : UInt8) : List GoString → GoString
  | [] => []
  | [p] => p
  | p :: q :: rest => p ++ sep :: joinWith sep (q :: rest)

/-! ## net/http -/
namespace http

/-- The header map, as the list of its key and value lines in insertion order. -/
abbrev Header := List (GoString × GoString)

/-- Method `Header.Add`: append a value line under the key. -/
def Header.Add (h : Header) (key value : GoString) : Header :=
  h ++ [(key, value)]

/-- Method `Header.Del`: drop every value line of the key. -/
def Header.Del (h : Header) (key : GoString) : Header :=
  h.filter (fun kv => !(kv.1 == key))

/-- Method `Header.Set`: replace the value lines of the key by the single value. -/
def Header.Set (h : Header) (key value : GoString) : Header :=
  Header.Del h key ++ [(key, value)]

/-- Method `Header.Get`: the first value of the key, the empty string without one. -/
def Header.Get (h : Header) (key : GoString) : GoString :=
  match h.find? (fun kv => kv.1 == key) with
  | some kv => kv.2
  | none => []

/-- Does the map hold the key. -/
def Header.Has (h : Header) (key : GoString) : Bool :=
  h.any (fun kv => kv.1 == key)

/-- The fields of `url.URL` the proxy reads or writes. -/
structure URL where
  Scheme : GoString
  Host : GoString
  Path : GoString
  deriving DecidableEq, Repr

/-- The fields of `http.Cookie` the proxy fills in. -/
structure Cookie where
  Name : GoString
  Value : GoString
  MaxAge : Int
  Path : GoString
  deriving DecidableEq, Repr

/-- An inbound request. `Form` is the parsed query and body form, `Cookies` the parsed
`Cookie` header (name, value), `basicAuth` the decoded `Authorization: Basic` credentials. -/
structure Request where
  Method : GoString
  URL : URL
  Host : GoString
  Header : Header
  Form : List (GoString × GoString)
  Cookies : List (GoString × GoString)
  basicAuth : Option (GoString × GoString)
  deriving DecidableEq, Repr

/-- Method `Request.FormValue`: the first value of the named form field, else empty. -/
def Request.FormValue (r : Request) (key : GoString) : GoString :=
  match r.Form.find? (fun kv => kv.1 == key) with
  | some kv => kv.2
  | none => []

/-- Method `Request.Cookie`: the value of the first cookie of that name; `none` stands for
`ErrNoCookie`. -/
def Request.Cookie (r : Request) (name : GoString) : Option GoString :=
  match r.Cookies.find? (fun kv => kv.1 == name) with
  | some kv => some kv.2
  | none => none

/-- Method `Request.BasicAuth`: user, password and whether credentials were supplied. -/
def Request.BasicAuth (r : Request) : GoString × GoString × Bool :=
  match r.basicAuth with
  | some (user, pass) => (user, pass, true)
  | none => ([], [], false)

/-- The response under construction: header map, status (none until written), body. -/
structure ResponseWriter where
  header : Header
  status : Option Nat
  body : GoString
  deriving DecidableEq, Repr

/-- A response writer as the server hands it to a handler. -/
def ResponseWriter.fresh : ResponseWriter :=
  { header := [], status := none, body := [] }

/-- Method `WriteHeader`: the first status written stands. -/
def ResponseWriter.WriteHeader (w : ResponseWriter) (code : Nat) : ResponseWriter :=
  match w.status with
  | none => { w with status := some code }
  | some _ => w

/-- Method `Write`: writes status 200 first when none was written, then appends the bytes. -/
def ResponseWriter.Write (w : ResponseWriter) (b : GoString) : ResponseWriter :=
  let w1 := ResponseWriter.WriteHeader w 200
  { w1 with body := w1.body ++ b }

def StatusUnauthorized : Nat := 401
def StatusFound : Nat := 302
def StatusOK : Nat := 200

/-- Function `http.Error`: plain-text error reply with the given status. -/
def Error (w : ResponseWriter) (error : GoString) (code : Nat) : ResponseWriter :=
  let h := Header.Del w.header (gs "Content-Length")
  let h := Header.Set h (gs "Content-Type") (gs "text/plain; charset=utf-8")
  let h := Header.Set h (gs "X-Content-Type-Options") (gs "nosniff")
  let w := ResponseWriter.WriteHeader { w with header := h } code
  ResponseWriter.Write w (error ++ gs "\n")

/-- Library `httpguts.IsTokenRune` on a byte: letters, digits and the characters
`! # $ % & ' * + - . ^ _` and the backquote, bar and tilde; no byte from 0x80 on. -/
def isTokenByte (b : UInt8) : Bool :=
  (48 ≤ b && b ≤ 57) || (65 ≤ b && b ≤ 90) || (97 ≤ b && b ≤ 122) ||
    b == 33 || b == 35 || b == 36 || b == 37 || b == 38 || b == 39 || b == 42 || b == 43 ||
    b == 45 || b == 46 || b == 94 || b == 95 || b == 96 || b == 124 || b == 126

/-- Library `isCookieNameValid`: not empty and made of token characters only. -/
def isCookieNameValid (raw : GoString) : Bool :=
  !raw.isEmpty && raw.all isTokenByte

/-- Library `validCookieValueByte`. -/
def validCookieValueByte (b : UInt8) : Bool :=
  32 ≤ b && b < 127 && b != 34 && b != 59 && b != 92

/-- Library `validCookiePathByte`. -/
def validCookiePathByte (b : UInt8) : Bool :=
  32 ≤ b && b < 127 && b != 59

/-- Library `sanitizeOrWarn`: the bytes that are not valid are dropped. -/
def sanitizeOrWarn (valid : UInt8 → Bool) (v : GoString) : GoString :=
  v.filter valid

/-- Library `sanitizeCookieValue`: invalid bytes dropped; what is left is put in double quotes
when it holds a space or a comma. -/
def sanitizeCookieValue (v : GoString) : GoString :=
  let v := sanitizeOrWarn validCookieValueByte v
  if v.isEmpty then v
  else if v.any (fun b => b == 32 || b == 44) then gs "\"" ++ v ++ gs "\""
  else v

/-- Library `sanitizeCookiePath`. -/
def sanitizeCookiePath (v : GoString) : GoString :=
  sanitizeOrWarn validCookiePathByte v

/-- Method `Cookie.String` on the fields the proxy fills in: empty for an invalid cookie name,
else `Name=` and the sanitized value, then the sanitized path attribute when the path is set;
a zero `MaxAge` emits no attribute. -/
def Cookie.String (c : Cookie) : GoString :=
  if !isCookieNameValid c.Name then []
  else
    let s := c.Name ++ gs "=" ++ sanitizeCookieValue c.Value
    let s := if c.Path.length > 0 then s ++ gs "; Path=" ++ sanitizeCookiePath c.Path else s
    if c.MaxAge > 0 then s ++ gs "; Max-Age=" ++ gs (toString c.MaxAge)
    else if c.MaxAge < 0 then s ++ gs "; Max-Age=0"
    else s

/-- Function `http.SetCookie`: adds the `Set-Cookie` line of the cookie. -/
def SetCookie (w : ResponseWriter) (cookie : Cookie) : ResponseWriter :=
  let v := Cookie.String cookie
  if v ≠ [] then { w with header := Header.Add w.header (gs "Set-Cookie") v } else w

/-- Library `htmlEscape`: the five characters that are entity-encoded. -/
def htmlEscape (s : GoString) : GoString :=
  s.flatMap (fun b =>
    if b = 38 then gs "&amp;"
    else if b = 60 then gs "&lt;"
    else if b = 62 then gs "&gt;"
    else if b = 34 then gs "&#34;"
    else if b = 39 then gs "&#39;"
    else [b])

/-- Library `http.StatusText` on the codes the proxy writes. -/
def StatusText (code : Nat) : GoString :=
  if code = 200 then gs "OK"
  else if code = 302 then gs "Found"
  else if code = 400 then gs "Bad Request"
  else if code = 401 then gs "Unauthorized"
  else if code = 404 then gs "Not Found"
  else if code = 500 then gs "Internal Server Error"
  else []

/-- Library `net/url`: is the byte an ASCII control character (`stringContainsCTLByte`). -/
def isCTL (b : UInt8) : Bool :=
  b < 32 || b == 127

/-- Library `net/url` `ishex`. -/
def ishex (b : UInt8) : Bool :=
  (48 ≤ b && b ≤ 57) || (97 ≤ b && b ≤ 102) || (65 ≤ b && b ≤ 70)

/-- Library `net/url` `unescape` in the path, fragment and user-password modes: does it return
an error, which it does exactly when a `%` is not followed by two hexadecimal digits. -/
def badEscape : GoString → Bool
  | [] => false
  | b :: rest =>
    if b = 37 then
      match rest with
      | x :: y :: rest2 => if ishex x && ishex y then badEscape rest2 else true
      | _ => true
    else badEscape rest

/-- The loop of library `net/url` `getScheme`; `seen` are the bytes before the current one. -/
def getScheme.scan (rawURL : GoString) : GoString → GoString → Option (GoString × GoString)
  | _, [] => some ([], rawURL)
  | seen, c :: rest =>
    if (97 ≤ c && c ≤ 122) || (65 ≤ c && c ≤ 90) then getScheme.scan rawURL (seen ++ [c]) rest
    else if (48 ≤ c && c ≤ 57) || c == 43 || c == 45 || c == 46 then
      if seen.isEmpty then some ([], rawURL) else getScheme.scan rawURL (seen ++ [c]) rest
    else if c == 58 then
      if seen.isEmpty then none else some (seen, rest)
    else some ([], rawURL)

/-- Library `net/url` `getScheme`: the scheme and the rest; `none` stands for its error (a
colon at the start). -/
def getScheme (rawURL : GoString) : Option (GoString × GoString) :=
  getScheme.scan rawURL [] rawURL

/-- Library `net/url` `validUserinfo`. -/
def validUserinfo (s : GoString) : Bool :=
  s.all (fun r =>
    (65 ≤ r && r ≤ 90) || (97 ≤ r && r ≤ 122) || (48 ≤ r && r ≤ 57) ||
      r == 45 || r == 46 || r == 95 || r == 58 || r == 126 || r == 33 || r == 36 || r == 38 ||
      r == 39 || r == 40 || r == 41 || r == 42 || r == 43 || r == 44 || r == 59 || r == 61 ||
      r == 37 || r == 64)

/-- Library `net/url` `parseAuthority`: does it succeed with an empty host. The host is what
follows the last `@`; a host that is not empty is returned not empty or is an error. With an
empty host and an `@`, the user information before it has to be valid and to unescape. -/
def emptyHostAuthority (authority : GoString) : Bool :=
  if authority.isEmpty then true
  else if authority.getLast? = some 64 then
    let userinfo := authority.dropLast
    validUserinfo userinfo &&
      !badEscape (userinfo.takeWhile (fun b => b != 58)) &&
      !badEscape ((userinfo.dropWhile (fun b => b != 58)).drop 1)
  else false

/-- Library `net/url` `Parse` as far as `http.Redirect` looks at its result: does it return no
error and a URL with an empty scheme and an empty host. The fragment is cut off at the first
`#`, the query at the first `?`. -/
def urlParseRelative (rawURL : GoString) : Bool :=
  let u := rawURL.takeWhile (fun b => b != 35)
  let frag := (rawURL.dropWhile (fun b => b != 35)).drop 1
  if u.any isCTL then false
  else if u = gs "*" then !badEscape frag
  else
    match getScheme u with
    | none => false
    | some (scheme, rest) =>
      if !scheme.isEmpty then false
      else
        let rest := rest.takeWhile (fun b => b != 63)
        if rest.head? != some 47 && (rest.takeWhile (fun b => b != 47)).contains 58 then false
        else if !(gs "///").isPrefixOf rest && (gs "//").isPrefixOf rest then
          let authority := (rest.drop 2).takeWhile (fun b => b != 47)
          let rest := (rest.drop 2).dropWhile (fun b => b != 47)
          emptyHostAuthority authority && !badEscape rest && !badEscape frag
        else !badEscape rest && !badEscape frag

/-- One path element in library `path.Clean`: empty elements and `.` are dropped, `..` removes
the element before it, or is dropped at the root, or is kept in front of a path that is not
rooted. -/
def pathClean.step (rooted : Bool) (out : List GoString) (elem : GoString) : List GoString :=
  if elem.isEmpty || elem == gs "." then out
  else if elem == gs ".." then
    match out.getLast? with
    | some top => if top == gs ".." then out ++ [elem] else out.dropLast
    | none => if rooted then out else out ++ [elem]
  else out ++ [elem]

/-- Library `path.Clean`. -/
def pathClean (p : GoString) : GoString :=
  let rooted := p.head? == some 47
  let out := (stringsSplit 47 p).foldl (pathClean.step rooted) []
  if rooted then 47 :: joinWith 47 out
  else if out.isEmpty then gs "."
  else joinWith 47 out

/-- The first value of library `path.Split`: the path up to and including its last slash. -/
def pathSplitDir (p : GoString) : GoString :=
  (p.reverse.dropWhile (fun b => b != 47)).reverse

/-- A hexadecimal digit in lower case. -/
def hexDigit (n : UInt8) : UInt8 :=
  if n < 10 then 48 + n else 87 + n

/-- Library `hexEscapeNonASCII`: every byte from 0x80 on becomes `%` and two hexadecimal
digits. -/
def hexEscapeNonASCII (s : GoString) : GoString :=
  s.flatMap (fun b => if b ≥ 128 then [37, hexDigit (b / 16), hexDigit (b % 16)] else [b])

/-- The target `http.Redirect` sends for `url`: when `url` parses with no scheme and no host,
it is made absolute against the request path, and its part before the first `?` is cleaned
with `path.Clean`, a trailing slash kept. -/
def Redirect.target (r : Request) (url : GoString) : GoString :=
  if urlParseRelative url then
    let oldpath := if r.URL.Path.isEmpty then gs "/" else r.URL.Path
    let url := if url.isEmpty || url.head? != some 47 then pathSplitDir oldpath ++ url else url
    let query := url.dropWhile (fun b => b != 63)
    let url := url.takeWhile (fun b => b != 63)
    let trailing := url.getLast? == some 47
    let url := pathClean url
    let url := if trailing && url.getLast? != some 47 then url ++ gs "/" else url
    url ++ query
  else url

/-- Function `http.Redirect`: sets `Location` to the hex-escaped target, writes the status and,
for GET, the short HTML note. -/
def Redirect (w : ResponseWriter) (r : Request) (url : GoString) (code : Nat) : ResponseWriter :=
  let url := Redirect.target r url
  let hadCT := Header.Has w.header (gs "Content-Type")
  let h := Header.Set w.header (gs "Location") (hexEscapeNonASCII url)
  let h := if !hadCT && (r.Method == gs "GET" || r.Method == gs "HEAD")
    then Header.Set h (gs "Content-Type") (gs "text/html; charset=utf-8") else h
  let w := ResponseWriter.WriteHeader { w with header := h } code
  if !hadCT && r.Method == gs "GET"
  then ResponseWriter.Write w (gs "<a href=\"" ++ htmlEscape url ++ gs "\">" ++ StatusText code ++ gs "</a>.\n\n")
  else w

/-- Type `httputil.ReverseProxy` built by `NewSingleHostReverseProxy`: its target. -/
structure ReverseProxy where
  target : URL
  deriving DecidableEq, Repr

end http

open http

/-! ## The command struct -/

/-- The fields of `agiExecProxyCmd` used by the token store, the auth gate, the handlers and
the monitors. Mutex-guarded cells (`tokens`, `lastActivity`, `gottyConns`, `shuttingDown`) are
their guarded values. -/
structure agiExecProxyCmd where
  AGIName : GoString
  IngestProgressPath : GoString
  MaxInactivity : Int
  MaxUptime : Int
  ShutdownCommand : GoString
  AuthType : GoString
  BasicAuthUser : GoString
  BasicAuthPass : GoString
  TokenAuthLocation : GoString
  TokenName : GoString
  isBasicAuth : Bool
  isTokenAuth : Bool
  lastActivity : Time
  grafanaUrl : URL
  grafanaProxy : ReverseProxy
  ttydUrl : URL
  ttydProxy : ReverseProxy
  fbUrl : URL
  fbProxy : ReverseProxy
  gottyConns : GoString
  tokens : List GoString
  shuttingDown : Bool
  isDim : Bool
  deriving DecidableEq, Repr

/-- The command struct as the flag parser leaves it with the default flag values (a
`time.Duration` counts nanoseconds): unexported fields at their zero values. -/
def agiExecProxyCmd.defaults : agiExecProxyCmd :=
  { AGIName := [], IngestProgressPath := gs "/opt/agi/ingest/",
    MaxInactivity := 3600000000000, MaxUptime := 86400000000000, ShutdownCommand := gs "/sbin/poweroff",
    AuthType := gs "none", BasicAuthUser := gs "admin", BasicAuthPass := gs "secure",
    TokenAuthLocation := gs "/opt/agitokens", TokenName := gs "AGI_TOKEN",
    isBasicAuth := false, isTokenAuth := false, lastActivity := 0,
    grafanaUrl := ⟨[], [], []⟩, grafanaProxy := ⟨⟨[], [], []⟩⟩,
    ttydUrl := ⟨[], [], []⟩, ttydProxy := ⟨⟨[], [], []⟩⟩,
    fbUrl := ⟨[], [], []⟩, fbProxy := ⟨⟨[], [], []⟩⟩,
    gottyConns := [], tokens := [], shuttingDown := false, isDim := false }

/-- The assignments `Execute` makes to the command struct before it starts the monitors and
the listener (lines 218 to 241); `now` is the value of `time.Now()`. -/
def Execute_setup (c : agiExecProxyCmd) (now : Time) : agiExecProxyCmd :=
  let c := { c with gottyConns := gs "0" }
  let c := { c with lastActivity := now }
  let gurl : URL := { Scheme := gs "http", Host := gs "127.0.0.1:8850", Path := gs "/" }
  let c := { c with grafanaUrl := gurl, grafanaProxy := { target := gurl } }
  let turl : URL := { Scheme := gs "http", Host := gs "127.0.0.1:8852", Path := gs "/" }
  let c := { c with ttydUrl := turl, ttydProxy := { target := turl } }
  let furl : URL := { Scheme := gs "http", Host := gs "127.0.0.1:8853", Path := gs "/" }
  let c := { c with fbUrl := furl, fbProxy := { target := furl } }
  let c := { c with tokens := [] }
  let c := if c.AuthType = gs "basic" then { c with isBasicAuth := true } else c
  let c := if c.AuthType = gs "token" then { c with isTokenAuth := true } else c
  c

/-- The state `c` belongs to a process that `Execute` started from the parsed flag struct
`c0` (unexported policy booleans at zero): its policy booleans are the ones `Execute` assigned;
they are written nowhere else. -/
def startedFrom (c0 : agiExecProxyCmd) (start : Time) (c : agiExecProxyCmd) : Prop :=
  c0.isBasicAuth = false ∧ c0.isTokenAuth = false ∧
  c.isBasicAuth = (Execute_setup c0 start).isBasicAuth ∧
  c.isTokenAuth = (Execute_setup c0 start).isTokenAuth

instance (c0 : agiExecProxyCmd) (start : Time) (c : agiExecProxyCmd) :
    Decidable (startedFrom c0 start c) := by
  unfold startedFrom; infer_instance

/-! ## Token store -/

/-- One call of the walk callback by `filepath.Walk`: the path, whether the entry is a
directory (`info.IsDir()`), and whether the walk reports an error for it. -/
structure WalkVisit where
  fpath : GoString
  isDir : Bool
  err : Bool
  deriving DecidableEq, Repr

/-- A state of the token directory: the visits `filepath.Walk` makes over it (the root
included) and the result of `os.ReadFile` on each path (`none` for a read error). -/
structure TokenDir where
  visits : List WalkVisit
  ReadFile : GoString → Option GoString

/-- The walk callback of `loadTokensDo` (lines 85 to 104): the token list after the visit and
the error it returns to the walk (always nil). -/
def loadTokensDo.walkFn (d : TokenDir) (tokens : List GoString) (v : WalkVisit) :
    List GoString × Option GoString :=
  if v.err then (tokens, none)
  else if v.isDir then (tokens, none)
  else
    match d.ReadFile v.fpath with
    | none => (tokens, none)
    | some token =>
      if token.length < 64 then (tokens, none)
      else (tokens ++ [token], none)

/-- Library `filepath.Walk` over the visits: calls the callback in order and stops with the
first error the callback returns. -/
def filepathWalk {σ : Type} (fn : σ → WalkVisit → σ × Option GoString) :
    σ → List WalkVisit → σ × Option GoString
  | s, [] => (s, none)
  | s, v :: vs =>
    match fn s v with
    | (s1, none) => filepathWalk fn s1 vs
    | (s1, some e) => (s1, some e)

/-- Method `loadTokensDo`: rebuild the token list from the directory and swap it in. -/
def loadTokensDo (c : agiExecProxyCmd) (d : TokenDir) : agiExecProxyCmd :=
  match filepathWalk (loadTokensDo.walkFn d) [] d.visits with
  | (_, some _) => c
  | (tokens, none) => { c with tokens := tokens }

/-! ## Auth gate -/

/-- A call started with `go`: the arguments are already evaluated, the call itself pending. -/
inductive Goroutine where
  | lastActivitySet (t : Time)
  deriving DecidableEq, Repr

/-- Run a pending call on the command state. -/
def Goroutine.run (c : agiExecProxyCmd) : Goroutine → agiExecProxyCmd
  | .lastActivitySet t => { c with lastActivity := t }

/-- Run pending calls in order. -/
def runAll (c : agiExecProxyCmd) (pending : List Goroutine) : agiExecProxyCmd :=
  pending.foldl Goroutine.run c

/-- What a call of `checkAuth` leaves behind: the response writer, the boolean it returns and
the goroutines it started. -/
structure AuthOutcome where
  w : ResponseWriter
  ok : Bool
  spawned : List Goroutine
  deriving DecidableEq, Repr

/-- Method `displayAuthTokenRequest`: the login form. -/
def displayAuthTokenRequest (c : agiExecProxyCmd) (w : ResponseWriter) (_r : Request) :
    ResponseWriter :=
  ResponseWriter.Write w
    (gs "<html><head><title>authenticate</title></head><body><form>Authentication Token: <input type=text name=\""
      ++ c.TokenName
      ++ gs "\"><input type=Submit name=\"Login\" value=\"Login\"></form></body></html>")

/-- The 401 reply of the basic policy (lines 826 to 828 and 833 to 835). -/
def checkAuth.unauthorized (w : ResponseWriter) : AuthOutcome :=
  let h := Header.Set w.header (gs "WWW-Authenticate")
    (gs "Basic realm=\"restricted\", charset=\"UTF-8\"")
  let w := { w with header := h }
  let w := Error w (gs "Unauthorized") StatusUnauthorized
  { w := w, ok := false, spawned := [] }

/-- Lines 838 to 868 of `checkAuth`: the token policy, then the activity bump. -/
def checkAuth.afterBasic (c : agiExecProxyCmd) (now : Time) (w : ResponseWriter) (r : Request) :
    AuthOutcome :=
  if c.isTokenAuth then
    let t := Request.FormValue r c.TokenName
    if t ≠ [] then
      let w := SetCookie w { Name := c.TokenName, Value := t, MaxAge := 0, Path := gs "/" }
      let w := Redirect w r r.URL.Path StatusFound
      { w := w, ok := false, spawned := [] }
    else
      let t := match Request.Cookie r c.TokenName with
        | some v => v
        | none => t
      if t = [] then
        { w := displayAuthTokenRequest c w r, ok := false, spawned := [] }
      else if !HasString c.tokens t then
        { w := displayAuthTokenRequest c w r, ok := false, spawned := [] }
      else
        { w := w, ok := true, spawned := [Goroutine.lastActivitySet now] }
  else
    { w := w, ok := true, spawned := [Goroutine.lastActivitySet now] }

/-- A run of `checkAuth`: its outcome and the calls of `subtle.ConstantTimeCompare` it made,
in the order it made them, each with its two arguments. -/
structure AuthRun where
  outcome : AuthOutcome
  compared : List (GoString × GoString)
  deriving DecidableEq, Repr

/-- A call of `subtle.ConstantTimeCompare` with the log of these calls passed through: the
result of the call and the log with the arguments of this call added at its end. -/
def ConstantTimeCompare.logged (log : List (GoString × GoString)) (x y : GoString) :
    Int × List (GoString × GoString) :=
  (ConstantTimeCompare x y, log ++ [(x, y)])

/-- Method `checkAuth` (lines 821 to 869) as it runs; `now` is the value of `time.Now()`. The
two comparisons of lines 830 and 831 are statements of their own in front of the test of line
832. -/
def checkAuth.run (c : agiExecProxyCmd) (now : Time) (w : ResponseWriter) (r : Request) :
    AuthRun :=
  let h := Header.Add w.header (gs "Strict-Transport-Security") (gs "max-age=31536000")
  let w := { w with header := h }
  if c.isBasicAuth then
    match Request.BasicAuth r with
    | (user, pass, ok) =>
      if !ok then { outcome := checkAuth.unauthorized w, compared := [] }
      else
        match ConstantTimeCompare.logged [] user c.BasicAuthUser with
        | (usermatch, log) =>
          match ConstantTimeCompare.logged log pass c.BasicAuthPass with
          | (passmatch, log) =>
            if usermatch = 0 ∨ passmatch = 0
            then { outcome := checkAuth.unauthorized w, compared := log }
            else { outcome := checkAuth.afterBasic c now w r, compared := log }
  else { outcome := checkAuth.afterBasic c now w r, compared := [] }

/-- Method `checkAuth` (lines 821 to 869): what a run of it leaves behind. -/
def checkAuth (c : agiExecProxyCmd) (now : Time) (w : ResponseWriter) (r : Request) :
    AuthOutcome :=
  (checkAuth.run c now w r).outcome

/-! ## Reverse-proxy handlers -/

/-- What a proxy handler leaves behind: the response writer, the request as the handler left
it, the proxy and request of the `ServeHTTP` call when one was made, and the goroutines. -/
structure Handled where
  w : ResponseWriter
  r : Request
  forwarded : Option (ReverseProxy × Request)
  spawned : List Goroutine
  deriving DecidableEq, Repr

/-- The body shared by the three handlers (lines 876 to 885 with the handler's URL and proxy). -/
def proxyHandler (c : agiExecProxyCmd) (upstream : URL) (proxy : ReverseProxy) (now : Time)
    (w : ResponseWriter) (r : Request) : Handled :=
  let a := checkAuth c now w r
  if !a.ok then
    { w := a.w, r := r, forwarded := none, spawned := a.spawned }
  else
    let r := { r with URL := { r.URL with Host := upstream.Host } }
    let r := { r with URL := { r.URL with Scheme := upstream.Scheme } }
    let r := { r with Header := Header.Set r.Header (gs "X-Forwarded-Host") (Header.Get r.Header (gs "Host")) }
    let r := { r with Host := upstream.Host }
    { w := a.w, r := r, forwarded := some (proxy, r), spawned := a.spawned }

/-- Method `grafanaHandler`. -/
def grafanaHandler (c : agiExecProxyCmd) (now : Time) (w : ResponseWriter) (r : Request) :
    Handled :=
  proxyHandler c c.grafanaUrl c.grafanaProxy now w r

/-- Method `ttydHandler`. -/
def ttydHandler (c : agiExecProxyCmd) (now : Time) (w : ResponseWriter) (r : Request) :
    Handled :=
  proxyHandler c c.ttydUrl c.ttydProxy now w r

/-- Method `fbHandler`. -/
def fbHandler (c : agiExecProxyCmd) (now : Time) (w : ResponseWriter) (r : Request) :
    Handled :=
  proxyHandler c c.fbUrl c.fbProxy now w r

/-! ## Status aggregator -/

/-- The value of a Go `int64` computation: the integer wrapped into the signed 64-bit range. -/
def wrapInt64 (x : Int) : Int :=
  (x + 2 ^ 63) % 2 ^ 64 - 2 ^ 63

/-- Addition of `int64`. -/
def add64 (a b : Int) : Int := wrapInt64 (a + b)

/-- Multiplication of `int64`. -/
def mul64 (a b : Int) : Int := wrapInt64 (a * b)

/-- Division of `int64` by a non-zero divisor: the quotient truncated toward zero. -/
def div64 (a b : Int) : Int := wrapInt64 (Int.tdiv a b)

/-- Library `strings.HasSuffix`. -/
def HasSuffix (s suffix : GoString) : Bool :=
  suffix.isSuffixOf s

namespace ingest

/-- Modelled from the spec: the declaration of `ingest.IngestSteps` is not among the sources;
these are the step-completion flags the proxy reads. -/
structure IngestSteps where
  Init : Bool
  Download : Bool
  Unpack : Bool
  PreProcess : Bool
  ProcessLogs : Bool
  ProcessCollectInfo : Bool
  deriving DecidableEq, Repr

/-- Modelled from the spec: the inner struct `Ingest` of `ingest.IngestStatusStruct`, with the
fields the proxy reads and writes (sizes are `int64`, percentages `int`). -/
structure IngestStatus where
  Running : Bool
  CompleteSteps : IngestSteps
  DownloaderCompleteSize : Int
  DownloaderTotalSize : Int
  DownloaderCompletePct : Int
  LogProcessorCompletePct : Int
  LogProcessorCompleteSize : Int
  LogProcessorTotalSize : Int
  Errors : List GoString
  deriving DecidableEq, Repr

/-- Modelled from the spec: the Status Snapshot `ingest.IngestStatusStruct`. -/
structure IngestStatusStruct where
  Ingest : IngestStatus
  AerospikeRunning : Bool
  PluginRunning : Bool
  GrafanaHelperRunning : Bool
  deriving DecidableEq, Repr

/-- Modelled from the spec: one entry of the download progress (`S3Files`, `SftpFiles`). -/
structure DownloaderFile where
  Size : Int
  IsDownloaded : Bool
  Error : GoString
  deriving DecidableEq, Repr

/-- Modelled from the spec: `ingest.ProgressDownloader`; a Go map is the list of its entries
in the order the `range` loop visits them. -/
structure ProgressDownloader where
  S3Files : List (GoString × DownloaderFile)
  SftpFiles : List (GoString × DownloaderFile)
  deriving DecidableEq, Repr

/-- Modelled from the spec: one entry of the unpack or pre-process progress. -/
structure ErrorsFile where
  Errors : List GoString
  deriving DecidableEq, Repr

/-- Modelled from the spec: `ingest.ProgressUnpacker`. -/
structure ProgressUnpacker where
  Files : List (GoString × ErrorsFile)
  deriving DecidableEq, Repr

/-- Modelled from the spec: `ingest.ProgressPreProcessor`. -/
structure ProgressPreProcessor where
  Files : List (GoString × ErrorsFile)
  deriving DecidableEq, Repr

/-- Modelled from the spec: one entry of the log-processing progress. -/
structure LogFile where
  Size : Int
  Processed : Int
  Finished : Bool
  deriving DecidableEq, Repr

/-- Modelled from the spec: `ingest.ProgressLogProcessor`. -/
structure ProgressLogProcessor where
  Files : List (GoString × LogFile)
  deriving DecidableEq, Repr

/-- The zero value `new(ingest.IngestSteps)`. -/
def IngestSteps.zero : IngestSteps :=
  { Init := false, Download := false, Unpack := false, PreProcess := false,
    ProcessLogs := false, ProcessCollectInfo := false }

/-- The zero value `new(ingest.IngestStatusStruct)`. -/
def IngestStatusStruct.zero : IngestStatusStruct :=
  { Ingest := { Running := false, CompleteSteps := IngestSteps.zero,
                DownloaderCompleteSize := 0, DownloaderTotalSize := 0, DownloaderCompletePct := 0,
                LogProcessorCompletePct := 0, LogProcessorCompleteSize := 0,
                LogProcessorTotalSize := 0, Errors := [] },
    AerospikeRunning := false, PluginRunning := false, GrafanaHelperRunning := false }

end ingest

open ingest

/-- An entry of the process list (`ps.Process`). -/
structure Process where
  Pid : Int
  PPid : Int
  Executable : GoString
  deriving DecidableEq, Repr

/-- What `os.Stat` reports of a file. -/
structure FileInfo where
  Size : Int
  deriving DecidableEq, Repr

/-- The operating system and library calls of `getAgiStatus`; `none` stands for a returned
error. The JSON decoders give the value of the freshly allocated target after the call (what
a failed decode left in it included). -/
structure StatusEnv where
  Processes : Option (List Process)
  ReadFile : GoString → Option GoString
  Atoi : GoString → Option Int
  FindProcess : Int → Bool
  Stat : GoString → Option FileInfo
  Open : GoString → Option GoString
  gzipNewReader : GoString → Option GoString
  pathJoin : GoString → GoString → GoString
  unmarshalSteps : GoString → IngestSteps
  decodeDownloader : GoString → ProgressDownloader
  decodeUnpacker : GoString → ProgressUnpacker
  decodePreProcessor : GoString → ProgressPreProcessor
  decodeLogProcessor : GoString → ProgressLogProcessor

/-- The errors `getAgiStatus` returns. -/
inductive StatusError where
  | processes
  | fileOpen (npath : GoString)
  | gzOpen (npath : GoString)
  deriving DecidableEq, Repr

/-- Lines 404 to 413 (and the two copies after them): is the PID file readable, its content an
integer, and does `os.FindProcess` return no error for it. -/
def getAgiStatus.pidRunning (e : StatusEnv) (pidFile : GoString) : Bool :=
  match e.ReadFile pidFile with
  | none => false
  | some pidf =>
    match e.Atoi pidf with
    | none => false
    | some pid => e.FindProcess pid

/-- Lines 434 to 438: the steps marker, zero when the file cannot be read. -/
def getAgiStatus.steps (e : StatusEnv) : IngestSteps :=
  match e.ReadFile (gs "/opt/agi/ingest/steps.json") with
  | some f => e.unmarshalSteps f
  | none => IngestSteps.zero

/-- Lines 441 to 450: the progress file name of the active stage. -/
def getAgiStatus.fname (steps : IngestSteps) : GoString :=
  if steps.Init && !steps.Download then gs "downloader.json"
  else if steps.Download && !steps.Unpack then gs "unpacker.json"
  else if steps.Unpack && !steps.PreProcess then gs "pre-processor.json"
  else if steps.PreProcess then gs "log-processor.json"
  else []

/-- Lines 451 to 480: the reader over the progress file (plain, else `.gz`, else `{}`). -/
def getAgiStatus.reader (e : StatusEnv) (ingestProgressPath : GoString) (steps : IngestSteps) :
    Except StatusError GoString :=
  let npath := e.pathJoin ingestProgressPath (getAgiStatus.fname steps)
  match e.Stat npath with
  | some _ =>
    match e.Open npath with
    | none => .error (StatusError.fileOpen npath)
    | some fa => .ok fa
  | none =>
    let npath := npath ++ gs ".gz"
    match e.Stat npath with
    | none => .ok (gs "{}")
    | some _ =>
      match e.Open npath with
      | none => .error (StatusError.fileOpen npath)
      | some fa =>
        match e.gzipNewReader fa with
        | none => .error (StatusError.gzOpen npath)
        | some fx => .ok fx

/-- The running values of one download loop: the error list, `totalSize` and `dlSize`. -/
structure DownloadAcc where
  Errors : List GoString
  totalSize : Int
  dlSize : Int
  deriving DecidableEq, Repr

/-- The body of the loops over `p.S3Files` and `p.SftpFiles` (lines 487 to 497 and 500 to
510); `dir` is the input directory of the source kind. -/
def getAgiStatus.downloadStep (e : StatusEnv) (dir : GoString) (acc : DownloadAcc)
    (entry : GoString × DownloaderFile) : DownloadAcc :=
  let fn := entry.1
  let f := entry.2
  let errors := if f.Error ≠ [] then acc.Errors ++ [fn ++ gs "::" ++ f.Error] else acc.Errors
  let totalSize := add64 acc.totalSize f.Size
  let dlSize :=
    if f.IsDownloaded then add64 acc.dlSize f.Size
    else
      match e.Stat (e.pathJoin dir fn) with
      | some nstat => add64 acc.dlSize nstat.Size
      | none => acc.dlSize
  { Errors := errors, totalSize := totalSize, dlSize := dlSize }

/-- Lines 481 to 516: the download stage. -/
def getAgiStatus.download (e : StatusEnv) (status : IngestStatusStruct) (reader : GoString) :
    IngestStatusStruct :=
  let p := e.decodeDownloader reader
  let acc : DownloadAcc := { Errors := status.Ingest.Errors, totalSize := 0, dlSize := 0 }
  let acc := p.S3Files.foldl (getAgiStatus.downloadStep e (gs "/opt/agi/files/input/s3source")) acc
  let acc :=
    p.SftpFiles.foldl (getAgiStatus.downloadStep e (gs "/opt/agi/files/input/sftpsource")) acc
  let ing := { status.Ingest with Errors := acc.Errors, DownloaderTotalSize := acc.totalSize,
                                  DownloaderCompleteSize := acc.dlSize }
  let ing := if acc.totalSize > 0
    then { ing with DownloaderCompletePct := div64 (mul64 100 acc.dlSize) acc.totalSize }
    else ing
  { status with Ingest := ing }

/-- The error lines of the unpack and pre-process stages (lines 521 to 525 and 530 to 534):
one `name::error` line for each error of each file. -/
def getAgiStatus.fileErrors (errors : List GoString) (files : List (GoString × ErrorsFile)) :
    List GoString :=
  files.foldl (fun acc entry =>
    entry.2.Errors.foldl (fun acc nerr => acc ++ [entry.1 ++ gs "::" ++ nerr]) acc) errors

/-- The running values of the log-processing loop: `totalSize` and `dlSize`. -/
structure LogAcc where
  totalSize : Int
  dlSize : Int
  deriving DecidableEq, Repr

/-- The body of the loop over `p.Files` of the log-processing stage (lines 542 to 547). -/
def getAgiStatus.logStep (acc : LogAcc) (entry : GoString × LogFile) : LogAcc :=
  let f := entry.2
  let totalSize := add64 acc.totalSize f.Size
  let dlSize := if f.Finished then add64 acc.dlSize f.Size else add64 acc.dlSize f.Processed
  { totalSize := totalSize, dlSize := dlSize }

/-- Lines 481 to 554: the stage-specific part of the snapshot. -/
def getAgiStatus.stage (e : StatusEnv) (steps : IngestSteps) (status : IngestStatusStruct)
    (reader : GoString) : IngestStatusStruct :=
  if steps.Init && !steps.Download then
    getAgiStatus.download e status reader
  else if steps.Download && !steps.Unpack then
    let ing := { status.Ingest with DownloaderCompletePct := 100 }
    let p := e.decodeUnpacker reader
    { status with Ingest := { ing with Errors := getAgiStatus.fileErrors ing.Errors p.Files } }
  else if steps.Unpack && !steps.PreProcess then
    let ing := { status.Ingest with DownloaderCompletePct := 100 }
    let p := e.decodePreProcessor reader
    { status with Ingest := { ing with Errors := getAgiStatus.fileErrors ing.Errors p.Files } }
  else if steps.PreProcess then
    let ing := { status.Ingest with DownloaderCompletePct := 100 }
    let p := e.decodeLogProcessor reader
    let acc := p.Files.foldl getAgiStatus.logStep { totalSize := 0, dlSize := 0 }
    let ing := { ing with LogProcessorTotalSize := acc.totalSize,
                          LogProcessorCompleteSize := acc.dlSize }
    let ing := if acc.totalSize > 0
      then { ing with LogProcessorCompletePct := div64 (mul64 100 acc.dlSize) acc.totalSize }
      else ing
    { status with Ingest := ing }
  else status

/-- Function `getAgiStatus` (lines 392 to 556). -/
def getAgiStatus (e : StatusEnv) (ingestProgressPath : GoString) :
    Except StatusError IngestStatusStruct :=
  let status := IngestStatusStruct.zero
  match e.Processes with
  | none => .error StatusError.processes
  | some plist =>
    let status :=
      if plist.any (fun p => HasSuffix p.Executable (gs "asd"))
      then { status with AerospikeRunning := true } else status
    let status :=
      if getAgiStatus.pidRunning e (gs "/opt/agi/ingest.pid")
      then { status with Ingest := { status.Ingest with Running := true } } else status
    let status :=
      if getAgiStatus.pidRunning e (gs "/opt/agi/plugin.pid")
      then { status with PluginRunning := true } else status
    let status :=
      if getAgiStatus.pidRunning e (gs "/opt/agi/grafanafix.pid")
      then { status with GrafanaHelperRunning := true } else status
    let steps := getAgiStatus.steps e
    let status := { status with Ingest := { status.Ingest with CompleteSteps := steps } }
    match getAgiStatus.reader e ingestProgressPath steps with
    | .error err => .error err
    | .ok reader => .ok (getAgiStatus.stage e steps status reader)

/-! ## Ingest-detail handler -/

/-- What a control handler leaves behind: the response writer and the goroutines started by
`checkAuth`. -/
structure Served where
  w : ResponseWriter
  spawned : List Goroutine
  deriving DecidableEq, Repr

def StatusBadRequest : Nat := 400
def StatusNotFound : Nat := 404
def StatusInternalServerError : Nat := 500

/-- The allow-list of `handleIngestDetail` (line 335). -/
def handleIngestDetail.files : List GoString :=
  [gs "downloader.json", gs "unpacker.json", gs "pre-processor.json", gs "log-processor.json",
   gs "cf-processor.json", gs "steps.json"]

/-- Lines 353 to 372 of `handleIngestDetail`: open the file, unwrap gzip, copy it out. The text
of the operating-system error appended to the 500 messages is left out. -/
def handleIngestDetail.serve (e : StatusEnv) (w : ResponseWriter) (npath : GoString) (gz : Bool) :
    ResponseWriter :=
  match e.Open npath with
  | none => Error w (gs "could not open file: ") StatusInternalServerError
  | some f =>
    let reader : Option GoString := if gz then e.gzipNewReader f else some f
    match reader with
    | none => Error w (gs "could not open gz for reading: ") StatusInternalServerError
    | some content =>
      let w := { w with header := Header.Set w.header (gs "Content-Type") (gs "application/json") }
      let w := ResponseWriter.WriteHeader w StatusOK
      ResponseWriter.Write w content

/-- Method `handleIngestDetail` (lines 330 to 373). -/
def handleIngestDetail (c : agiExecProxyCmd) (e : StatusEnv) (now : Time) (w : ResponseWriter)
    (r : Request) : Served :=
  let a := checkAuth c now w r
  if !a.ok then { w := a.w, spawned := a.spawned }
  else
    let w := a.w
    let fname := Request.FormValue r (gs "detail")
    if !HasString handleIngestDetail.files fname then
      { w := Error w (gs "invalid detail type") StatusBadRequest, spawned := a.spawned }
    else
      let npath := e.pathJoin c.IngestProgressPath fname
      let npath := if fname = gs "steps.json" then gs "/opt/agi/ingest/steps.json" else npath
      match e.Stat npath with
      | some _ => { w := handleIngestDetail.serve e w npath false, spawned := a.spawned }
      | none =>
        let npath := npath ++ gs ".gz"
        match e.Stat npath with
        | none => { w := Error w (gs "file not found") StatusNotFound, spawned := a.spawned }
        | some _ => { w := handleIngestDetail.serve e w npath true, spawned := a.spawned }

/-! ## Monitors and control endpoints -/

/-- One second, one minute (`time.Second`, `time.Minute`) in nanoseconds. -/
def Second : Int := 1000000000

def Minute : Int := 60 * Second

/-- Modelled from the spec: the event kinds `AgiEventMaxAge`, `AgiEventMaxInactive`,
`AgiEventSpotNoCapacity`, `AgiEventServiceDown` and `AgiEventServiceUp`; the constants are
declared outside the sources at hand. -/
inductive AgiEvent where
  | MaxAge
  | MaxInactive
  | SpotNoCapacity
  | ServiceDown
  | ServiceUp
  deriving DecidableEq, Repr

/-- Modelled from the spec: the Notification Event `ingest.NotifyEvent`, with the fields the
proxy fills in. -/
structure NotifyEvent where
  IsDataInMemory : Bool
  IngestStatus : IngestStatusStruct
  Event : AgiEvent
  AGIName : GoString
  EventDetail : GoString
  deriving DecidableEq, Repr

/-- The bodies of the `go func()` statements of the monitors and control handlers. -/
inductive Task where
  | notifyStatus (event : AgiEvent)
  | shutdownCommand
  | serverShutdown
  deriving DecidableEq, Repr

/-- The observable actions of a monitor or control handler, in program order; `writeHeader`
and `write` are the calls on the response writer of a control handler. -/
inductive Effect where
  | sleep (d : Int)
  | setShuttingDown (b : Bool)
  | setLastActivity (t : Time)
  | notifyJSON (item : NotifyEvent)
  | notifySlack (event : AgiEvent)
  | exec (name : GoString) (arg : List GoString)
  | spawn (task : Task)
  | serverShutdown (timeout : Int)
  | writeHeader (code : Nat)
  | write (b : GoString)
  deriving DecidableEq, Repr

/-- The write an effect makes to the command state. -/
def Effect.apply (c : agiExecProxyCmd) : Effect → agiExecProxyCmd
  | .setShuttingDown b => { c with shuttingDown := b }
  | .setLastActivity t => { c with lastActivity := t }
  | _ => c

/-- The command state after the effects, in order. -/
def applyAll (c : agiExecProxyCmd) (trace : List Effect) : agiExecProxyCmd :=
  trace.foldl Effect.apply c

/-- A piece of a run: the command state it ends in and the effects it made. -/
structure Ran where
  c : agiExecProxyCmd
  trace : List Effect
  deriving DecidableEq, Repr

/-- The shutdown action (lines 590 to 595, 625 to 630, 802 to 807): split the command on spaces,
run the first piece with the others as arguments. -/
def shutdownAction (c : agiExecProxyCmd) : Effect :=
  let shcomm := stringsSplit 32 c.ShutdownCommand
  let shparams := if shcomm.length > 1 then shcomm.drop 1 else []
  Effect.exec (shcomm.headD []) shparams

/-- The notification pair of the monitors: the JSON event, then the chat message. -/
def notifyBoth (c : agiExecProxyCmd) (stat : IngestStatusStruct) (event : AgiEvent)
    (detail : GoString) : List Effect :=
  [ Effect.notifyJSON { IsDataInMemory := c.isDim, IngestStatus := stat, Event := event,
                        AGIName := c.AGIName, EventDetail := detail },
    Effect.notifySlack event ]

/-- The effects of a spawned task once it runs. -/
def Task.run (e : StatusEnv) (c : agiExecProxyCmd) : Task → List Effect
  | .notifyStatus event =>
    match getAgiStatus e (gs "/opt/agi/ingest/") with
    | .ok notifyData => notifyBoth c notifyData event []
    | .error _ => []
  | .shutdownCommand => [shutdownAction c]
  | .serverShutdown => [Effect.serverShutdown (60 * Second)]

/-- One round of the loop of `activityMonitor` (lines 749 to 817). `tSet` is the value of
`time.Now()` where the Activity Timestamp is set, `tCheck` the instant `time.Since` reads. -/
def activityMonitor.tick (e : StatusEnv) (tSet tCheck : Time) (c : agiExecProxyCmd) : Ran :=
  let trace := [Effect.sleep Minute]
  match e.Stat (gs "/opt/agi/ingest.pid") with
  | some _ => { c := { c with lastActivity := tSet }, trace := trace ++ [Effect.setLastActivity tSet] }
  | none =>
    if c.gottyConns ≠ gs "0" then
      { c := { c with lastActivity := tSet }, trace := trace ++ [Effect.setLastActivity tSet] }
    else
      let found :=
        match e.Processes with
        | some pids => pids.any (fun pid => !(pid.Pid == 1) && pid.Executable == gs "bash")
        | none => false
      let c := if found then { c with lastActivity := tSet } else c
      let trace := if found then trace ++ [Effect.setLastActivity tSet] else trace
      let newActivity := c.lastActivity
      if (tCheck : Int) - (newActivity : Int) > c.MaxInactivity then
        { c := { c with shuttingDown := true },
          trace := trace ++ [Effect.spawn (Task.notifyStatus AgiEvent.MaxInactive),
                             Effect.sleep Minute, Effect.setShuttingDown true, shutdownAction c] }
      else
        { c := c, trace := trace }

/-- Method `maxUptime` (lines 604 to 636). -/
def maxUptime (c : agiExecProxyCmd) : Ran :=
  { c := { c with shuttingDown := true },
    trace := [Effect.sleep (c.MaxUptime - Minute), Effect.setShuttingDown true,
              Effect.spawn (Task.notifyStatus AgiEvent.MaxAge), Effect.sleep Minute,
              shutdownAction c] }

/-- One round of the loop of `spotMonitor` (lines 667 to 693). `spot` is what
`spotGetInstanceAction` returns: `none` for an error, else the body and the status code. -/
def spotMonitor.iteration (spot : Option (GoString × Int)) (e : StatusEnv)
    (c : agiExecProxyCmd) : Ran :=
  let trace := [Effect.sleep (30 * Second)]
  match spot with
  | none => { c := c, trace := trace }
  | some (body, code) =>
    if code < 200 ∨ code > 299 then { c := c, trace := trace }
    else
      match getAgiStatus e (gs "/opt/agi/ingest/") with
      | .error _ => { c := c, trace := trace }
      | .ok stat =>
        { c := { c with shuttingDown := false },
          trace := trace ++ [Effect.setShuttingDown true]
            ++ notifyBoth c stat AgiEvent.SpotNoCapacity body
            ++ [Effect.sleep (2 * Minute), Effect.setShuttingDown false] }

/-- The four "is stopped" signals of `serviceMonitor` (line 714). -/
def serviceMonitor.signals (stat : IngestStatusStruct) : List Bool :=
  [ !stat.AerospikeRunning, !stat.GrafanaHelperRunning, !stat.PluginRunning,
    !stat.Ingest.Running &&
      (!stat.Ingest.CompleteSteps.ProcessLogs || !stat.Ingest.CompleteSteps.ProcessCollectInfo) ]

/-- The running values of the loop over the signals: the history and the two notify flags. -/
structure ServiceAcc where
  servicesRunning : List Bool
  notifyDown : Bool
  notifyUp : Bool
  deriving DecidableEq, Repr

/-- The loop over the signals (lines 714 to 721), from index `i` on. An index outside the
history reads as `true`; the history of the monitor always has four entries. -/
def serviceMonitor.loop : Nat → List Bool → ServiceAcc → ServiceAcc
  | _, [], acc => acc
  | i, isStopped :: rest, acc =>
    let wasRunning := acc.servicesRunning.getD i true
    let notifyDown := if isStopped && wasRunning then true else acc.notifyDown
    let notifyUp :=
      if isStopped && wasRunning then acc.notifyUp
      else if !isStopped && !wasRunning then true else acc.notifyUp
    serviceMonitor.loop (i + 1) rest
      { servicesRunning := acc.servicesRunning.set i (!isStopped),
        notifyDown := notifyDown, notifyUp := notifyUp }

/-- The history `serviceMonitor` starts with (line 698). -/
def serviceMonitor.initial : List Bool := [true, true, true, true]

/-- One round of the loop of `serviceMonitor` (lines 700 to 742): the history after it, the
command state and the effects. -/
def serviceMonitor.tick (e : StatusEnv) (servicesRunning : List Bool) (c : agiExecProxyCmd) :
    List Bool × Ran :=
  let trace := [Effect.sleep Minute]
  if c.shuttingDown then (servicesRunning, { c := c, trace := trace })
  else
    match getAgiStatus e (gs "/opt/agi/ingest/") with
    | .error _ => (servicesRunning, { c := c, trace := trace })
    | .ok stat =>
      let acc := serviceMonitor.loop 0 (serviceMonitor.signals stat)
        { servicesRunning := servicesRunning, notifyDown := false, notifyUp := false }
      if acc.notifyDown then
        (acc.servicesRunning,
          { c := c, trace := trace ++ notifyBoth c stat AgiEvent.ServiceDown [] })
      else if acc.notifyUp then
        (acc.servicesRunning,
          { c := c, trace := trace ++ notifyBoth c stat AgiEvent.ServiceUp [] })
      else (acc.servicesRunning, { c := c, trace := trace })

/-- What the shutdown and poweroff handlers leave behind. -/
structure Controlled where
  c : agiExecProxyCmd
  w : ResponseWriter
  spawned : List Goroutine
  trace : List Effect
  deriving DecidableEq, Repr

/-- Method `handleShutdown` (lines 558 to 577). -/
def handleShutdown (c : agiExecProxyCmd) (now : Time) (w : ResponseWriter) (r : Request) :
    Controlled :=
  let a := checkAuth c now w r
  if !a.ok then { c := c, w := a.w, spawned := a.spawned, trace := [] }
  else
    let c := { c with shuttingDown := true }
    let w := ResponseWriter.WriteHeader a.w StatusOK
    let w := ResponseWriter.Write w (gs "Shutting down...")
    { c := c, w := w, spawned := a.spawned,
      trace := [Effect.setShuttingDown true, Effect.writeHeader StatusOK,
                Effect.write (gs "Shutting down..."), Effect.spawn Task.serverShutdown] }

/-- Method `handlePoweroff` (lines 579 to 602). -/
def handlePoweroff (c : agiExecProxyCmd) (now : Time) (w : ResponseWriter) (r : Request) :
    Controlled :=
  let a := checkAuth c now w r
  if !a.ok then { c := c, w := a.w, spawned := a.spawned, trace := [] }
  else
    let c := { c with shuttingDown := true }
    let w := ResponseWriter.WriteHeader a.w StatusOK
    let w := ResponseWriter.Write w (gs "Poweroff...")
    { c := c, w := w, spawned := a.spawned,
      trace := [Effect.setShuttingDown true, Effect.writeHeader StatusOK,
                Effect.write (gs "Poweroff..."), Effect.spawn Task.shutdownCommand] }

/-- The operations of the proxy that run against the command state: the rounds of the four
monitors, the two control endpoints, a token reload, and a pending goroutine or task. -/
inductive Operation where
  | activityTick (e : StatusEnv) (tSet tCheck : Time)
  | maxUptime
  | spotIteration (spot : Option (GoString × Int)) (e : StatusEnv)
  | serviceTick (e : StatusEnv) (servicesRunning : List Bool)
  | handleShutdown (now : Time) (w : ResponseWriter) (r : Request)
  | handlePoweroff (now : Time) (w : ResponseWriter) (r : Request)
  | loadTokens (d : TokenDir)
  | goroutine (g : Goroutine)
  | task (e : StatusEnv) (t : Task)

/-- The command state an operation ends in and the effects it makes. -/
def Operation.run (c : agiExecProxyCmd) : Operation → Ran
  | .activityTick e tSet tCheck => activityMonitor.tick e tSet tCheck c
  | .maxUptime => Aerolab.maxUptime c
  | .spotIteration spot e => spotMonitor.iteration spot e c
  | .serviceTick e servicesRunning => (serviceMonitor.tick e servicesRunning c).2
  | .handleShutdown now w r =>
    { c := (Aerolab.handleShutdown c now w r).c, trace := (Aerolab.handleShutdown c now w r).trace }
  | .handlePoweroff now w r =>
    { c := (Aerolab.handlePoweroff c now w r).c, trace := (Aerolab.handlePoweroff c now w r).trace }
  | .loadTokens d => { c := loadTokensDo c d, trace := [] }
  | .goroutine g =>
    match g with
    | .lastActivitySet t => { c := Goroutine.run c g, trace := [Effect.setLastActivity t] }
  | .task e t => { c := c, trace := Task.run e c t }

/-- Is the operation a round of the spot-interruption monitor. -/
def Operation.isSpot : Operation → Bool
  | .spotIteration _ _ => true
  | _ => false

/-! ## Auxiliary definitions and example inputs -/

/-- The token a visit contributes, if any. -/
def tokenOfVisit (d : TokenDir) (v : WalkVisit) : Option GoString :=
  if v.err then none
  else if v.isDir then none
  else
    match d.ReadFile v.fpath with
    | none => none
    | some token => if token.length < 64 then none else some token

/-- The response writer with the header line `checkAuth` adds first. -/
def withSTS (w : ResponseWriter) : ResponseWriter :=
  { w with header :=
      Header.Add w.header (gs "Strict-Transport-Security") (gs "max-age=31536000") }

/-- Flag struct of a process started with `--auth-type basic` and otherwise default flags. -/
def basicFlags : agiExecProxyCmd :=
  { agiExecProxyCmd.defaults with AuthType := gs "basic" }

/-- Flag struct of a process started with `--auth-type token` and otherwise default flags. -/
def tokenFlags : agiExecProxyCmd :=
  { agiExecProxyCmd.defaults with AuthType := gs "token" }

/-- A GET request for a path on host `agi.example.com`, as the server parses it: no form
values, no cookies, no credentials, and no `Host` line left in the header map. -/
def getRequest (path : GoString) : Request :=
  { Method := gs "GET", URL := { Scheme := [], Host := [], Path := path },
    Host := gs "agi.example.com", Header := [], Form := [], Cookies := [], basicAuth := none }

/-- The cookie `checkAuth` issues for a token. -/
def tokenCookie (c : agiExecProxyCmd) (t : GoString) : Cookie :=
  { Name := c.TokenName, Value := t, MaxAge := 0, Path := gs "/" }

/-- A token directory holding one 64-byte token file and one 5-byte file. -/
def exampleTokenDir : TokenDir :=
  { visits := [ { fpath := gs "/opt/agitokens", isDir := true, err := false },
                { fpath := gs "/opt/agitokens/a", isDir := false, err := false },
                { fpath := gs "/opt/agitokens/b", isDir := false, err := false } ],
    ReadFile := fun p =>
      if p = gs "/opt/agitokens/a" then some (List.replicate 64 97)
      else if p = gs "/opt/agitokens/b" then some (gs "short")
      else none }

/-- A process started with `--auth-type token` after one reload of `exampleTokenDir`. -/
def tokenCmd : agiExecProxyCmd :=
  loadTokensDo (Execute_setup tokenFlags 0) exampleTokenDir

/-- A GET request carrying a query parameter, a cookie and Basic credentials. -/
def busyRequest : Request :=
  { Method := gs "GET", URL := { Scheme := [], Host := [], Path := gs "/" },
    Host := gs "agi.example.com", Header := [], Form := [(gs "AGI_TOKEN", gs "x")],
    Cookies := [(gs "AGI_TOKEN", gs "y")], basicAuth := some (gs "root", gs "toor") }

/-- The size of a download entry. -/
def entrySize (entry : GoString × DownloaderFile) : Int :=
  entry.2.Size

/-- The bytes a download entry counts as downloaded, in the words of the spec: its size when
it is marked downloaded, otherwise the size of its file on disk, 0 when the file is absent. -/
def downloadedBytes (e : StatusEnv) (dir : GoString) (entry : GoString × DownloaderFile) : Int :=
  if entry.2.IsDownloaded then entry.2.Size
  else
    match e.Stat (e.pathJoin dir entry.1) with
    | some nstat => nstat.Size
    | none => 0

/-- The exact sum of the sizes of all S3 and SFTP entries. -/
def downloadTotal (p : ProgressDownloader) : Int :=
  (p.S3Files.map entrySize).sum + (p.SftpFiles.map entrySize).sum

/-- The exact sum of the downloaded bytes of all S3 and SFTP entries. -/
def downloadDone (e : StatusEnv) (p : ProgressDownloader) : Int :=
  (p.S3Files.map (downloadedBytes e (gs "/opt/agi/files/input/s3source"))).sum +
    (p.SftpFiles.map (downloadedBytes e (gs "/opt/agi/files/input/sftpsource"))).sum

/-- An instance in the download stage: the steps marker says init done, `downloader.json`
exists and decodes to the given progress, no entry has a file on disk. -/
def downloadEnv (p : ProgressDownloader) : StatusEnv :=
  { Processes := some [],
    ReadFile := fun f => if f = gs "/opt/agi/ingest/steps.json" then some (gs "steps") else none,
    Atoi := fun _ => none,
    FindProcess := fun _ => true,
    Stat := fun f => if f = gs "/opt/agi/ingest/downloader.json" then some ⟨64⟩ else none,
    Open := fun f => if f = gs "/opt/agi/ingest/downloader.json" then some (gs "progress") else none,
    gzipNewReader := fun _ => none,
    pathJoin := fun a b => if a.getLast? = some 47 then a ++ b else a ++ gs "/" ++ b,
    unmarshalSteps := fun _ => { IngestSteps.zero with Init := true },
    decodeDownloader := fun _ => p,
    decodeUnpacker := fun _ => ⟨[]⟩,
    decodePreProcessor := fun _ => ⟨[]⟩,
    decodeLogProcessor := fun _ => ⟨[]⟩ }

/-- Download progress with total 200 and downloaded 50: one S3 entry of 150 bytes not yet
downloaded and absent from disk, one SFTP entry of 50 bytes marked downloaded. -/
def progress200 : ProgressDownloader :=
  { S3Files := [(gs "a.tgz", { Size := 150, IsDownloaded := false, Error := [] })],
    SftpFiles := [(gs "b.tgz", { Size := 50, IsDownloaded := true, Error := [] })] }

/-- Download progress with one S3 entry of 10^17 bytes marked downloaded. -/
def progressHuge : ProgressDownloader :=
  { S3Files := [(gs "a.tgz", { Size := 100000000000000000, IsDownloaded := true, Error := [] })],
    SftpFiles := [] }

/-- The download percentage of a result of `getAgiStatus`, when it is a snapshot. -/
def downloadPct (res : Except StatusError IngestStatusStruct) : Option Int :=
  match res with
  | .ok st => some st.Ingest.DownloaderCompletePct
  | .error _ => none

/-- The download byte counts (total, downloaded) of a result of `getAgiStatus`. -/
def downloadSizes (res : Except StatusError IngestStatusStruct) : Option (Int × Int) :=
  match res with
  | .ok st => some (st.Ingest.DownloaderTotalSize, st.Ingest.DownloaderCompleteSize)
  | .error _ => none

/-- The snapshot `getAgiStatus` has built when it reaches the stage-specific part (line 481):
the process flags and the steps marker are set, everything else is zero. -/
def statusBeforeStage (e : StatusEnv) (plist : List Process) : IngestStatusStruct :=
  { Ingest := { IngestStatusStruct.zero.Ingest with
                  Running := getAgiStatus.pidRunning e (gs "/opt/agi/ingest.pid"),
                  CompleteSteps := getAgiStatus.steps e },
    AerospikeRunning := plist.any (fun p => HasSuffix p.Executable (gs "asd")),
    PluginRunning := getAgiStatus.pidRunning e (gs "/opt/agi/plugin.pid"),
    GrafanaHelperRunning := getAgiStatus.pidRunning e (gs "/opt/agi/grafanafix.pid") }

/-- Is the result of `getAgiStatus` a snapshot (not an error). -/
def isSnapshot (res : Except StatusError IngestStatusStruct) : Bool :=
  match res with
  | .ok _ => true
  | .error _ => false

/-- The error list the spec describes for the unpack and pre-process stages: one line
`name::error` for every error string of every file. -/
def expectedErrors (files : List (GoString × ErrorsFile)) : List GoString :=
  files.flatMap (fun entry => entry.2.Errors.map (fun nerr => entry.1 ++ gs "::" ++ nerr))

/-- The exact sum of the file sizes of the log-processing progress. -/
def logTotal (p : ProgressLogProcessor) : Int :=
  (p.Files.map (fun entry => entry.2.Size)).sum

/-- The bytes a log file counts as processed, in the words of the spec: its size when it is
finished, otherwise its processed byte count. -/
def processedBytes (entry : GoString × LogFile) : Int :=
  if entry.2.Finished then entry.2.Size else entry.2.Processed

/-- The exact sum of the processed bytes of the log-processing progress. -/
def logDone (p : ProgressLogProcessor) : Int :=
  (p.Files.map processedBytes).sum

/-- The value of a decimal digit byte. -/
def digitValue (b : UInt8) : Option Nat :=
  if 48 ≤ b.toNat ∧ b.toNat ≤ 57 then some (b.toNat - 48) else none

/-- The number a non-empty string of decimal digits denotes. -/
def parseDigits (s : GoString) : Option Nat :=
  if s = [] then none
  else s.foldl (fun acc b =>
    match acc, digitValue b with
    | some n, some d => some (10 * n + d)
    | _, _ => none) (some 0)

/-- Library `strconv.Atoi`: an optional sign, then decimal digits only, within the range of a
64-bit `int`. -/
def strconvAtoi (s : GoString) : Option Int :=
  let signed : Option Int :=
    match s with
    | 45 :: rest => (parseDigits rest).map (fun n => -(n : Int))
    | 43 :: rest => (parseDigits rest).map (fun n => (n : Int))
    | _ => (parseDigits s).map (fun n => (n : Int))
  match signed with
  | some n => if -2 ^ 63 ≤ n ∧ n < 2 ^ 63 then some n else none
  | none => none

/-- Library `os.FindProcess` on Unix systems: it always succeeds and returns a Process for the
given pid, regardless of whether the process exists. -/
def unixFindProcess (_pid : Int) : Bool := true

/-- An instance with the given steps marker, files (path, content) and decoded progress
structures: a listed file exists and opens, a `.gz` file unwraps when `gunzip` does, PID files
are read through `ReadFile`, the process list is `plist`. -/
def stageEnv (steps : IngestSteps) (files : List (GoString × GoString)) (plist : List Process)
    (gunzip : GoString → Option GoString) (pu : ProgressUnpacker) (pp : ProgressPreProcessor)
    (pl : ProgressLogProcessor) : StatusEnv :=
  { Processes := some plist,
    ReadFile := fun f =>
      if f = gs "/opt/agi/ingest/steps.json" then some (gs "steps")
      else (files.find? (fun kv => kv.1 == f)).map (fun kv => kv.2),
    Atoi := strconvAtoi,
    FindProcess := unixFindProcess,
    Stat := fun f => (files.find? (fun kv => kv.1 == f)).map (fun kv => ⟨kv.2.length⟩),
    Open := fun f => (files.find? (fun kv => kv.1 == f)).map (fun kv => kv.2),
    gzipNewReader := gunzip,
    pathJoin := fun a b => if a.getLast? = some 47 then a ++ b else a ++ gs "/" ++ b,
    unmarshalSteps := fun _ => steps,
    decodeDownloader := fun _ => ⟨[], []⟩,
    decodeUnpacker := fun _ => pu,
    decodePreProcessor := fun _ => pp,
    decodeLogProcessor := fun _ => pl }

/-- Steps marker: init and download done. -/
def stepsDownloaded : IngestSteps :=
  { IngestSteps.zero with Init := true, Download := true }

/-- Steps marker: init, download and unpack done. -/
def stepsUnpacked : IngestSteps :=
  { IngestSteps.zero with Init := true, Download := true, Unpack := true }

/-- Steps marker: init, download, unpack and pre-process done. -/
def stepsPreProcessed : IngestSteps :=
  { IngestSteps.zero with Init := true, Download := true, Unpack := true, PreProcess := true }

/-- Unpack progress with two files and three error strings, one of them twice. -/
def unpackProgress : ProgressUnpacker :=
  { Files := [(gs "a.tgz", { Errors := [gs "bad header", gs "bad header"] }),
              (gs "b.zip", { Errors := [gs "truncated"] })] }

/-- Log-processing progress with total 200 and processed 50: one unfinished file of 150 bytes
with 0 processed, one finished file of 50 bytes. -/
def logProgress200 : ProgressLogProcessor :=
  { Files := [(gs "a.log", { Size := 150, Processed := 0, Finished := false }),
              (gs "b.log", { Size := 50, Processed := 50, Finished := true })] }

/-- Log-processing progress with one finished file of 10^17 bytes. -/
def logProgressHuge : ProgressLogProcessor :=
  { Files := [(gs "a.log", { Size := 100000000000000000, Processed := 100000000000000000,
                             Finished := true })] }

/-- Steps marker with pre-process done but download not done (steps out of order). -/
def stepsOutOfOrder : IngestSteps :=
  { IngestSteps.zero with Init := true, PreProcess := true }

/-- The log-processing counters (total, processed, percentage) and the download percentage
of a result of `getAgiStatus`. -/
def logCounters (res : Except StatusError IngestStatusStruct) : Option (Int × Int × Int × Int) :=
  match res with
  | .ok st => some (st.Ingest.LogProcessorTotalSize, st.Ingest.LogProcessorCompleteSize,
      st.Ingest.LogProcessorCompletePct, st.Ingest.DownloaderCompletePct)
  | .error _ => none

/-- Pre-process progress with one file and one error string. -/
def preProcessProgress : ProgressPreProcessor :=
  { Files := [(gs "node1.log", { Errors := [gs "unknown format"] })] }

/-- The error list and the download percentage of a result of `getAgiStatus`. -/
def errorsAndPct (res : Except StatusError IngestStatusStruct) : Option (List GoString × Int) :=
  match res with
  | .ok st => some (st.Ingest.Errors, st.Ingest.DownloaderCompletePct)
  | .error _ => none

/-- The three PID-file flags (pipeline, plugin, auxiliary helper) of a result of
`getAgiStatus`. -/
def runningFlags (res : Except StatusError IngestStatusStruct) : Option (Bool × Bool × Bool) :=
  match res with
  | .ok st => some (st.Ingest.Running, st.PluginRunning, st.GrafanaHelperRunning)
  | .error _ => none

/-- Is the PID the PID of a process of the process list. -/
def isLive (plist : List Process) (pid : Int) : Bool :=
  plist.any (fun p => p.Pid == pid)

/-- The path `handleIngestDetail` resolves for an allow-listed name (lines 340 to 343). -/
def detailPath (c : agiExecProxyCmd) (e : StatusEnv) (fname : GoString) : GoString :=
  if fname = gs "steps.json" then gs "/opt/agi/ingest/steps.json"
  else e.pathJoin c.IngestProgressPath fname

/-- A process started with default flags (`--auth-type none`). -/
def noneCmd : agiExecProxyCmd :=
  Execute_setup agiExecProxyCmd.defaults 0

/-- A GET request for `/agi/ingest/detail?detail=` with the given value. -/
def detailRequest (detail : GoString) : Request :=
  { getRequest (gs "/agi/ingest/detail") with Form := [(gs "detail", detail)] }

/-- An instance without any progress file. -/
def emptyEnv : StatusEnv :=
  stageEnv IngestSteps.zero [] [] (fun _ => none) ⟨[]⟩ ⟨[]⟩ ⟨[]⟩

/-- Does the effect clear the Shutdown Flag. -/
def clearsFlag : Effect → Bool
  | .setShuttingDown false => true
  | _ => false

/-- Does every effect of the trace that clears the Shutdown Flag come directly after a sleep
of duration `d`; `prev` is the effect before the trace. -/
def clearsOnlyAfterSleep (d : Int) : Option Effect → List Effect → Bool
  | _, [] => true
  | prev, x :: rest =>
    (if clearsFlag x then prev == some (Effect.sleep d) else true) &&
      clearsOnlyAfterSleep d (some x) rest

/-- The event kinds of the JSON notifications of a trace, in order. -/
def notifiedEvents (trace : List Effect) : List AgiEvent :=
  trace.filterMap (fun x =>
    match x with
    | .notifyJSON item => some item.Event
    | _ => none)

/-- Does a signal go from running to down: stopped now, running in the history. -/
def goesDown (signals history : List Bool) : Bool :=
  (signals.zip history).any (fun p => p.1 && p.2)

/-- Does a signal go from down to running: not stopped now, not running in the history. -/
def goesUp (signals history : List Bool) : Bool :=
  (signals.zip history).any (fun p => !p.1 && !p.2)

/-- An instance where only the database daemon and PID 1 run, with all steps complete. -/
def asdOnlyEnv : StatusEnv :=
  stageEnv { Init := true, Download := true, Unpack := true, PreProcess := true,
             ProcessLogs := true, ProcessCollectInfo := true }
    [] [{ Pid := 1, PPid := 0, Executable := gs "systemd" },
        { Pid := 40, PPid := 1, Executable := gs "asd" }] (fun _ => none) ⟨[]⟩ ⟨[]⟩ ⟨[]⟩

/-- What one round of the inactivity monitor observes: the operating system, the value of
`time.Now()` where the timestamp is set and the instant `time.Since` reads. -/
structure TickObs where
  e : StatusEnv
  tSet : Time
  tCheck : Time

/-- Consecutive rounds of the loop of `activityMonitor`, one for each observation. -/
def activityMonitor.run : List TickObs → agiExecProxyCmd → Ran
  | [], c => { c := c, trace := [] }
  | o :: rest, c =>
    let first := activityMonitor.tick o.e o.tSet o.tCheck c
    let more := activityMonitor.run rest first.c
    { c := more.c, trace := first.trace ++ more.trace }

/-- Does the process list show an interactive shell: a process other than PID 1 whose
executable is `bash`. -/
def shellFound (e : StatusEnv) : Bool :=
  match e.Processes with
  | some pids => pids.any (fun pid => !(pid.Pid == 1) && pid.Executable == gs "bash")
  | none => false

/-- The round sees no activity signal from the operating system: no pipeline PID file and no
interactive shell. -/
def quiet (e : StatusEnv) : Bool :=
  (e.Stat (gs "/opt/agi/ingest.pid")).isNone && !shellFound e

/-- Is the effect a run of an external command. -/
def isExec : Effect → Bool
  | .exec _ _ => true
  | _ => false

/-- A process with max-inactivity 2 minutes, the connection counter at "0" and the last
activity at instant 0. -/
def twoMinuteCmd : agiExecProxyCmd :=
  { noneCmd with MaxInactivity := 2 * Minute }

/-- An instance with PID 1 and an interactive shell (PID 77) and nothing else. -/
def shellEnv : StatusEnv :=
  stageEnv IngestSteps.zero [] [{ Pid := 1, PPid := 0, Executable := gs "bash" },
    { Pid := 77, PPid := 1, Executable := gs "bash" }] (fun _ => none) ⟨[]⟩ ⟨[]⟩ ⟨[]⟩

/-- The trace and state of a round of the inactivity monitor that finds the limit breached
(lines 783 to 813). -/
def breachRound (c : agiExecProxyCmd) : Ran :=
  { c := { c with shuttingDown := true },
    trace := [Effect.sleep Minute, Effect.spawn (Task.notifyStatus AgiEvent.MaxInactive),
              Effect.sleep Minute, Effect.setShuttingDown true, shutdownAction c] }

/-- The time a sleep effect takes (`time.Sleep` returns at once for a negative duration), zero
for every other effect. -/
def sleepTime : Effect → Int
  | .sleep d => if d < 0 then 0 else d
  | _ => 0

/-- The time the sleeps of a trace take together. -/
def sleptFor (trace : List Effect) : Int :=
  (trace.map sleepTime).sum

/-- An instance whose process list cannot be read, so that `getAgiStatus` fails. -/
def failingEnv : StatusEnv :=
  { emptyEnv with Processes := none }

/-- The time the comparisons take together. By the contract of `subtle.ConstantTimeCompare`
the time of one call is a function `cost` of the lengths of its two slices and independent of
their contents. -/
def compareTime (cost : Nat → Nat → Nat) (calls : List (GoString × GoString)) : Nat :=
  (calls.map (fun xy => cost xy.1.length xy.2.length)).sum

/-- A GET request for `/` with the given Basic credentials. -/
def loginRequest (user pass : GoString) : Request :=
  { getRequest (gs "/") with basicAuth := some (user, pass) }

/-- The four JSON decoders of `getAgiStatus` (lines 482, 519, 528 and 537). -/
inductive Decoder where
  | downloader
  | unpacker
  | preProcessor
  | logProcessor
  deriving DecidableEq, Repr

/-- The branch of the second if-chain of `getAgiStatus` (lines 481, 517, 526 and 535) a steps
marker selects, named by the decoder the branch applies; `none` when no branch runs. -/
def getAgiStatus.decoder (steps : IngestSteps) : Option Decoder :=
  if steps.Init && !steps.Download then some Decoder.downloader
  else if steps.Download && !steps.Unpack then some Decoder.unpacker
  else if steps.Unpack && !steps.PreProcess then some Decoder.preProcessor
  else if steps.PreProcess then some Decoder.logProcessor
  else none

/-- The progress file each decoder is meant for; the empty name when there is none. -/
def progressFile : Option Decoder → GoString
  | some Decoder.downloader => gs "downloader.json"
  | some Decoder.unpacker => gs "unpacker.json"
  | some Decoder.preProcessor => gs "pre-processor.json"
  | some Decoder.logProcessor => gs "log-processor.json"
  | none => []

/-- The body of the log-processing branch (lines 536 to 553). -/
def logBranch (e : StatusEnv) (status : IngestStatusStruct) (reader : GoString) :
    IngestStatusStruct :=
  let ing := { status.Ingest with DownloaderCompletePct := 100 }
  let p := e.decodeLogProcessor reader
  let acc := p.Files.foldl getAgiStatus.logStep { totalSize := 0, dlSize := 0 }
  let ing := { ing with LogProcessorTotalSize := acc.totalSize,
                        LogProcessorCompleteSize := acc.dlSize }
  let ing := if acc.totalSize > 0
    then { ing with LogProcessorCompletePct := div64 (mul64 100 acc.dlSize) acc.totalSize }
    else ing
  { status with Ingest := ing }

/-- The stage-specific part of the snapshot as a function of the decoder that is applied. -/
def stageOf (e : StatusEnv) (status : IngestStatusStruct) (reader : GoString) :
    Option Decoder → IngestStatusStruct
  | some Decoder.downloader => getAgiStatus.download e status reader
  | some Decoder.unpacker =>
    { status with Ingest := { status.Ingest with
        DownloaderCompletePct := 100,
        Errors := getAgiStatus.fileErrors status.Ingest.Errors (e.decodeUnpacker reader).Files } }
  | some Decoder.preProcessor =>
    { status with Ingest := { status.Ingest with
        DownloaderCompletePct := 100,
        Errors :=
          getAgiStatus.fileErrors status.Ingest.Errors (e.decodePreProcessor reader).Files } }
  | some Decoder.logProcessor => logBranch e status reader
  | none => status

/-- A download entry is well formed: its recorded size is not negative, and when its file is
on disk the size of the file is not negative and not above the recorded size. -/
def wellFormedEntry (e : StatusEnv) (dir : GoString) (entry : GoString × DownloaderFile) : Bool :=
  decide (0 ≤ entry.2.Size) &&
    match e.Stat (e.pathJoin dir entry.1) with
    | some nstat => decide (0 ≤ nstat.Size) && decide (nstat.Size ≤ entry.2.Size)
    | none => true

/-- Well-formed download progress: every S3 and every SFTP entry is well formed. -/
def wellFormedDownload (e : StatusEnv) (p : ProgressDownloader) : Bool :=
  p.S3Files.all (wellFormedEntry e (gs "/opt/agi/files/input/s3source")) &&
    p.SftpFiles.all (wellFormedEntry e (gs "/opt/agi/files/input/sftpsource"))

/-- Well-formed log-processing progress: every file has `0 ≤ Processed ≤ Size`. -/
def wellFormedLog (p : ProgressLogProcessor) : Bool :=
  p.Files.all (fun entry =>
    decide (0 ≤ entry.2.Processed) && decide (entry.2.Processed ≤ entry.2.Size))

/-- The two percentages (download, log processing) of a result of `getAgiStatus`. -/
def bothPct (res : Except StatusError IngestStatusStruct) : Option (Int × Int) :=
  match res with
  | .ok st => some (st.Ingest.DownloaderCompletePct, st.Ingest.LogProcessorCompletePct)
  | .error _ => none

/-- A byte `http.Redirect` leaves alone inside a path segment: printable ASCII other than
`/`, `?`, the number sign and `%`. -/
def plainByte (b : UInt8) : Bool :=
  32 ≤ b && b < 127 && b != 47 && b != 63 && b != 35 && b != 37

/-- A path segment `path.Clean` keeps: not empty, not `.` or `..`, made of plain bytes. -/
def plainSegment (s : GoString) : Bool :=
  !s.isEmpty && s != gs "." && s != gs ".." && s.all plainByte

/-- A clean rooted ASCII path: a slash followed by plain segments with single slashes between
them, a trailing slash allowed (`/`, `/agi/menu`, `/d/`). -/
def plainPath (p : GoString) : Bool :=
  match stringsSplit 47 p with
  | [] :: s :: rest =>
    (if (s :: rest).getLast? = some [] then (s :: rest).dropLast else s :: rest).all plainSegment
  | _ => false

/-- A slash or a plain byte. -/
def pathByte (b : UInt8) : Bool := b == 47 || plainByte b

/-- A cookie value the cookie writer emits as it is: every byte a valid cookie value byte other
than space and comma (printable ASCII without space, double quote, comma, semicolon and
backslash). -/
def cookieSafe (v : GoString) : Bool :=
  v.all (fun b => validCookieValueByte b && b != 32 && b != 44)

/-- A token of 64 letters followed by a newline, as a token file written with a final newline
holds it. -/
def newlineToken : GoString :=
  List.replicate 64 97 ++ [10]

/-- A token directory holding one token file whose content ends in a newline. -/
def newlineTokenDir : TokenDir :=
  { visits := [ { fpath := gs "/opt/agitokens", isDir := true, err := false },
                { fpath := gs "/opt/agitokens/a", isDir := false, err := false } ],
    ReadFile := fun p => if p = gs "/opt/agitokens/a" then some newlineToken else none }

/-- A process started with `--auth-type token` after one reload of `newlineTokenDir`. -/
def newlineTokenCmd : agiExecProxyCmd :=
  loadTokensDo (Execute_setup tokenFlags 0) newlineTokenDir

/-! # Theorems -/

/-! ## Header map lemmas -/

theorem Header_mem_Add {h : Header} {k v : GoString} {p : GoString × GoString} (hp : p ∈ h) :
    p ∈ Header.Add h k v := by
  unfold Header.Add
  exact List.mem_append_left _ hp

theorem Header_mem_Add_self (h : Header) (k v : GoString) : (k, v) ∈ Header.Add h k v := by
  unfold Header.Add
  exact List.mem_append_right _ (List.mem_singleton.mpr rfl)

theorem Header_mem_Del {h : Header} {k : GoString} {p : GoString × GoString}
    (hne : p.1 ≠ k) (hp : p ∈ h) : p ∈ Header.Del h k := by
  unfold Header.Del
  exact List.mem_filter.mpr ⟨hp, by simpa using hne⟩

theorem Header_mem_Set {h : Header} {k v : GoString} {p : GoString × GoString}
    (hne : p.1 ≠ k) (hp : p ∈ h) : p ∈ Header.Set h k v := by
  unfold Header.Set
  exact List.mem_append_left _ (Header_mem_Del hne hp)

theorem Header_mem_Set_self (h : Header) (k v : GoString) : (k, v) ∈ Header.Set h k v := by
  unfold Header.Set
  exact List.mem_append_right _ (List.mem_singleton.mpr rfl)

theorem Header_Has_of_mem {h : Header} {k v : GoString} (hp : (k, v) ∈ h) :
    Header.Has h k = true := by
  unfold Header.Has
  exact List.any_eq_true.mpr ⟨(k, v), hp, by simp⟩

theorem Header_Get_Set_self (h : Header) (k v : GoString) :
    Header.Get (Header.Set h k v) k = v := by
  unfold Header.Get Header.Set Header.Del
  have hnone : List.find? (fun kv => kv.1 == k) (List.filter (fun kv => !(kv.1 == k)) h) = none := by
    rw [List.find?_eq_none]
    intro x hx
    have := (List.mem_filter.mp hx).2
    simpa using this
  rw [List.find?_append, hnone]
  simp

theorem Header_Get_Set_other {h : Header} {k k1 v : GoString} (hne : k1 ≠ k) :
    Header.Get (Header.Set h k1 v) k = Header.Get (Header.Del h k1) k := by
  unfold Header.Get Header.Set
  rw [List.find?_append]
  cases hf : List.find? (fun kv => kv.1 == k) (Header.Del h k1) with
  | some kv => simp
  | none => simp [hne]

/-! ## Library lemmas: split, path cleaning, redirect target -/

theorem stringsSplit_ne_nil (sep : UInt8) (s : GoString) : stringsSplit sep s ≠ [] := by
  cases s with
  | nil => simp [stringsSplit]
  | cons b rest =>
    unfold stringsSplit
    split
    · simp
    · split <;> simp

theorem stringsSplit_no_sep (sep : UInt8) (t : GoString) (h : sep ∉ t) :
    stringsSplit sep t = [t] := by
  induction t with
  | nil => rfl
  | cons b rest ih =>
    have hb : b ≠ sep := fun hb => h (hb ▸ List.mem_cons_self _ _)
    have hr : sep ∉ rest := fun hr => h (List.mem_cons_of_mem _ hr)
    unfold stringsSplit
    rw [if_neg hb, ih hr]

theorem stringsSplit_append (sep : UInt8) (t s : GoString) (h : sep ∉ t) :
    stringsSplit sep (t ++ sep :: s) = t :: stringsSplit sep s := by
  induction t with
  | nil =>
    show stringsSplit sep (sep :: s) = [] :: stringsSplit sep s
    rw [stringsSplit, if_pos rfl]
  | cons b rest ih =>
    have hb : b ≠ sep := fun hb => h (hb ▸ List.mem_cons_self _ _)
    have hr : sep ∉ rest := fun hr => h (List.mem_cons_of_mem _ hr)
    show stringsSplit sep (b :: (rest ++ sep :: s)) = (b :: rest) :: stringsSplit sep s
    rw [stringsSplit, if_neg hb, ih hr]

theorem stringsSplit_joinWith (sep : UInt8) (pieces : List GoString) (hne : pieces ≠ [])
    (h : ∀ p ∈ pieces, sep ∉ p) : stringsSplit sep (joinWith sep pieces) = pieces := by
  induction pieces with
  | nil => exact absurd rfl hne
  | cons p rest ih =>
    cases rest with
    | nil => exact stringsSplit_no_sep sep p (h p (List.mem_cons_self _ _))
    | cons q rest2 =>
      show stringsSplit sep (p ++ sep :: joinWith sep (q :: rest2)) = p :: q :: rest2
      rw [stringsSplit_append sep p _ (h p (List.mem_cons_self _ _)),
        ih (by simp) (fun x hx => h x (List.mem_cons_of_mem _ hx))]

theorem stringsSplit_pieces (sep : UInt8) (s : GoString) :
    joinWith sep (stringsSplit sep s) = s ∧ ∀ p ∈ stringsSplit sep s, sep ∉ p := by
  induction s with
  | nil => simp [stringsSplit, joinWith]
  | cons b rest ih =>
    obtain ⟨ihj, ihm⟩ := ih
    unfold stringsSplit
    by_cases hb : b = sep
    · rw [if_pos hb]
      constructor
      · cases hsp : stringsSplit sep rest with
        | nil => exact absurd hsp (stringsSplit_ne_nil sep rest)
        | cons x xs =>
          rw [hsp] at ihj
          show [] ++ sep :: joinWith sep (x :: xs) = b :: rest
          rw [ihj, hb]
          rfl
      · intro p hp
        rcases List.mem_cons.mp hp with hp | hp
        · rw [hp]; simp
        · exact ihm p hp
    · rw [if_neg hb]
      cases hsp : stringsSplit sep rest with
      | nil => exact absurd hsp (stringsSplit_ne_nil sep rest)
      | cons x xs =>
        rw [hsp] at ihj ihm
        simp only []
        constructor
        · cases xs with
          | nil =>
            show b :: x = b :: rest
            rw [← ihj]
            rfl
          | cons y ys =>
            show (b :: x) ++ sep :: joinWith sep (y :: ys) = b :: rest
            rw [← ihj]
            rfl
        · intro p hp
          rcases List.mem_cons.mp hp with hp | hp
          · rw [hp]
            intro hmem
            rcases List.mem_cons.mp hmem with hm | hm
            · exact hb hm.symm
            · exact ihm x (List.mem_cons_self _ _) hm
          · exact ihm p (List.mem_cons_of_mem _ hp)

theorem step_plain (rooted : Bool) (out : List GoString) (s : GoString)
    (h : plainSegment s = true) : pathClean.step rooted out s = out ++ [s] := by
  unfold plainSegment at h
  simp only [Bool.and_eq_true, Bool.not_eq_true', bne_iff_ne, ne_eq] at h
  obtain ⟨⟨⟨h1, h2⟩, h3⟩, _⟩ := h
  unfold pathClean.step
  simp [h1, h2, h3]

theorem step_empty (rooted : Bool) (out : List GoString) :
    pathClean.step rooted out [] = out := by
  unfold pathClean.step
  simp

theorem fold_plain (rooted : Bool) (segs : List GoString) (out : List GoString)
    (h : segs.all plainSegment = true) :
    segs.foldl (pathClean.step rooted) out = out ++ segs := by
  induction segs generalizing out with
  | nil => simp
  | cons s rest ih =>
    simp only [List.all_cons, Bool.and_eq_true] at h
    rw [List.foldl_cons, step_plain rooted out s h.1, ih _ h.2]
    simp

theorem badEscape_none (s : GoString) (h : 37 ∉ s) : badEscape s = false := by
  induction s with
  | nil => rfl
  | cons b rest ih =>
    have hb : b ≠ 37 := fun hb => h (by simp [hb])
    have hr : 37 ∉ rest := fun hr => h (List.mem_cons_of_mem _ hr)
    unfold badEscape
    rw [if_neg hb]
    exact ih hr

theorem plainByte_facts (b : UInt8) (h : plainByte b = true) :
    ¬ b ≥ 128 ∧ b ≠ 47 ∧ b ≠ 63 ∧ b ≠ 35 ∧ b ≠ 37 ∧ isCTL b = false := by
  unfold plainByte at h
  simp only [Bool.and_eq_true, decide_eq_true_eq, bne_iff_ne, ne_eq] at h
  obtain ⟨⟨⟨⟨⟨h1, h2⟩, h3⟩, h4⟩, h5⟩, h6⟩ := h
  rw [UInt8.le_def, BitVec.le_def] at h1
  rw [UInt8.lt_def, BitVec.lt_def] at h2
  have e1 : (UInt8.toBitVec 32).toNat = 32 := rfl
  have e2 : (UInt8.toBitVec 127).toNat = 127 := rfl
  have e3 : (UInt8.toBitVec 128).toNat = 128 := rfl
  refine ⟨?_, h3, h4, h5, h6, ?_⟩
  · intro hge
    rw [ge_iff_le, UInt8.le_def, BitVec.le_def] at hge
    omega
  · unfold isCTL
    have n1 : ¬ b < 32 := by
      intro hlt
      rw [UInt8.lt_def, BitVec.lt_def] at hlt
      omega
    have n2 : b ≠ 127 := by
      intro he
      rw [he] at h2
      omega
    simp [n1, n2]

theorem pathByte_facts (b : UInt8) (h : pathByte b = true) :
    ¬ b ≥ 128 ∧ b ≠ 63 ∧ b ≠ 35 ∧ b ≠ 37 ∧ isCTL b = false := by
  unfold pathByte at h
  rw [Bool.or_eq_true] at h
  rcases h with h | h
  · have hb : b = 47 := by simpa using h
    subst hb
    decide
  · obtain ⟨f1, _, f3, f4, f5, f6⟩ := plainByte_facts b h
    exact ⟨f1, f3, f4, f5, f6⟩

theorem hexEscape_ascii (s : GoString) (h : ∀ b ∈ s, ¬ b ≥ 128) :
    hexEscapeNonASCII s = s := by
  induction s with
  | nil => rfl
  | cons b rest ih =>
    have hb := h b (List.mem_cons_self _ _)
    have := ih (fun x hx => h x (List.mem_cons_of_mem _ hx))
    unfold hexEscapeNonASCII at this ⊢
    simp [List.flatMap_cons, hb, this]

theorem joinWith_all (P : UInt8 → Bool) (sep : UInt8) (hsep : P sep = true)
    (l : List GoString) (h : ∀ s ∈ l, s.all P = true) : (joinWith sep l).all P = true := by
  induction l with
  | nil => rfl
  | cons s rest ih =>
    cases rest with
    | nil => simpa [joinWith] using h s (List.mem_cons_self _ _)
    | cons q rest2 =>
      have hs := h s (List.mem_cons_self _ _)
      have hr := ih (fun x hx => h x (List.mem_cons_of_mem _ hx))
      show (s ++ sep :: joinWith sep (q :: rest2)).all P = true
      rw [List.all_append, List.all_cons, hs, hsep, hr]
      rfl

theorem joinWith_snoc_empty (sep : UInt8) (l : List GoString) (hne : l ≠ []) :
    joinWith sep (l ++ [[]]) = joinWith sep l ++ [sep] := by
  induction l with
  | nil => exact absurd rfl hne
  | cons s rest ih =>
    cases rest with
    | nil => simp [joinWith]
    | cons q rest2 =>
      have := ih (by simp)
      show s ++ sep :: joinWith sep ((q :: rest2) ++ [[]]) = (s ++ sep :: joinWith sep (q :: rest2)) ++ [sep]
      rw [this]
      simp

theorem getLast?_cons_of_ne (a : UInt8) {l : GoString} (h : l ≠ []) :
    (a :: l).getLast? = l.getLast? := by
  obtain ⟨x, xs, hx⟩ := List.exists_cons_of_ne_nil h
  rw [hx, List.getLast?_cons_cons]

theorem joinWith_last (l : List GoString) (hne : l ≠ [])
    (h : l.all plainSegment = true) :
    ∃ b, (joinWith 47 l).getLast? = some b ∧ b ≠ 47 := by
  induction l with
  | nil => exact absurd rfl hne
  | cons s rest ih =>
    simp only [List.all_cons, Bool.and_eq_true] at h
    cases rest with
    | nil =>
      have hs := h.1
      unfold plainSegment at hs
      simp only [Bool.and_eq_true, Bool.not_eq_true', bne_iff_ne, ne_eq] at hs
      obtain ⟨⟨⟨h1, _⟩, _⟩, h4⟩ := hs
      cases hl : s.getLast? with
      | none =>
        rw [List.getLast?_eq_none_iff] at hl
        subst hl
        simp at h1
      | some b =>
        refine ⟨b, by simpa [joinWith] using hl, ?_⟩
        have hmem : b ∈ s := List.mem_of_getLast?_eq_some hl
        exact (plainByte_facts b (List.all_eq_true.mp h4 b hmem)).2.1
    | cons q rest2 =>
      obtain ⟨b, hb, hne47⟩ := ih (by simp) h.2
      refine ⟨b, ?_, hne47⟩
      show (s ++ 47 :: joinWith 47 (q :: rest2)).getLast? = some b
      have hj : joinWith 47 (q :: rest2) ≠ [] := by
        intro he
        rw [he] at hb
        simp at hb
      rw [List.getLast?_append_of_ne_nil _ (by simp), getLast?_cons_of_ne 47 hj]
      exact hb


theorem urlParseRelative_path (body : GoString) (hall : (47 :: body).all pathByte = true)
    (hd : body.head? ≠ some 47) : urlParseRelative (47 :: body) = true := by
  have facts : ∀ b ∈ (47 :: body), b ≠ 63 ∧ b ≠ 35 ∧ b ≠ 37 ∧ isCTL b = false := by
    intro b hb
    obtain ⟨_, f1, f2, f3, f4⟩ := pathByte_facts b (List.all_eq_true.mp hall b hb)
    exact ⟨f1, f2, f3, f4⟩
  have t35 : (47 :: body).takeWhile (fun b => b != 35) = 47 :: body := by
    rw [List.takeWhile_eq_self_iff]
    intro b hb
    simpa using (facts b hb).2.1
  have d35 : (47 :: body).dropWhile (fun b => b != 35) = [] := by
    rw [List.dropWhile_eq_nil_iff]
    intro b hb
    simpa using (facts b hb).2.1
  have t63 : (47 :: body).takeWhile (fun b => b != 63) = 47 :: body := by
    rw [List.takeWhile_eq_self_iff]
    intro b hb
    simpa using (facts b hb).1
  have hctl : (47 :: body).any isCTL = false := by
    rw [List.any_eq_false]
    intro b hb
    simpa using (facts b hb).2.2.2
  have hesc : badEscape (47 :: body) = false :=
    badEscape_none _ (fun hm => (facts 37 hm).2.2.1 rfl)
  have hstar : (47 :: body) ≠ gs "*" := by
    have e : gs "*" = [42] := by decide
    rw [e]
    intro h
    have h2 := (List.cons.inj h).1
    exact absurd h2 (by decide)
  have hscheme : getScheme (47 :: body) = some ([], 47 :: body) := by
    have c1 : ((97 : UInt8) ≤ 47 && (47 : UInt8) ≤ 122 || (65 : UInt8) ≤ 47 && (47 : UInt8) ≤ 90) = false := by
      decide
    have c2 : ((48 : UInt8) ≤ 47 && (47 : UInt8) ≤ 57 || (47 : UInt8) == 43 || (47 : UInt8) == 45 ||
        (47 : UInt8) == 46) = false := by decide
    have c3 : ((47 : UInt8) == 58) = false := by decide
    show getScheme.scan (47 :: body) [] (47 :: body) = _
    rw [getScheme.scan]
    simp only [c1, c2, c3, Bool.false_eq_true, if_false]
  have hpre : ((gs "//").isPrefixOf (47 :: body)) = false := by
    have e : gs "//" = [47, 47] := by decide
    rw [e]
    cases body with
    | nil => rfl
    | cons x xs =>
      have hx : x ≠ 47 := fun hx => hd (by simp [hx])
      simp [List.isPrefixOf, Ne.symm hx]
  unfold urlParseRelative
  simp only [t35, d35, hctl, hstar, hscheme, t63, hpre, hesc]
  simp [badEscape]

theorem plainPath_shape (p : GoString) (h : plainPath p = true) :
    ∃ segs tail, (tail = [] ∨ tail = [[]]) ∧ segs ++ tail ≠ [] ∧
      segs.all plainSegment = true ∧ p = 47 :: joinWith 47 (segs ++ tail) := by
  have hj := (stringsSplit_pieces 47 p).1
  unfold plainPath at h
  split at h
  · rename_i s rest hsplit
    rw [hsplit] at hj
    have hp : p = 47 :: joinWith 47 (s :: rest) := by
      rw [← hj]
      rfl
    by_cases hl : (s :: rest).getLast? = some []
    · rw [if_pos hl] at h
      refine ⟨(s :: rest).dropLast, [[]], Or.inr rfl, by simp, h, ?_⟩
      have : (s :: rest).dropLast ++ [[]] = s :: rest := by
        have h2 := List.dropLast_append_getLast? [] (by simpa using hl)
        exact h2
      rw [this]
      exact hp
    · rw [if_neg hl] at h
      exact ⟨s :: rest, [], Or.inl rfl, by simp, h, by simpa using hp⟩
  · cases h

theorem plainSegment_no_slash (s : GoString) (h : plainSegment s = true) : (47 : UInt8) ∉ s := by
  unfold plainSegment at h
  simp only [Bool.and_eq_true] at h
  intro hm
  exact (plainByte_facts 47 (List.all_eq_true.mp h.2 47 hm)).2.1 rfl

theorem pathClean_plain (segs tail : List GoString) (ht : tail = [] ∨ tail = [[]])
    (hne : segs ++ tail ≠ []) (h : segs.all plainSegment = true) :
    pathClean (47 :: joinWith 47 (segs ++ tail)) = 47 :: joinWith 47 segs := by
  have hpieces : ∀ x ∈ ([] : GoString) :: (segs ++ tail), (47 : UInt8) ∉ x := by
    intro x hx
    rcases List.mem_cons.mp hx with hx | hx
    · subst hx
      simp
    · rcases List.mem_append.mp hx with hx | hx
      · exact plainSegment_no_slash x (List.all_eq_true.mp h x hx)
      · rcases ht with ht | ht
        · subst ht
          cases hx
        · subst ht
          have : x = [] := by simpa using hx
          subst this
          simp
  have hjoin : (47 : UInt8) :: joinWith 47 (segs ++ tail) = joinWith 47 ([] :: (segs ++ tail)) := by
    obtain ⟨x, xs, hx⟩ := List.exists_cons_of_ne_nil hne
    rw [hx]
    rfl
  have hsplit : stringsSplit 47 (47 :: joinWith 47 (segs ++ tail)) = [] :: (segs ++ tail) := by
    rw [hjoin]
    exact stringsSplit_joinWith 47 _ (by simp) hpieces
  have hfold : (([] : GoString) :: (segs ++ tail)).foldl (pathClean.step true) [] = segs := by
    rw [List.foldl_cons, step_empty, List.foldl_append, fold_plain true segs [] h]
    rcases ht with ht | ht
    · subst ht
      rfl
    · subst ht
      simp [step_empty]
  unfold pathClean
  simp only [hsplit, List.head?_cons, beq_self_eq_true, if_true, hfold]

theorem Redirect_target_plain (r : Request) (p : GoString) (h : plainPath p = true) :
    Redirect.target r p = p ∧ hexEscapeNonASCII p = p := by
  obtain ⟨segs, tail, ht, hne, hsegs, hp⟩ := plainPath_shape p h
  have hall : (47 :: joinWith 47 (segs ++ tail)).all pathByte = true := by
    rw [List.all_cons]
    have : (joinWith 47 (segs ++ tail)).all pathByte = true := by
      apply joinWith_all pathByte 47 (by decide)
      intro s hs
      rcases List.mem_append.mp hs with hs | hs
      · have h1 := List.all_eq_true.mp hsegs s hs
        unfold plainSegment at h1
        simp only [Bool.and_eq_true] at h1
        rw [List.all_eq_true]
        intro b hb
        unfold pathByte
        rw [List.all_eq_true.mp h1.2 b hb]
        simp
      · rcases ht with ht | ht
        · subst ht
          cases hs
        · subst ht
          have : s = [] := by simpa using hs
          subst this
          rfl
    rw [this]
    decide
  have hhead : (joinWith 47 (segs ++ tail)).head? ≠ some 47 := by
    cases segs with
    | nil =>
      rcases ht with ht | ht
      · subst ht
        exact absurd rfl hne
      · subst ht
        simp [joinWith]
    | cons s rest =>
      simp only [List.all_cons, Bool.and_eq_true] at hsegs
      have hs := hsegs.1
      unfold plainSegment at hs
      simp only [Bool.and_eq_true, Bool.not_eq_true'] at hs
      cases s with
      | nil => simp at hs
      | cons x xs =>
        have hx : x ≠ 47 := (plainByte_facts x (List.all_eq_true.mp hs.2 x (List.mem_cons_self _ _))).2.1
        have hj : ∃ X, joinWith 47 ((x :: xs) :: rest ++ tail) = x :: X := by
          cases hrt : rest ++ tail with
          | nil => exact ⟨xs, by simp [joinWith, hrt]⟩
          | cons q l => exact ⟨xs ++ 47 :: joinWith 47 (q :: l), by simp [joinWith, hrt]⟩
        obtain ⟨X, hX⟩ := hj
        rw [hX]
        simpa using hx
  have hparse := urlParseRelative_path _ hall hhead
  have facts : ∀ b ∈ (47 :: joinWith 47 (segs ++ tail)), ¬ b ≥ 128 ∧ b ≠ 63 := by
    intro b hb
    obtain ⟨f0, f1, _⟩ := pathByte_facts b (List.all_eq_true.mp hall b hb)
    exact ⟨f0, f1⟩
  refine ⟨?_, ?_⟩
  · rw [hp]
    have t63 : (47 :: joinWith 47 (segs ++ tail)).takeWhile (fun b => b != 63) =
        47 :: joinWith 47 (segs ++ tail) := by
      rw [List.takeWhile_eq_self_iff]
      intro b hb
      simpa using (facts b hb).2
    have d63 : (47 :: joinWith 47 (segs ++ tail)).dropWhile (fun b => b != 63) = [] := by
      rw [List.dropWhile_eq_nil_iff]
      intro b hb
      simpa using (facts b hb).2
    have c0 : (false || (some (47 : UInt8) != some 47)) = false := by decide
    have eslash : gs "/" = [47] := by decide
    unfold Redirect.target
    simp only [hparse, if_true, List.isEmpty_cons, List.head?_cons, c0, Bool.false_eq_true,
      if_false, t63, d63, pathClean_plain segs tail ht hne hsegs, List.append_nil, eslash]
    rcases ht with ht | ht
    · subst ht
      rw [List.append_nil] at hne ⊢
      obtain ⟨b, hb, hb47⟩ := joinWith_last segs hne hsegs
      have hj : joinWith 47 segs ≠ [] := by
        intro he
        rw [he] at hb
        simp at hb
      rw [getLast?_cons_of_ne 47 hj, hb]
      have : (some b == some (47 : UInt8)) = false := by simpa using hb47
      simp [this]
    · subst ht
      by_cases hs : segs = []
      · subst hs
        decide
      · obtain ⟨b, hb, hb47⟩ := joinWith_last segs hs hsegs
        have hj : joinWith 47 segs ≠ [] := by
          intro he
          rw [he] at hb
          simp at hb
        rw [joinWith_snoc_empty 47 segs hs, getLast?_cons_of_ne 47 hj, hb]
        have h1 : (some b != some (47 : UInt8)) = true := by simpa using hb47
        have h2 : ((47 : UInt8) :: (joinWith 47 segs ++ [47])).getLast? = some 47 := by
          rw [← List.cons_append, List.getLast?_append_of_ne_nil _ (by simp)]
          rfl
        simp [h1, h2]
  · rw [hp]
    exact hexEscape_ascii _ (fun b hb => (facts b hb).1)

/-! ## Token store: reload -/

theorem walkFn_eq (d : TokenDir) (acc : List GoString) (v : WalkVisit) :
    loadTokensDo.walkFn d acc v = (acc ++ (tokenOfVisit d v).toList, none) := by
  unfold loadTokensDo.walkFn tokenOfVisit
  cases v.err <;> cases v.isDir <;> simp
  cases d.ReadFile v.fpath with
  | none => simp
  | some token => by_cases hl : token.length < 64 <;> simp [hl]

theorem filepathWalk_walkFn (d : TokenDir) (vs : List WalkVisit) (acc : List GoString) :
    filepathWalk (loadTokensDo.walkFn d) acc vs = (acc ++ vs.filterMap (tokenOfVisit d), none) := by
  induction vs generalizing acc with
  | nil => simp [filepathWalk]
  | cons v vs ih =>
    rw [filepathWalk, walkFn_eq]
    simp only [ih]
    cases hv : tokenOfVisit d v <;> simp [List.filterMap_cons, hv]

theorem loadTokensDo_tokens (c : agiExecProxyCmd) (d : TokenDir) :
    (loadTokensDo c d).tokens = d.visits.filterMap (tokenOfVisit d) := by
  unfold loadTokensDo
  rw [filepathWalk_walkFn]
  simp

theorem tokenOfVisit_eq_some (d : TokenDir) (v : WalkVisit) (t : GoString) :
    tokenOfVisit d v = some t ↔
      (v.err = false ∧ v.isDir = false ∧ d.ReadFile v.fpath = some t ∧ 64 ≤ t.length) := by
  unfold tokenOfVisit
  cases v.err <;> cases v.isDir <;> simp
  cases d.ReadFile v.fpath with
  | none => simp
  | some token =>
    by_cases hl : token.length < 64
    · simp [hl]
      intro h
      subst h
      omega
    · simp [hl]
      intro h
      subst h
      omega

/-- C1: after a reload on directory state A and then one on directory state B, the token store
holds exactly the contents of the non-directory entries of B that the walk reaches and that read
back with at least 64 bytes; nothing of A survives the second reload, a shorter file is never a
member, and the store after the two reloads is the store a single reload on B builds. -/
theorem loadTokensDo_replaces_wholesale (c : agiExecProxyCmd) (A B : TokenDir) :
    (∀ t : GoString, HasString (loadTokensDo (loadTokensDo c A) B).tokens t = true ↔
      ∃ v ∈ B.visits, v.err = false ∧ v.isDir = false ∧ B.ReadFile v.fpath = some t ∧
        64 ≤ t.length) ∧
    (∀ t : GoString, t.length < 64 → HasString (loadTokensDo (loadTokensDo c A) B).tokens t = false) ∧
    (loadTokensDo (loadTokensDo c A) B).tokens = (loadTokensDo c B).tokens := by
  have hmem : ∀ t : GoString, HasString (loadTokensDo (loadTokensDo c A) B).tokens t = true ↔
      ∃ v ∈ B.visits, v.err = false ∧ v.isDir = false ∧ B.ReadFile v.fpath = some t ∧
        64 ≤ t.length := by
    intro t
    rw [loadTokensDo_tokens]
    unfold HasString
    rw [List.any_eq_true]
    constructor
    · rintro ⟨x, hx, hxt⟩
      have hxt : x = t := by simpa using hxt
      subst hxt
      obtain ⟨v, hv, hvt⟩ := List.mem_filterMap.mp hx
      exact ⟨v, hv, (tokenOfVisit_eq_some B v x).mp hvt⟩
    · rintro ⟨v, hv, h⟩
      exact ⟨t, List.mem_filterMap.mpr ⟨v, hv, (tokenOfVisit_eq_some B v t).mpr h⟩, by simp⟩
  refine ⟨hmem, ?_, ?_⟩
  · intro t ht
    cases hh : HasString (loadTokensDo (loadTokensDo c A) B).tokens t with
    | false => rfl
    | true =>
      obtain ⟨v, _, _, _, _, hlen⟩ := (hmem t).mp hh
      omega
  · rw [loadTokensDo_tokens, loadTokensDo_tokens]

/-! ## Auth gate: policies -/

theorem startedFrom_basic {c0 c : agiExecProxyCmd} {start : Time}
    (hs : startedFrom c0 start c) (ha : c0.AuthType = gs "basic") :
    c.isBasicAuth = true ∧ c.isTokenAuth = false := by
  obtain ⟨h1, h2, h3, h4⟩ := hs
  have hne : gs "basic" ≠ gs "token" := by decide
  rw [h3, h4]
  simp [Execute_setup, ha, hne, h2]

theorem startedFrom_token {c0 c : agiExecProxyCmd} {start : Time}
    (hs : startedFrom c0 start c) (ha : c0.AuthType = gs "token") :
    c.isBasicAuth = false ∧ c.isTokenAuth = true := by
  obtain ⟨h1, h2, h3, h4⟩ := hs
  have hne : gs "token" ≠ gs "basic" := by decide
  rw [h3, h4]
  simp [Execute_setup, ha, hne, h1]

theorem startedFrom_none {c0 c : agiExecProxyCmd} {start : Time}
    (hs : startedFrom c0 start c) (hb : c0.AuthType ≠ gs "basic") (ht : c0.AuthType ≠ gs "token") :
    c.isBasicAuth = false ∧ c.isTokenAuth = false := by
  obtain ⟨h1, h2, h3, h4⟩ := hs
  rw [h3, h4]
  simp [Execute_setup, hb, ht, h1, h2]

theorem unauthorized_ok (w : ResponseWriter) : (checkAuth.unauthorized w).ok = false := rfl

theorem unauthorized_spawned (w : ResponseWriter) : (checkAuth.unauthorized w).spawned = [] := rfl

theorem WriteHeader_header (w : ResponseWriter) (code : Nat) :
    (ResponseWriter.WriteHeader w code).header = w.header := by
  unfold ResponseWriter.WriteHeader
  cases w.status <;> rfl

theorem WriteHeader_body (w : ResponseWriter) (code : Nat) :
    (ResponseWriter.WriteHeader w code).body = w.body := by
  unfold ResponseWriter.WriteHeader
  cases w.status <;> rfl

theorem WriteHeader_status_fresh (w : ResponseWriter) (code : Nat) (hw : w.status = none) :
    (ResponseWriter.WriteHeader w code).status = some code := by
  unfold ResponseWriter.WriteHeader
  rw [hw]

theorem WriteHeader_status_written (w : ResponseWriter) (code : Nat) {s : Nat}
    (hw : w.status = some s) : (ResponseWriter.WriteHeader w code).status = some s := by
  unfold ResponseWriter.WriteHeader
  rw [hw]
  exact hw

theorem Write_header (w : ResponseWriter) (b : GoString) :
    (ResponseWriter.Write w b).header = w.header := by
  unfold ResponseWriter.Write
  exact WriteHeader_header w 200

theorem Write_status_written (w : ResponseWriter) (b : GoString) {s : Nat}
    (hw : w.status = some s) : (ResponseWriter.Write w b).status = some s := by
  unfold ResponseWriter.Write
  exact WriteHeader_status_written w 200 hw

theorem Error_header (w : ResponseWriter) (msg : GoString) (code : Nat) :
    (Error w msg code).header =
      Header.Set (Header.Set (Header.Del w.header (gs "Content-Length")) (gs "Content-Type")
        (gs "text/plain; charset=utf-8")) (gs "X-Content-Type-Options") (gs "nosniff") := by
  unfold Error
  simp only [Write_header, WriteHeader_header]

theorem Error_status_fresh (w : ResponseWriter) (msg : GoString) (code : Nat)
    (hw : w.status = none) : (Error w msg code).status = some code := by
  unfold Error
  exact Write_status_written _ _ (WriteHeader_status_fresh _ code hw)

theorem Error_mem_header {w : ResponseWriter} {msg : GoString} {code : Nat}
    {p : GoString × GoString} (h1 : p.1 ≠ gs "Content-Length") (h2 : p.1 ≠ gs "Content-Type")
    (h3 : p.1 ≠ gs "X-Content-Type-Options") (hp : p ∈ w.header) :
    p ∈ (Error w msg code).header := by
  rw [Error_header]
  exact Header_mem_Set h3 (Header_mem_Set h2 (Header_mem_Del h1 hp))

theorem unauthorized_status (w : ResponseWriter) (hw : w.status = none) :
    (checkAuth.unauthorized w).w.status = some 401 := by
  unfold checkAuth.unauthorized
  exact Error_status_fresh _ _ _ hw

theorem unauthorized_challenge (w : ResponseWriter) :
    (gs "WWW-Authenticate", gs "Basic realm=\"restricted\", charset=\"UTF-8\"") ∈
      (checkAuth.unauthorized w).w.header := by
  unfold checkAuth.unauthorized
  exact Error_mem_header (by decide) (by decide) (by decide) (Header_mem_Set_self _ _ _)

theorem checkAuth_basic_eq (c : agiExecProxyCmd) (now : Time) (w : ResponseWriter) (r : Request)
    (hb : c.isBasicAuth = true) :
    checkAuth c now w r =
      if r.basicAuth = some (c.BasicAuthUser, c.BasicAuthPass)
      then checkAuth.afterBasic c now (withSTS w) r
      else checkAuth.unauthorized (withSTS w) := by
  unfold checkAuth checkAuth.run Request.BasicAuth ConstantTimeCompare.logged ConstantTimeCompare
    withSTS
  rw [hb]
  cases hr : r.basicAuth with
  | none => simp
  | some up =>
    obtain ⟨user, pass⟩ := up
    by_cases hu : user = c.BasicAuthUser <;> by_cases hp : pass = c.BasicAuthPass <;>
      simp [hu, hp]

theorem checkAuth_nobasic_eq (c : agiExecProxyCmd) (now : Time) (w : ResponseWriter) (r : Request)
    (hb : c.isBasicAuth = false) :
    checkAuth c now w r = checkAuth.afterBasic c now (withSTS w) r := by
  unfold checkAuth checkAuth.run withSTS
  rw [hb]
  simp

theorem afterBasic_notoken (c : agiExecProxyCmd) (now : Time) (w : ResponseWriter) (r : Request)
    (ht : c.isTokenAuth = false) :
    checkAuth.afterBasic c now w r =
      { w := w, ok := true, spawned := [Goroutine.lastActivitySet now] } := by
  unfold checkAuth.afterBasic
  rw [ht]
  simp

/-- C2: under the basic policy `checkAuth` returns true exactly for a request that carries Basic
credentials whose username and password both equal the configured ones; every other request
(no credentials, or either field wrong) gets false, and on a response not yet started the status
is 401 and the header map holds the `WWW-Authenticate` challenge. -/
theorem checkAuth_basic_iff (c0 c : agiExecProxyCmd) (start now : Time) (w : ResponseWriter)
    (r : Request) (hs : startedFrom c0 start c) (ha : c0.AuthType = gs "basic")
    (hw : w.status = none) :
    ((checkAuth c now w r).ok = true ↔
      r.basicAuth = some (c.BasicAuthUser, c.BasicAuthPass)) ∧
    (r.basicAuth ≠ some (c.BasicAuthUser, c.BasicAuthPass) →
      (checkAuth c now w r).ok = false ∧
      (checkAuth c now w r).w.status = some 401 ∧
      Header.Has (checkAuth c now w r).w.header (gs "WWW-Authenticate") = true) := by
  obtain ⟨hb, ht⟩ := startedFrom_basic hs ha
  rw [checkAuth_basic_eq c now w r hb]
  by_cases hr : r.basicAuth = some (c.BasicAuthUser, c.BasicAuthPass)
  · simp [hr, afterBasic_notoken c now _ r ht]
  · simp only [hr, if_false, unauthorized_ok]
    refine ⟨by simp, fun _ => ⟨trivial, ?_, ?_⟩⟩
    · exact unauthorized_status _ hw
    · exact Header_Has_of_mem (unauthorized_challenge _)

/-- Witness for C2: default credentials under `--auth-type basic`, a request with a wrong
password. -/
theorem checkAuth_basic_iff_witness :
    startedFrom basicFlags 0 (Execute_setup basicFlags 0) ∧
    basicFlags.AuthType = gs "basic" ∧
    ResponseWriter.fresh.status = none ∧
    (((checkAuth (Execute_setup basicFlags 0) 5 ResponseWriter.fresh
        { getRequest (gs "/") with basicAuth := some (gs "admin", gs "wrong") }).ok = true ↔
      { getRequest (gs "/") with basicAuth := some (gs "admin", gs "wrong") }.basicAuth =
        some ((Execute_setup basicFlags 0).BasicAuthUser,
          (Execute_setup basicFlags 0).BasicAuthPass)) ∧
    ({ getRequest (gs "/") with basicAuth := some (gs "admin", gs "wrong") }.basicAuth ≠
        some ((Execute_setup basicFlags 0).BasicAuthUser,
          (Execute_setup basicFlags 0).BasicAuthPass) →
      (checkAuth (Execute_setup basicFlags 0) 5 ResponseWriter.fresh
        { getRequest (gs "/") with basicAuth := some (gs "admin", gs "wrong") }).ok = false ∧
      (checkAuth (Execute_setup basicFlags 0) 5 ResponseWriter.fresh
        { getRequest (gs "/") with basicAuth := some (gs "admin", gs "wrong") }).w.status
          = some 401 ∧
      Header.Has (checkAuth (Execute_setup basicFlags 0) 5 ResponseWriter.fresh
        { getRequest (gs "/") with basicAuth := some (gs "admin", gs "wrong") }).w.header
          (gs "WWW-Authenticate") = true)) :=
  ⟨by decide, rfl, rfl,
    checkAuth_basic_iff basicFlags (Execute_setup basicFlags 0) 0 5 ResponseWriter.fresh
      { getRequest (gs "/") with basicAuth := some (gs "admin", gs "wrong") }
      (by decide) rfl rfl⟩

/-! ## Auth gate: token policy -/

theorem tokenCookie_String (c : agiExecProxyCmd) (t : GoString)
    (hname : isCookieNameValid c.TokenName = true) :
    Cookie.String (tokenCookie c t) =
      c.TokenName ++ gs "=" ++ sanitizeCookieValue t ++ gs "; Path=/" := by
  have h1 : (gs "/").length > 0 := by decide
  have h2 : sanitizeCookiePath (gs "/") = gs "/" := by decide
  have h3 : gs "; Path=" ++ gs "/" = gs "; Path=/" := by decide
  simp only [Cookie.String, tokenCookie, hname, h1, h2, Bool.not_true, Bool.false_eq_true,
    if_false, if_true, lt_self_iff_false, gt_iff_lt, List.append_assoc, h3]

theorem tokenCookie_String_invalid (c : agiExecProxyCmd) (t : GoString)
    (hname : isCookieNameValid c.TokenName = false) :
    Cookie.String (tokenCookie c t) = [] := by
  simp [Cookie.String, tokenCookie, hname]

theorem sanitizeCookieValue_safe (v : GoString) (h : cookieSafe v = true) :
    sanitizeCookieValue v = v := by
  unfold cookieSafe at h
  rw [List.all_eq_true] at h
  have hf : v.filter validCookieValueByte = v := by
    rw [List.filter_eq_self]
    intro b hb
    have := h b hb
    simp only [Bool.and_eq_true] at this
    exact this.1.1
  have ha : v.any (fun b => b == 32 || b == 44) = false := by
    rw [List.any_eq_false]
    intro b hb
    have := h b hb
    simp only [Bool.and_eq_true, bne_iff_ne, ne_eq] at this
    simp [this.1.2, this.2]
  unfold sanitizeCookieValue sanitizeOrWarn
  simp only [hf, ha, Bool.false_eq_true, if_false]
  split <;> rfl

theorem SetCookie_tokenCookie (c : agiExecProxyCmd) (w : ResponseWriter) (t : GoString)
    (hname : isCookieNameValid c.TokenName = true) :
    SetCookie w (tokenCookie c t) =
      { w with header := Header.Add w.header (gs "Set-Cookie") (Cookie.String (tokenCookie c t)) } := by
  have hne : Cookie.String (tokenCookie c t) ≠ [] := by
    have h1 : gs "; Path=/" ≠ [] := by decide
    rw [tokenCookie_String c t hname]
    simp [h1]
  unfold SetCookie
  simp only [ne_eq, hne, not_false_eq_true, if_true]

theorem SetCookie_status (w : ResponseWriter) (ck : Cookie) : (SetCookie w ck).status = w.status := by
  unfold SetCookie
  simp only []
  split <;> rfl

theorem SetCookie_mem_header {w : ResponseWriter} {ck : Cookie} {p : GoString × GoString}
    (hp : p ∈ w.header) : p ∈ (SetCookie w ck).header := by
  unfold SetCookie
  simp only []
  split
  · exact Header_mem_Add hp
  · exact hp

theorem Header_Get_Del_other {h : Header} {k k1 : GoString} (hne : k1 ≠ k) :
    Header.Get (Header.Del h k1) k = Header.Get h k := by
  unfold Header.Get Header.Del
  have hfind : List.find? (fun kv => kv.1 == k) (List.filter (fun kv => !(kv.1 == k1)) h) =
      List.find? (fun kv => kv.1 == k) h := by
    induction h with
    | nil => rfl
    | cons x xs ih =>
      by_cases hx1 : x.1 = k1
      · have hxk : x.1 ≠ k := fun hxk => hne (hx1.symm.trans hxk)
        simp [List.filter_cons, List.find?_cons, hx1, hne, ih]
      · by_cases hxk : x.1 = k
        · have hk1 : ¬ k = k1 := fun h => hx1 (hxk.trans h)
          simp [List.filter_cons, List.find?_cons, hxk, hk1]
        · simp [List.filter_cons, List.find?_cons, hx1, hxk, ih]
  rw [hfind]

theorem Redirect_header (w : ResponseWriter) (r : Request) (url : GoString) (code : Nat) :
    (Redirect w r url code).header =
      if !Header.Has w.header (gs "Content-Type") && (r.Method == gs "GET" || r.Method == gs "HEAD")
      then Header.Set (Header.Set w.header (gs "Location")
          (hexEscapeNonASCII (Redirect.target r url))) (gs "Content-Type")
        (gs "text/html; charset=utf-8")
      else Header.Set w.header (gs "Location") (hexEscapeNonASCII (Redirect.target r url)) := by
  unfold Redirect
  simp only []
  split <;> simp only [Write_header, WriteHeader_header]

theorem Redirect_Location (w : ResponseWriter) (r : Request) (url : GoString) (code : Nat) :
    Header.Get (Redirect w r url code).header (gs "Location") =
      hexEscapeNonASCII (Redirect.target r url) := by
  rw [Redirect_header]
  have hne : gs "Content-Type" ≠ gs "Location" := by decide
  split
  · rw [Header_Get_Set_other hne, Header_Get_Del_other hne, Header_Get_Set_self]
  · rw [Header_Get_Set_self]

theorem Redirect_mem_header {w : ResponseWriter} {r : Request} {url : GoString} {code : Nat}
    {p : GoString × GoString} (h1 : p.1 ≠ gs "Location") (h2 : p.1 ≠ gs "Content-Type")
    (hp : p ∈ w.header) : p ∈ (Redirect w r url code).header := by
  rw [Redirect_header]
  split
  · exact Header_mem_Set h2 (Header_mem_Set h1 hp)
  · exact Header_mem_Set h1 hp

theorem Redirect_has_Location (w : ResponseWriter) (r : Request) (url : GoString) (code : Nat) :
    Header.Has (Redirect w r url code).header (gs "Location") = true := by
  have hne : gs "Location" ≠ gs "Content-Type" := by decide
  rw [Redirect_header]
  split
  · exact Header_Has_of_mem (Header_mem_Set hne (Header_mem_Set_self _ _ _))
  · exact Header_Has_of_mem (Header_mem_Set_self _ _ _)

theorem Redirect_status_fresh (w : ResponseWriter) (r : Request) (url : GoString) (code : Nat)
    (hw : w.status = none) : (Redirect w r url code).status = some code := by
  unfold Redirect
  simp only []
  split
  · exact Write_status_written _ _ (WriteHeader_status_fresh _ code hw)
  · exact WriteHeader_status_fresh _ code hw

theorem afterBasic_token_query (c : agiExecProxyCmd) (now : Time) (w : ResponseWriter)
    (r : Request) (ht : c.isTokenAuth = true) (hq : Request.FormValue r c.TokenName ≠ []) :
    checkAuth.afterBasic c now w r =
      { w := Redirect (SetCookie w (tokenCookie c (Request.FormValue r c.TokenName))) r r.URL.Path
          StatusFound,
        ok := false, spawned := [] } := by
  unfold checkAuth.afterBasic tokenCookie
  simp [ht, hq]

theorem afterBasic_token_cookie (c : agiExecProxyCmd) (now : Time) (w : ResponseWriter)
    (r : Request) (ht : c.isTokenAuth = true) (hq : Request.FormValue r c.TokenName = []) :
    checkAuth.afterBasic c now w r =
      if (Request.Cookie r c.TokenName).getD [] ≠ [] ∧
          HasString c.tokens ((Request.Cookie r c.TokenName).getD []) = true
      then { w := w, ok := true, spawned := [Goroutine.lastActivitySet now] }
      else { w := displayAuthTokenRequest c w r, ok := false, spawned := [] } := by
  unfold checkAuth.afterBasic
  simp only [ht, hq, if_true, ne_eq, not_true_eq_false, if_false]
  cases hc : Request.Cookie r c.TokenName with
  | none => simp
  | some v =>
    by_cases hv : v = []
    · simp [hv]
    · cases hm : HasString c.tokens v <;> simp [hv, hm]

theorem checkAuth_token_eq (c : agiExecProxyCmd) (now : Time) (w : ResponseWriter) (r : Request)
    (hb : c.isBasicAuth = false) (ht : c.isTokenAuth = true) :
    checkAuth c now w r =
      if Request.FormValue r c.TokenName ≠ [] then
        { w := Redirect (SetCookie (withSTS w) (tokenCookie c (Request.FormValue r c.TokenName))) r
            r.URL.Path StatusFound,
          ok := false, spawned := [] }
      else if (Request.Cookie r c.TokenName).getD [] ≠ [] ∧
          HasString c.tokens ((Request.Cookie r c.TokenName).getD []) = true
      then { w := withSTS w, ok := true, spawned := [Goroutine.lastActivitySet now] }
      else { w := displayAuthTokenRequest c (withSTS w) r, ok := false, spawned := [] } := by
  rw [checkAuth_nobasic_eq c now w r hb]
  by_cases hq : Request.FormValue r c.TokenName = []
  · rw [afterBasic_token_cookie c now _ r ht hq]
    simp [hq]
  · rw [afterBasic_token_query c now _ r ht hq]
    simp [hq]

theorem token_redirect_facts (c : agiExecProxyCmd) (w : ResponseWriter) (r : Request)
    (t : GoString) :
    (isCookieNameValid c.TokenName = true →
      (gs "Set-Cookie", c.TokenName ++ gs "=" ++ sanitizeCookieValue t ++ gs "; Path=/") ∈
        (Redirect (SetCookie (withSTS w) (tokenCookie c t)) r r.URL.Path StatusFound).header) ∧
    Header.Get (Redirect (SetCookie (withSTS w) (tokenCookie c t)) r r.URL.Path StatusFound).header
        (gs "Location") = hexEscapeNonASCII (Redirect.target r r.URL.Path) ∧
    (w.status = none →
      (Redirect (SetCookie (withSTS w) (tokenCookie c t)) r r.URL.Path StatusFound).status
        = some 302) := by
  have n1 : gs "Set-Cookie" ≠ gs "Location" := by decide
  have n2 : gs "Set-Cookie" ≠ gs "Content-Type" := by decide
  refine ⟨?_, Redirect_Location _ _ _ _, ?_⟩
  · intro hname
    apply Redirect_mem_header n1 n2
    rw [SetCookie_tokenCookie c _ t hname, tokenCookie_String c t hname]
    exact Header_mem_Add_self _ _ _
  · intro hw
    apply Redirect_status_fresh
    rw [SetCookie_status]
    exact hw

/-- Counterexample for C3 as stated. First input: the Token Store holds a token that ends in a
newline (64 letters and a newline) and the request supplies exactly this token through the
query parameter: the cookie that is set carries the 64 letters without the newline, which is
not the token, and a later request that carries only this cookie does not pass `checkAuth`.
Second input: a stored token supplied for the path `/café`: the redirect target is
`/caf%c3%a9`, not the request path. -/
theorem checkAuth_token_newline_counterexample :
    newlineTokenCmd.isTokenAuth = true ∧
    HasString newlineTokenCmd.tokens newlineToken = true ∧
    Header.Get (checkAuth newlineTokenCmd 5 ResponseWriter.fresh
      { getRequest (gs "/agi/menu") with Form := [(gs "AGI_TOKEN", newlineToken)] }).w.header
        (gs "Set-Cookie") = gs "AGI_TOKEN=" ++ List.replicate 64 97 ++ gs "; Path=/" ∧
    List.replicate 64 97 ≠ newlineToken ∧
    (checkAuth newlineTokenCmd 9 ResponseWriter.fresh
      { getRequest (gs "/agi/menu") with Cookies := [(gs "AGI_TOKEN", List.replicate 64 97)] }).ok
        = false ∧
    HasString tokenCmd.tokens (List.replicate 64 97) = true ∧
    Header.Get (checkAuth tokenCmd 5 ResponseWriter.fresh
      { getRequest (gs "/café") with Form := [(gs "AGI_TOKEN", List.replicate 64 97)] }).w.header
        (gs "Location") = gs "/caf%c3%a9" := by
  decide

/-- C3 (amended): under the token policy, for a request that supplies a token of the Token
Store through the query parameter named by the token name, where the token name is a valid
cookie name, the token is made of bytes a cookie value carries unchanged (printable ASCII
other than space, double quote, comma, semicolon and backslash) and the request path is a
clean rooted ASCII path: on a response not yet started `checkAuth` adds the `Set-Cookie` line
`name=token; Path=/`, answers 302 with `Location` equal to the request path (no query) and
returns false; and every later request that carries that cookie and no query parameter passes
`checkAuth`. -/
theorem checkAuth_token_query_then_cookie (c0 c : agiExecProxyCmd) (start now : Time)
    (w : ResponseWriter) (r : Request) (hs : startedFrom c0 start c)
    (ha : c0.AuthType = gs "token") (hw : w.status = none)
    (hq : Request.FormValue r c.TokenName ≠ [])
    (hm : HasString c.tokens (Request.FormValue r c.TokenName) = true)
    (hname : isCookieNameValid c.TokenName = true)
    (hsafe : cookieSafe (Request.FormValue r c.TokenName) = true)
    (hpath : plainPath r.URL.Path = true) :
    (checkAuth c now w r).ok = false ∧
    (gs "Set-Cookie", c.TokenName ++ gs "=" ++ Request.FormValue r c.TokenName ++ gs "; Path=/")
      ∈ (checkAuth c now w r).w.header ∧
    (checkAuth c now w r).w.status = some 302 ∧
    Header.Get (checkAuth c now w r).w.header (gs "Location") = r.URL.Path ∧
    (∀ (now2 : Time) (w2 : ResponseWriter) (r2 : Request),
      Request.FormValue r2 c.TokenName = [] →
      Request.Cookie r2 c.TokenName = some (Request.FormValue r c.TokenName) →
      (checkAuth c now2 w2 r2).ok = true) := by
  obtain ⟨hb, ht⟩ := startedFrom_token hs ha
  obtain ⟨f1, f2, f3⟩ := token_redirect_facts c w r (Request.FormValue r c.TokenName)
  have f1 := f1 hname
  rw [sanitizeCookieValue_safe _ hsafe] at f1
  obtain ⟨g1, g2⟩ := Redirect_target_plain r r.URL.Path hpath
  rw [g1, g2] at f2
  refine ⟨?_, ?_, ?_, ?_, ?_⟩
  · rw [checkAuth_token_eq c now w r hb ht]
    simp [hq]
  · rw [checkAuth_token_eq c now w r hb ht]
    simpa [hq] using f1
  · rw [checkAuth_token_eq c now w r hb ht]
    simpa [hq] using f3 hw
  · rw [checkAuth_token_eq c now w r hb ht]
    simpa [hq] using f2
  · intro now2 w2 r2 hq2 hc2
    rw [checkAuth_token_eq c now2 w2 r2 hb ht]
    simp [hq2, hc2, hq, hm]

/-- Witness for C3 (amended): the 64-byte token of `exampleTokenDir` supplied as
`?AGI_TOKEN=`. -/
theorem checkAuth_token_query_then_cookie_witness :
    (checkAuth tokenCmd 5 ResponseWriter.fresh
      { getRequest (gs "/agi/menu") with Form := [(gs "AGI_TOKEN", List.replicate 64 97)] }).ok
        = false ∧
    Header.Get (checkAuth tokenCmd 5 ResponseWriter.fresh
      { getRequest (gs "/agi/menu") with Form := [(gs "AGI_TOKEN", List.replicate 64 97)] }).w.header
        (gs "Location") = gs "/agi/menu" ∧
    (checkAuth tokenCmd 9 ResponseWriter.fresh
      { getRequest (gs "/agi/menu") with Cookies := [(gs "AGI_TOKEN", List.replicate 64 97)] }).ok
        = true :=
  have h := checkAuth_token_query_then_cookie tokenFlags tokenCmd 0 5 ResponseWriter.fresh
    { getRequest (gs "/agi/menu") with Form := [(gs "AGI_TOKEN", List.replicate 64 97)] }
    (by decide) rfl rfl (by decide) (by decide) (by decide) (by decide) (by decide)
  ⟨h.1, h.2.2.2.1,
    h.2.2.2.2 9 ResponseWriter.fresh
      { getRequest (gs "/agi/menu") with Cookies := [(gs "AGI_TOKEN", List.replicate 64 97)] }
      (by decide) (by decide)⟩

/-- Counterexample for C4 as stated: under the token policy a request whose query parameter
carries a token that is not in the Token Store does not get the login form of a token-less
request: a cookie is set and a redirect (302 with `Location`) is issued. -/
theorem checkAuth_token_unknown_query_counterexample :
    tokenCmd.isTokenAuth = true ∧ tokenCmd.isBasicAuth = false ∧
    HasString tokenCmd.tokens (gs "bogus") = false ∧
    Request.FormValue { getRequest (gs "/agi/menu") with Form := [(gs "AGI_TOKEN", gs "bogus")] }
      tokenCmd.TokenName = gs "bogus" ∧
    (checkAuth tokenCmd 5 ResponseWriter.fresh
      { getRequest (gs "/agi/menu") with Form := [(gs "AGI_TOKEN", gs "bogus")] }).w ≠
      (checkAuth tokenCmd 5 ResponseWriter.fresh (getRequest (gs "/agi/menu"))).w ∧
    Header.Has (checkAuth tokenCmd 5 ResponseWriter.fresh
      { getRequest (gs "/agi/menu") with Form := [(gs "AGI_TOKEN", gs "bogus")] }).w.header
        (gs "Set-Cookie") = true ∧
    (checkAuth tokenCmd 5 ResponseWriter.fresh
      { getRequest (gs "/agi/menu") with Form := [(gs "AGI_TOKEN", gs "bogus")] }).w.status
        = some 302 ∧
    Header.Get (checkAuth tokenCmd 5 ResponseWriter.fresh
      { getRequest (gs "/agi/menu") with Form := [(gs "AGI_TOKEN", gs "bogus")] }).w.header
        (gs "Location") = gs "/agi/menu" := by
  decide

/-- C4 (amended): under the token policy, a request with no token in the query parameter whose
cookie carries a token that is not in the Token Store is answered exactly like a request with no
token at all: `checkAuth` returns false, the response is the login form, and the header map gets
nothing beyond the Strict-Transport-Security line (no cookie, no redirect). A request with a
non-empty token in the query parameter is not checked against the store: member or not,
`checkAuth` returns false and the response is the redirect of `http.Redirect` for the request
path, issued after `http.SetCookie` for the token: it carries a `Location` line (the request
path itself when that is a clean rooted ASCII path), status 302 on a response not yet started,
and, when the token name is a valid cookie name, the `Set-Cookie` line
`name=<sanitized token>; Path=/` (the token itself when made of cookie-safe bytes). -/
theorem checkAuth_token_unknown_cookie (c0 c : agiExecProxyCmd) (start now : Time)
    (w : ResponseWriter) (r r0 : Request) (t : GoString) (hs : startedFrom c0 start c)
    (ha : c0.AuthType = gs "token")
    (hq : Request.FormValue r c.TokenName = [])
    (hc : Request.Cookie r c.TokenName = some t)
    (hm : HasString c.tokens t = false)
    (hq0 : Request.FormValue r0 c.TokenName = [])
    (hc0 : Request.Cookie r0 c.TokenName = none) :
    (checkAuth c now w r = checkAuth c now w r0 ∧
      (checkAuth c now w r).ok = false ∧
      (checkAuth c now w r).w = displayAuthTokenRequest c (withSTS w) r ∧
      (checkAuth c now w r).w.header =
        Header.Add w.header (gs "Strict-Transport-Security") (gs "max-age=31536000")) ∧
    (∀ (rq : Request), Request.FormValue rq c.TokenName ≠ [] →
      (checkAuth c now w rq).ok = false ∧
      (checkAuth c now w rq).w =
        Redirect (SetCookie (withSTS w)
          { Name := c.TokenName, Value := Request.FormValue rq c.TokenName,
            MaxAge := 0, Path := gs "/" }) rq rq.URL.Path StatusFound ∧
      Header.Has (checkAuth c now w rq).w.header (gs "Location") = true ∧
      (w.status = none → (checkAuth c now w rq).w.status = some 302) ∧
      (plainPath rq.URL.Path = true →
        Header.Get (checkAuth c now w rq).w.header (gs "Location") = rq.URL.Path) ∧
      (isCookieNameValid c.TokenName = true →
        (gs "Set-Cookie",
          c.TokenName ++ gs "=" ++ sanitizeCookieValue (Request.FormValue rq c.TokenName) ++
            gs "; Path=/") ∈ (checkAuth c now w rq).w.header) ∧
      (isCookieNameValid c.TokenName = true →
        cookieSafe (Request.FormValue rq c.TokenName) = true →
        (gs "Set-Cookie",
          c.TokenName ++ gs "=" ++ Request.FormValue rq c.TokenName ++ gs "; Path=/") ∈
            (checkAuth c now w rq).w.header)) := by
  obtain ⟨hb, ht⟩ := startedFrom_token hs ha
  constructor
  · rw [checkAuth_token_eq c now w r hb ht, checkAuth_token_eq c now w r0 hb ht]
    simp only [hq, hq0, hc, hc0, hm, Option.getD_some, Option.getD_none, ne_eq,
      not_true_eq_false, if_false, false_and, and_false]
    refine ⟨?_, ?_, ?_, ?_⟩
    · simp [displayAuthTokenRequest]
    · simp
    · simp
    · simp [displayAuthTokenRequest, Write_header, withSTS]
  · intro rq hrq
    obtain ⟨f1, f2, f3⟩ := token_redirect_facts c w rq (Request.FormValue rq c.TokenName)
    have hshape : checkAuth c now w rq =
        { w := Redirect (SetCookie (withSTS w) (tokenCookie c (Request.FormValue rq c.TokenName)))
            rq rq.URL.Path StatusFound,
          ok := false, spawned := [] } := by
      rw [checkAuth_token_eq c now w rq hb ht]
      simp only [hrq, ne_eq, not_false_eq_true, if_true]
    rw [hshape]
    refine ⟨rfl, rfl, Redirect_has_Location _ _ _ _, f3, ?_, f1, ?_⟩
    · intro hpath
      obtain ⟨g1, g2⟩ := Redirect_target_plain rq rq.URL.Path hpath
      rw [f2, g1, g2]
    · intro hname hsafe
      have h1 := f1 hname
      rw [sanitizeCookieValue_safe _ hsafe] at h1
      exact h1

/-- Witness for C4 (amended): a cookie with an unknown token against a request with none. -/
theorem checkAuth_token_unknown_cookie_witness :
    checkAuth tokenCmd 5 ResponseWriter.fresh
        { getRequest (gs "/agi/menu") with Cookies := [(gs "AGI_TOKEN", gs "bogus")] } =
      checkAuth tokenCmd 5 ResponseWriter.fresh (getRequest (gs "/agi/menu")) ∧
    (checkAuth tokenCmd 5 ResponseWriter.fresh
        { getRequest (gs "/agi/menu") with Cookies := [(gs "AGI_TOKEN", gs "bogus")] }).ok
      = false :=
  have h := checkAuth_token_unknown_cookie tokenFlags tokenCmd 0 5 ResponseWriter.fresh
    { getRequest (gs "/agi/menu") with Cookies := [(gs "AGI_TOKEN", gs "bogus")] }
    (getRequest (gs "/agi/menu")) (gs "bogus")
    (by decide) rfl (by decide) (by decide) (by decide) (by decide) (by decide)
  ⟨h.1.1, h.1.2.1⟩

/-! ## Auth gate: all policies -/

/-- C5: under the none policy (auth type neither `basic` nor `token`, so `Execute` leaves both
policy booleans false) `checkAuth` returns true for every request, whatever it carries, and
writes neither a status nor a body: the response writer only gains the
Strict-Transport-Security line. -/
theorem checkAuth_none_passes (c0 c : agiExecProxyCmd) (start now : Time) (w : ResponseWriter)
    (r : Request) (hs : startedFrom c0 start c) (hb : c0.AuthType ≠ gs "basic")
    (ht : c0.AuthType ≠ gs "token") :
    (checkAuth c now w r).ok = true ∧
    (checkAuth c now w r).w.status = w.status ∧
    (checkAuth c now w r).w.body = w.body ∧
    (checkAuth c now w r).w.header =
      Header.Add w.header (gs "Strict-Transport-Security") (gs "max-age=31536000") := by
  obtain ⟨hb1, ht1⟩ := startedFrom_none hs hb ht
  rw [checkAuth_nobasic_eq c now w r hb1, afterBasic_notoken c now _ r ht1]
  exact ⟨rfl, rfl, rfl, rfl⟩

/-- Witness for C5: default flags (`--auth-type none`), a request with credentials, a cookie
and a query parameter. -/
theorem checkAuth_none_passes_witness :
    (checkAuth (Execute_setup agiExecProxyCmd.defaults 0) 5 ResponseWriter.fresh
      busyRequest).ok = true ∧
    (checkAuth (Execute_setup agiExecProxyCmd.defaults 0) 5 ResponseWriter.fresh
      busyRequest).w.status = none :=
  have h := checkAuth_none_passes agiExecProxyCmd.defaults
    (Execute_setup agiExecProxyCmd.defaults 0) 0 5 ResponseWriter.fresh
    busyRequest
    (by decide) (by decide) (by decide)
  ⟨h.1, h.2.1⟩

theorem displayAuthTokenRequest_header (c : agiExecProxyCmd) (w : ResponseWriter) (r : Request) :
    (displayAuthTokenRequest c w r).header = w.header := by
  unfold displayAuthTokenRequest
  exact Write_header _ _

theorem afterBasic_mem_header (c : agiExecProxyCmd) (now : Time) (w : ResponseWriter)
    (r : Request) {p : GoString × GoString} (h1 : p.1 ≠ gs "Location")
    (h2 : p.1 ≠ gs "Content-Type") (hp : p ∈ w.header) :
    p ∈ (checkAuth.afterBasic c now w r).w.header := by
  cases ht : c.isTokenAuth with
  | false =>
    rw [afterBasic_notoken c now w r ht]
    exact hp
  | true =>
    by_cases hq : Request.FormValue r c.TokenName = []
    · rw [afterBasic_token_cookie c now w r ht hq]
      split
      · exact hp
      · simp only [displayAuthTokenRequest_header]
        exact hp
    · rw [afterBasic_token_query c now w r ht hq]
      exact Redirect_mem_header h1 h2 (SetCookie_mem_header hp)

theorem checkAuth_cases (c : agiExecProxyCmd) (now : Time) (w : ResponseWriter) (r : Request) :
    checkAuth c now w r = checkAuth.afterBasic c now (withSTS w) r ∨
    checkAuth c now w r = checkAuth.unauthorized (withSTS w) := by
  cases hb : c.isBasicAuth with
  | false => exact Or.inl (checkAuth_nobasic_eq c now w r hb)
  | true =>
    rw [checkAuth_basic_eq c now w r hb]
    split
    · exact Or.inl rfl
    · exact Or.inr rfl

/-- C6: for every policy and every request, whatever `checkAuth` does (pass, 401, redirect or
login form), the header map of the response holds the Strict-Transport-Security line after
`checkAuth` returns. -/
theorem checkAuth_sets_sts (c : agiExecProxyCmd) (now : Time) (w : ResponseWriter) (r : Request) :
    (gs "Strict-Transport-Security", gs "max-age=31536000") ∈ (checkAuth c now w r).w.header ∧
    Header.Has (checkAuth c now w r).w.header (gs "Strict-Transport-Security") = true := by
  have n1 : gs "Strict-Transport-Security" ≠ gs "Location" := by decide
  have n2 : gs "Strict-Transport-Security" ≠ gs "Content-Type" := by decide
  have n3 : gs "Strict-Transport-Security" ≠ gs "Content-Length" := by decide
  have n4 : gs "Strict-Transport-Security" ≠ gs "X-Content-Type-Options" := by decide
  have n5 : gs "Strict-Transport-Security" ≠ gs "WWW-Authenticate" := by decide
  have h0 : (gs "Strict-Transport-Security", gs "max-age=31536000") ∈ (withSTS w).header :=
    Header_mem_Add_self _ _ _
  have hmem : (gs "Strict-Transport-Security", gs "max-age=31536000") ∈
      (checkAuth c now w r).w.header := by
    rcases checkAuth_cases c now w r with h | h
    · rw [h]
      exact afterBasic_mem_header c now _ r n1 n2 h0
    · rw [h]
      unfold checkAuth.unauthorized
      exact Error_mem_header n3 n2 n4 (Header_mem_Set n5 h0)
  exact ⟨hmem, Header_Has_of_mem hmem⟩

theorem afterBasic_spawned (c : agiExecProxyCmd) (now : Time) (w : ResponseWriter) (r : Request) :
    (checkAuth.afterBasic c now w r).spawned =
      if (checkAuth.afterBasic c now w r).ok then [Goroutine.lastActivitySet now] else [] := by
  cases ht : c.isTokenAuth with
  | false => rw [afterBasic_notoken c now w r ht]; rfl
  | true =>
    by_cases hq : Request.FormValue r c.TokenName = []
    · rw [afterBasic_token_cookie c now w r ht hq]
      split <;> rfl
    · rw [afterBasic_token_query c now w r ht hq]
      rfl

/-- C7: `checkAuth` starts the update of the Activity Timestamp to the current time exactly
when it returns true, and that update is the only thing it starts; when it returns false (401,
redirect, login form) it starts nothing, so the Activity Timestamp and the rest of the command
state stay as they were. -/
theorem checkAuth_activity_bump (c : agiExecProxyCmd) (now : Time) (w : ResponseWriter)
    (r : Request) :
    (checkAuth c now w r).spawned =
      (if (checkAuth c now w r).ok then [Goroutine.lastActivitySet now] else []) ∧
    runAll c (checkAuth c now w r).spawned =
      (if (checkAuth c now w r).ok then { c with lastActivity := now } else c) ∧
    (runAll c (checkAuth c now w r).spawned).lastActivity =
      (if (checkAuth c now w r).ok then now else c.lastActivity) := by
  have hsp : (checkAuth c now w r).spawned =
      (if (checkAuth c now w r).ok then [Goroutine.lastActivitySet now] else []) := by
    rcases checkAuth_cases c now w r with h | h
    · rw [h]
      exact afterBasic_spawned c now _ r
    · rw [h]
      rfl
  refine ⟨hsp, ?_, ?_⟩
  · rw [hsp]
    cases (checkAuth c now w r).ok <;> rfl
  · rw [hsp]
    cases (checkAuth c now w r).ok <;> rfl

/-! ## Reverse-proxy handlers -/

theorem proxyHandler_denied (c : agiExecProxyCmd) (U : URL) (P : ReverseProxy) (now : Time)
    (w : ResponseWriter) (r : Request) (h : (checkAuth c now w r).ok = false) :
    proxyHandler c U P now w r =
      { w := (checkAuth c now w r).w, r := r, forwarded := none,
        spawned := (checkAuth c now w r).spawned } := by
  unfold proxyHandler
  simp [h]

theorem proxyHandler_passed (c : agiExecProxyCmd) (U : URL) (P : ReverseProxy) (now : Time)
    (w : ResponseWriter) (r : Request) (h : (checkAuth c now w r).ok = true) :
    proxyHandler c U P now w r =
      { w := (checkAuth c now w r).w,
        r := { r with URL := { r.URL with Host := U.Host, Scheme := U.Scheme },
                      Header := Header.Set r.Header (gs "X-Forwarded-Host")
                        (Header.Get r.Header (gs "Host")),
                      Host := U.Host },
        forwarded := some (P,
          { r with URL := { r.URL with Host := U.Host, Scheme := U.Scheme },
                   Header := Header.Set r.Header (gs "X-Forwarded-Host")
                     (Header.Get r.Header (gs "Host")),
                   Host := U.Host }),
        spawned := (checkAuth c now w r).spawned } := by
  unfold proxyHandler
  simp [h]

theorem proxyHandler_gate (c : agiExecProxyCmd) (U : URL) (P : ReverseProxy) (now : Time)
    (w : ResponseWriter) (r : Request) :
    (proxyHandler c U P now w r).forwarded.isSome = (checkAuth c now w r).ok ∧
    ((checkAuth c now w r).ok = false →
      (proxyHandler c U P now w r).forwarded = none ∧ (proxyHandler c U P now w r).r = r) ∧
    (∀ (p : ReverseProxy) (q : Request), (proxyHandler c U P now w r).forwarded = some (p, q) →
      (checkAuth c now w r).ok = true ∧ p = P ∧ q.URL.Host = U.Host ∧
      q.URL.Scheme = U.Scheme ∧ q.Host = U.Host) := by
  cases h : (checkAuth c now w r).ok with
  | false =>
    rw [proxyHandler_denied c U P now w r h]
    simp
  | true =>
    rw [proxyHandler_passed c U P now w r h]
    refine ⟨rfl, by simp, ?_⟩
    intro p q hpq
    simp only [Option.some.injEq, Prod.mk.injEq] at hpq
    obtain ⟨hp, hq⟩ := hpq
    subst hp
    subst hq
    exact ⟨rfl, rfl, rfl, rfl, rfl⟩

/-- C8: each of the three proxy handlers hands a request to its proxy exactly when `checkAuth`
returns true; when `checkAuth` returns false the handler forwards nothing and leaves the request
as it was; and a forwarded request goes to the handler own proxy with the URL host, the URL
scheme and the Host of that handler upstream URL, which `Execute` fixes to the loopback ports
8850 (dashboard), 8852 (terminal) and 8853 (file browser). -/
theorem proxy_handlers_gate (c : agiExecProxyCmd) (now : Time) (w : ResponseWriter)
    (r : Request) :
    ((grafanaHandler c now w r).forwarded.isSome = (checkAuth c now w r).ok ∧
      ((checkAuth c now w r).ok = false →
        (grafanaHandler c now w r).forwarded = none ∧ (grafanaHandler c now w r).r = r) ∧
      (∀ (p : ReverseProxy) (q : Request), (grafanaHandler c now w r).forwarded = some (p, q) →
        (checkAuth c now w r).ok = true ∧ p = c.grafanaProxy ∧ q.URL.Host = c.grafanaUrl.Host ∧
        q.URL.Scheme = c.grafanaUrl.Scheme ∧ q.Host = c.grafanaUrl.Host)) ∧
    ((ttydHandler c now w r).forwarded.isSome = (checkAuth c now w r).ok ∧
      ((checkAuth c now w r).ok = false →
        (ttydHandler c now w r).forwarded = none ∧ (ttydHandler c now w r).r = r) ∧
      (∀ (p : ReverseProxy) (q : Request), (ttydHandler c now w r).forwarded = some (p, q) →
        (checkAuth c now w r).ok = true ∧ p = c.ttydProxy ∧ q.URL.Host = c.ttydUrl.Host ∧
        q.URL.Scheme = c.ttydUrl.Scheme ∧ q.Host = c.ttydUrl.Host)) ∧
    ((fbHandler c now w r).forwarded.isSome = (checkAuth c now w r).ok ∧
      ((checkAuth c now w r).ok = false →
        (fbHandler c now w r).forwarded = none ∧ (fbHandler c now w r).r = r) ∧
      (∀ (p : ReverseProxy) (q : Request), (fbHandler c now w r).forwarded = some (p, q) →
        (checkAuth c now w r).ok = true ∧ p = c.fbProxy ∧ q.URL.Host = c.fbUrl.Host ∧
        q.URL.Scheme = c.fbUrl.Scheme ∧ q.Host = c.fbUrl.Host)) ∧
    (∀ (c0 : agiExecProxyCmd) (start : Time),
      (Execute_setup c0 start).grafanaUrl = ⟨gs "http", gs "127.0.0.1:8850", gs "/"⟩ ∧
      (Execute_setup c0 start).grafanaProxy.target = (Execute_setup c0 start).grafanaUrl ∧
      (Execute_setup c0 start).ttydUrl = ⟨gs "http", gs "127.0.0.1:8852", gs "/"⟩ ∧
      (Execute_setup c0 start).ttydProxy.target = (Execute_setup c0 start).ttydUrl ∧
      (Execute_setup c0 start).fbUrl = ⟨gs "http", gs "127.0.0.1:8853", gs "/"⟩ ∧
      (Execute_setup c0 start).fbProxy.target = (Execute_setup c0 start).fbUrl) := by
  refine ⟨proxyHandler_gate c c.grafanaUrl c.grafanaProxy now w r,
    proxyHandler_gate c c.ttydUrl c.ttydProxy now w r,
    proxyHandler_gate c c.fbUrl c.fbProxy now w r, ?_⟩
  intro c0 start
  unfold Execute_setup
  simp only []
  refine ⟨?_, ?_, ?_, ?_, ?_, ?_⟩ <;> (split <;> split <;> rfl)

/-- The header the handlers forward: for every request that passes `checkAuth`, the
`X-Forwarded-Host` of the forwarded request is the value of the `Host` key of the inbound
header map. -/
theorem proxyHandler_forwarded_host (c : agiExecProxyCmd) (U : URL) (P : ReverseProxy)
    (now : Time) (w : ResponseWriter) (r : Request) (h : (checkAuth c now w r).ok = true) :
    (proxyHandler c U P now w r).forwarded.map
        (fun pq => Header.Get pq.2.Header (gs "X-Forwarded-Host")) =
      some (Header.Get r.Header (gs "Host")) := by
  rw [proxyHandler_passed c U P now w r h]
  simp [Header_Get_Set_self]

/-- C9 (code evaluated at the failing input): a request for `/` on host `agi.example.com`, as
the server parses it (the `Host` line is moved to the `Host` field and is no longer in the header
map), passes the none policy and is forwarded by each handler with an empty `X-Forwarded-Host`,
not with `agi.example.com`. -/
theorem handlers_forwarded_host_empty :
    (getRequest (gs "/")).Host = gs "agi.example.com" ∧
    (checkAuth (Execute_setup agiExecProxyCmd.defaults 0) 5 ResponseWriter.fresh
      (getRequest (gs "/"))).ok = true ∧
    (grafanaHandler (Execute_setup agiExecProxyCmd.defaults 0) 5 ResponseWriter.fresh
      (getRequest (gs "/"))).forwarded.map
        (fun pq => Header.Get pq.2.Header (gs "X-Forwarded-Host")) = some [] ∧
    (ttydHandler (Execute_setup agiExecProxyCmd.defaults 0) 5 ResponseWriter.fresh
      (getRequest (gs "/"))).forwarded.map
        (fun pq => Header.Get pq.2.Header (gs "X-Forwarded-Host")) = some [] ∧
    (fbHandler (Execute_setup agiExecProxyCmd.defaults 0) 5 ResponseWriter.fresh
      (getRequest (gs "/"))).forwarded.map
        (fun pq => Header.Get pq.2.Header (gs "X-Forwarded-Host")) = some [] ∧
    (grafanaHandler (Execute_setup agiExecProxyCmd.defaults 0) 5 ResponseWriter.fresh
      (getRequest (gs "/"))).forwarded.map (fun pq => pq.2.Host) = some (gs "127.0.0.1:8850") := by
  decide

/-! ## Status aggregator: download stage -/

theorem wrapInt64_of_range {x : Int} (h1 : -2 ^ 63 ≤ x) (h2 : x < 2 ^ 63) : wrapInt64 x = x := by
  unfold wrapInt64
  rw [Int.emod_eq_of_lt (by omega) (by omega)]
  omega

theorem wrapInt64_range (x : Int) : -2 ^ 63 ≤ wrapInt64 x ∧ wrapInt64 x < 2 ^ 63 := by
  unfold wrapInt64
  have h1 := Int.emod_nonneg (x + 2 ^ 63) (b := 2 ^ 64) (by norm_num)
  have h2 := Int.emod_lt_of_pos (x + 2 ^ 63) (b := 2 ^ 64) (by norm_num)
  constructor <;> omega

theorem wrapInt64_add_left (a b : Int) : wrapInt64 (wrapInt64 a + b) = wrapInt64 (a + b) := by
  unfold wrapInt64
  have h : ((a + 2 ^ 63) % 2 ^ 64 - 2 ^ 63 + b + 2 ^ 63) % 2 ^ 64 = (a + b + 2 ^ 63) % 2 ^ 64 := by
    have e1 : (a + 2 ^ 63) % 2 ^ 64 - 2 ^ 63 + b + 2 ^ 63 = (a + 2 ^ 63) % 2 ^ 64 + b := by ring
    have e2 : a + b + 2 ^ 63 = (a + 2 ^ 63) + b := by ring
    rw [e1, e2, Int.emod_add_cancel_right]
    exact Int.emod_emod_of_dvd _ (dvd_refl _)
  rw [h]

theorem wrapInt64_idem (a : Int) : wrapInt64 (wrapInt64 a) = wrapInt64 a := by
  have h := wrapInt64_range a
  exact wrapInt64_of_range h.1 h.2

theorem downloadStep_fold_total (e : StatusEnv) (dir : GoString)
    (files : List (GoString × DownloaderFile)) (acc : DownloadAcc)
    (h : wrapInt64 acc.totalSize = acc.totalSize) :
    (files.foldl (getAgiStatus.downloadStep e dir) acc).totalSize =
      wrapInt64 (acc.totalSize + (files.map entrySize).sum) := by
  induction files generalizing acc with
  | nil => simpa using h.symm
  | cons x xs ih =>
    rw [List.foldl_cons, ih]
    · simp only [getAgiStatus.downloadStep, add64, List.map_cons, List.sum_cons, entrySize]
      rw [wrapInt64_add_left, add_assoc]
    · simp only [getAgiStatus.downloadStep, add64]
      exact wrapInt64_idem _

theorem downloadStep_dlSize (e : StatusEnv) (dir : GoString) (acc : DownloadAcc)
    (x : GoString × DownloaderFile) (h : wrapInt64 acc.dlSize = acc.dlSize) :
    (getAgiStatus.downloadStep e dir acc x).dlSize =
      wrapInt64 (acc.dlSize + downloadedBytes e dir x) := by
  unfold getAgiStatus.downloadStep downloadedBytes
  simp only [add64]
  cases x.2.IsDownloaded with
  | true => simp
  | false =>
    cases e.Stat (e.pathJoin dir x.1) with
    | some nstat => simp
    | none => simpa using h.symm

theorem downloadStep_fold_dlSize (e : StatusEnv) (dir : GoString)
    (files : List (GoString × DownloaderFile)) (acc : DownloadAcc)
    (h : wrapInt64 acc.dlSize = acc.dlSize) :
    (files.foldl (getAgiStatus.downloadStep e dir) acc).dlSize =
      wrapInt64 (acc.dlSize + (files.map (downloadedBytes e dir)).sum) := by
  induction files generalizing acc with
  | nil => simpa using h.symm
  | cons x xs ih =>
    rw [List.foldl_cons, ih]
    · rw [downloadStep_dlSize e dir acc x h]
      simp only [List.map_cons, List.sum_cons]
      rw [wrapInt64_add_left, add_assoc]
    · rw [downloadStep_dlSize e dir acc x h]
      exact wrapInt64_idem _

theorem download_sizes (e : StatusEnv) (status : IngestStatusStruct) (rd : GoString) :
    (getAgiStatus.download e status rd).Ingest.DownloaderTotalSize =
      wrapInt64 (downloadTotal (e.decodeDownloader rd)) ∧
    (getAgiStatus.download e status rd).Ingest.DownloaderCompleteSize =
      wrapInt64 (downloadDone e (e.decodeDownloader rd)) := by
  have z : wrapInt64 0 = 0 := by decide
  have t1 := downloadStep_fold_total e (gs "/opt/agi/files/input/s3source")
    (e.decodeDownloader rd).S3Files
    { Errors := status.Ingest.Errors, totalSize := 0, dlSize := 0 } z
  have d1 := downloadStep_fold_dlSize e (gs "/opt/agi/files/input/s3source")
    (e.decodeDownloader rd).S3Files
    { Errors := status.Ingest.Errors, totalSize := 0, dlSize := 0 } z
  have t2 := downloadStep_fold_total e (gs "/opt/agi/files/input/sftpsource")
    (e.decodeDownloader rd).SftpFiles
    ((e.decodeDownloader rd).S3Files.foldl
      (getAgiStatus.downloadStep e (gs "/opt/agi/files/input/s3source"))
      { Errors := status.Ingest.Errors, totalSize := 0, dlSize := 0 })
    (by rw [t1]; exact wrapInt64_idem _)
  have d2 := downloadStep_fold_dlSize e (gs "/opt/agi/files/input/sftpsource")
    (e.decodeDownloader rd).SftpFiles
    ((e.decodeDownloader rd).S3Files.foldl
      (getAgiStatus.downloadStep e (gs "/opt/agi/files/input/s3source"))
      { Errors := status.Ingest.Errors, totalSize := 0, dlSize := 0 })
    (by rw [d1]; exact wrapInt64_idem _)
  rw [t1, wrapInt64_add_left] at t2
  rw [d1, wrapInt64_add_left] at d2
  simp only [zero_add] at t2 d2
  unfold getAgiStatus.download
  simp only []
  constructor
  · split <;> exact t2
  · split <;> exact d2

theorem download_pct (e : StatusEnv) (status : IngestStatusStruct) (rd : GoString)
    (h0 : status.Ingest.DownloaderCompletePct = 0) :
    (getAgiStatus.download e status rd).Ingest.DownloaderCompletePct =
      if (getAgiStatus.download e status rd).Ingest.DownloaderTotalSize > 0
      then div64 (mul64 100 (getAgiStatus.download e status rd).Ingest.DownloaderCompleteSize)
        (getAgiStatus.download e status rd).Ingest.DownloaderTotalSize
      else 0 := by
  unfold getAgiStatus.download
  simp only []
  split
  · rename_i hpos
    simp only [hpos, if_true]
  · rename_i hpos
    simp only [hpos, if_false]
    exact h0

theorem getAgiStatus_ok (e : StatusEnv) (path : GoString) (plist : List Process) (rd : GoString)
    (hp : e.Processes = some plist)
    (hr : getAgiStatus.reader e path (getAgiStatus.steps e) = .ok rd) :
    ∃ status : IngestStatusStruct, status.Ingest.DownloaderCompletePct = 0 ∧
      getAgiStatus e path = .ok (getAgiStatus.stage e (getAgiStatus.steps e) status rd) := by
  unfold getAgiStatus
  simp only [hp, hr]
  refine ⟨_, ?_, rfl⟩
  split <;> split <;> split <;> split <;> rfl

/-- C10 (amended): in the download stage (init done, download not done), when the process list
and the progress file can be read, `getAgiStatus` returns a snapshot whose total is the sum of
the sizes of all S3 and SFTP entries and whose downloaded count is the sum over the entries of
the size when marked downloaded and else of the on-disk size (0 when absent), both computed in
signed 64-bit arithmetic, and whose percentage is the truncated 64-bit quotient of 100 times
downloaded by total when total is positive and 0 otherwise. Whenever the exact sums are
non-negative, the total is below 2^63 and 100 times the downloaded sum is below 2^63, these are
the exact sums and the exact integer quotient; total 200 with downloaded 50 gives 25 and total 0
gives 0. -/
theorem getAgiStatus_download_stage (e : StatusEnv) (path : GoString) (plist : List Process)
    (rd : GoString) (hp : e.Processes = some plist)
    (hi : (getAgiStatus.steps e).Init = true) (hd : (getAgiStatus.steps e).Download = false)
    (hr : getAgiStatus.reader e path (getAgiStatus.steps e) = .ok rd) :
    ∃ st : IngestStatusStruct, getAgiStatus e path = .ok st ∧
      st.Ingest.DownloaderTotalSize = wrapInt64 (downloadTotal (e.decodeDownloader rd)) ∧
      st.Ingest.DownloaderCompleteSize = wrapInt64 (downloadDone e (e.decodeDownloader rd)) ∧
      st.Ingest.DownloaderCompletePct =
        (if st.Ingest.DownloaderTotalSize > 0
         then div64 (mul64 100 st.Ingest.DownloaderCompleteSize) st.Ingest.DownloaderTotalSize
         else 0) ∧
      (0 ≤ downloadDone e (e.decodeDownloader rd) →
        0 ≤ downloadTotal (e.decodeDownloader rd) →
        downloadTotal (e.decodeDownloader rd) < 2 ^ 63 →
        100 * downloadDone e (e.decodeDownloader rd) < 2 ^ 63 →
        st.Ingest.DownloaderTotalSize = downloadTotal (e.decodeDownloader rd) ∧
        st.Ingest.DownloaderCompleteSize = downloadDone e (e.decodeDownloader rd) ∧
        st.Ingest.DownloaderCompletePct =
          (if downloadTotal (e.decodeDownloader rd) > 0
           then 100 * downloadDone e (e.decodeDownloader rd) / downloadTotal (e.decodeDownloader rd)
           else 0)) ∧
      (downloadTotal (e.decodeDownloader rd) = 200 → downloadDone e (e.decodeDownloader rd) = 50 →
        st.Ingest.DownloaderCompletePct = 25) ∧
      (downloadTotal (e.decodeDownloader rd) = 0 → st.Ingest.DownloaderCompletePct = 0) := by
  obtain ⟨status, h0, hok⟩ := getAgiStatus_ok e path plist rd hp hr
  have hstage : getAgiStatus.stage e (getAgiStatus.steps e) status rd =
      getAgiStatus.download e status rd := by
    unfold getAgiStatus.stage
    simp [hi, hd]
  rw [hstage] at hok
  obtain ⟨ht, hdl⟩ := download_sizes e status rd
  have hpct := download_pct e status rd h0
  have exact : 0 ≤ downloadDone e (e.decodeDownloader rd) →
      0 ≤ downloadTotal (e.decodeDownloader rd) →
      downloadTotal (e.decodeDownloader rd) < 2 ^ 63 →
      100 * downloadDone e (e.decodeDownloader rd) < 2 ^ 63 →
      (getAgiStatus.download e status rd).Ingest.DownloaderTotalSize =
        downloadTotal (e.decodeDownloader rd) ∧
      (getAgiStatus.download e status rd).Ingest.DownloaderCompleteSize =
        downloadDone e (e.decodeDownloader rd) ∧
      (getAgiStatus.download e status rd).Ingest.DownloaderCompletePct =
        (if downloadTotal (e.decodeDownloader rd) > 0
         then 100 * downloadDone e (e.decodeDownloader rd) / downloadTotal (e.decodeDownloader rd)
         else 0) := by
    intro hD hT hT2 hD2
    have eT : wrapInt64 (downloadTotal (e.decodeDownloader rd)) =
        downloadTotal (e.decodeDownloader rd) := wrapInt64_of_range (by omega) hT2
    have eD : wrapInt64 (downloadDone e (e.decodeDownloader rd)) =
        downloadDone e (e.decodeDownloader rd) := wrapInt64_of_range (by omega) (by omega)
    rw [hpct, ht, hdl, eT, eD]
    refine ⟨rfl, rfl, ?_⟩
    by_cases hpos : downloadTotal (e.decodeDownloader rd) > 0
    · simp only [hpos, if_true]
      unfold div64 mul64
      have hm : 0 ≤ 100 * downloadDone e (e.decodeDownloader rd) := by omega
      rw [wrapInt64_of_range (by omega) hD2, Int.tdiv_eq_ediv hm hT]
      have hq0 : 0 ≤ 100 * downloadDone e (e.decodeDownloader rd) /
          downloadTotal (e.decodeDownloader rd) := Int.ediv_nonneg hm hT
      have hq1 : 100 * downloadDone e (e.decodeDownloader rd) /
          downloadTotal (e.decodeDownloader rd) ≤ 100 * downloadDone e (e.decodeDownloader rd) :=
        Int.ediv_le_self _ hm
      exact wrapInt64_of_range (by omega) (by omega)
    · simp only [hpos, if_false]
  refine ⟨_, hok, ht, hdl, hpct, exact, ?_, ?_⟩
  · intro hT hD
    have h := exact (by omega) (by omega) (by omega) (by omega)
    rw [h.2.2, hT, hD]
    decide
  · intro hT
    have z : wrapInt64 0 = 0 := by decide
    rw [hpct, ht, hT, z]
    simp

/-- Witness for C10 (amended): total 200, downloaded 50, percentage 25. -/
theorem getAgiStatus_download_stage_witness :
    downloadTotal progress200 = 200 ∧
    downloadDone (downloadEnv progress200) progress200 = 50 ∧
    downloadSizes (getAgiStatus (downloadEnv progress200) (gs "/opt/agi/ingest/")) =
      some (200, 50) ∧
    downloadPct (getAgiStatus (downloadEnv progress200) (gs "/opt/agi/ingest/")) = some 25 :=
  have h := getAgiStatus_download_stage (downloadEnv progress200) (gs "/opt/agi/ingest/") []
    (gs "progress") rfl (by decide) (by decide) rfl
  ⟨by decide, by decide, by
    obtain ⟨st, hst, h1, h2, _, hex, _, _⟩ := h
    have hx := hex (by decide) (by decide) (by decide) (by decide)
    rw [hst]
    simp only [downloadSizes, hx.1, hx.2.1]
    decide, by
    obtain ⟨st, hst, _, _, _, _, h25, _⟩ := h
    rw [hst]
    simp only [downloadPct]
    rw [h25 (by decide) (by decide)]⟩

/-- Counterexample for C10 as stated: with one entry of 10^17 bytes marked downloaded the
snapshot has total 10^17 and downloaded 10^17, and its percentage is -84, not the integer
quotient 100 * downloaded / total = 100: the product 100 * downloaded leaves the signed 64-bit
range. -/
theorem getAgiStatus_download_pct_counterexample :
    (getAgiStatus.steps (downloadEnv progressHuge)).Init = true ∧
    (getAgiStatus.steps (downloadEnv progressHuge)).Download = false ∧
    downloadSizes (getAgiStatus (downloadEnv progressHuge) (gs "/opt/agi/ingest/")) =
      some (100000000000000000, 100000000000000000) ∧
    downloadPct (getAgiStatus (downloadEnv progressHuge) (gs "/opt/agi/ingest/")) = some (-84) ∧
    (100 * 100000000000000000 / 100000000000000000 : Int) = 100 := by
  decide

/-! ## Status aggregator: shape of the result -/

theorem getAgiStatus_eq (e : StatusEnv) (path : GoString) :
    getAgiStatus e path =
      match e.Processes with
      | none => .error StatusError.processes
      | some plist =>
        match getAgiStatus.reader e path (getAgiStatus.steps e) with
        | .error err => .error err
        | .ok rd => .ok (getAgiStatus.stage e (getAgiStatus.steps e) (statusBeforeStage e plist) rd) := by
  unfold getAgiStatus statusBeforeStage
  cases e.Processes with
  | none => rfl
  | some plist =>
    simp only []
    cases getAgiStatus.reader e path (getAgiStatus.steps e) with
    | error err => rfl
    | ok rd =>
      simp only []
      cases plist.any (fun p => HasSuffix p.Executable (gs "asd")) <;>
        cases getAgiStatus.pidRunning e (gs "/opt/agi/ingest.pid") <;>
        cases getAgiStatus.pidRunning e (gs "/opt/agi/plugin.pid") <;>
        cases getAgiStatus.pidRunning e (gs "/opt/agi/grafanafix.pid") <;> rfl

theorem getAgiStatus_ok_of (e : StatusEnv) (path : GoString) (plist : List Process)
    (rd : GoString) (hp : e.Processes = some plist)
    (hr : getAgiStatus.reader e path (getAgiStatus.steps e) = .ok rd) :
    getAgiStatus e path =
      .ok (getAgiStatus.stage e (getAgiStatus.steps e) (statusBeforeStage e plist) rd) := by
  rw [getAgiStatus_eq, hp]
  simp only [hr]

theorem isSnapshot_iff (e : StatusEnv) (path : GoString) :
    isSnapshot (getAgiStatus e path) = true ↔
      (∃ plist, e.Processes = some plist) ∧
      ∃ rd, getAgiStatus.reader e path (getAgiStatus.steps e) = .ok rd := by
  rw [getAgiStatus_eq]
  cases e.Processes with
  | none => simp [isSnapshot]
  | some plist =>
    cases getAgiStatus.reader e path (getAgiStatus.steps e) with
    | error err => simp [isSnapshot]
    | ok rd => simp [isSnapshot]

theorem stage_unpack (e : StatusEnv) (steps : IngestSteps) (status : IngestStatusStruct)
    (rd : GoString) (hd : steps.Download = true) (hu : steps.Unpack = false) :
    getAgiStatus.stage e steps status rd =
      { status with Ingest := { status.Ingest with
          DownloaderCompletePct := 100,
          Errors := getAgiStatus.fileErrors status.Ingest.Errors (e.decodeUnpacker rd).Files } } := by
  unfold getAgiStatus.stage
  simp [hd, hu]

theorem stage_preprocess (e : StatusEnv) (steps : IngestSteps) (status : IngestStatusStruct)
    (rd : GoString) (hu : steps.Unpack = true) (hpp : steps.PreProcess = false)
    (hnd : (steps.Init && !steps.Download) = false) :
    getAgiStatus.stage e steps status rd =
      { status with Ingest := { status.Ingest with
          DownloaderCompletePct := 100,
          Errors := getAgiStatus.fileErrors status.Ingest.Errors (e.decodePreProcessor rd).Files } } := by
  unfold getAgiStatus.stage
  simp only [hnd, hu, hpp]
  simp

/-- Counterexample for C11 as stated: download complete, unpack incomplete, the plain progress
file absent and `unpacker.json.gz` present with content that is not gzip: `getAgiStatus`
returns the error of `gzip.NewReader`, not a snapshot with download percentage 100. -/
theorem getAgiStatus_unpack_gz_counterexample :
    (getAgiStatus.steps (stageEnv stepsDownloaded
      [(gs "/opt/agi/ingest/unpacker.json.gz", gs "not gzip")] [] (fun _ => none)
      ⟨[]⟩ ⟨[]⟩ ⟨[]⟩)).Download = true ∧
    (getAgiStatus.steps (stageEnv stepsDownloaded
      [(gs "/opt/agi/ingest/unpacker.json.gz", gs "not gzip")] [] (fun _ => none)
      ⟨[]⟩ ⟨[]⟩ ⟨[]⟩)).Unpack = false ∧
    isSnapshot (getAgiStatus (stageEnv stepsDownloaded
      [(gs "/opt/agi/ingest/unpacker.json.gz", gs "not gzip")] [] (fun _ => none)
      ⟨[]⟩ ⟨[]⟩ ⟨[]⟩) (gs "/opt/agi/ingest/")) = false ∧
    downloadPct (getAgiStatus (stageEnv stepsDownloaded
      [(gs "/opt/agi/ingest/unpacker.json.gz", gs "not gzip")] [] (fun _ => none)
      ⟨[]⟩ ⟨[]⟩ ⟨[]⟩) (gs "/opt/agi/ingest/")) ≠ some 100 := by
  decide

/-- C11 (amended): for every steps marker with download complete and unpack incomplete,
`getAgiStatus` returns a snapshot exactly when the process list can be read and the progress
file is either absent in both forms or can be opened (and, for the `.gz` form, starts a gzip
stream); every snapshot it returns then has download percentage 100, whatever the content of
the progress file decodes to. -/
theorem getAgiStatus_unpack_stage_pct (e : StatusEnv) (path : GoString)
    (hd : (getAgiStatus.steps e).Download = true) (hu : (getAgiStatus.steps e).Unpack = false) :
    (isSnapshot (getAgiStatus e path) = true ↔
      (∃ plist, e.Processes = some plist) ∧
      ∃ rd, getAgiStatus.reader e path (getAgiStatus.steps e) = .ok rd) ∧
    (∀ st, getAgiStatus e path = .ok st → st.Ingest.DownloaderCompletePct = 100) ∧
    (isSnapshot (getAgiStatus e path) = true → downloadPct (getAgiStatus e path) = some 100) := by
  have hall : ∀ st, getAgiStatus e path = .ok st → st.Ingest.DownloaderCompletePct = 100 := by
    intro st hst
    rw [getAgiStatus_eq] at hst
    cases hp : e.Processes with
    | none => rw [hp] at hst; cases hst
    | some plist =>
      rw [hp] at hst
      cases hr : getAgiStatus.reader e path (getAgiStatus.steps e) with
      | error err => rw [hr] at hst; cases hst
      | ok rd =>
        rw [hr] at hst
        simp only [Except.ok.injEq] at hst
        rw [← hst, stage_unpack e _ _ rd hd hu]
  refine ⟨isSnapshot_iff e path, hall, ?_⟩
  intro hs
  cases hres : getAgiStatus e path with
  | error err => rw [hres] at hs; simp [isSnapshot] at hs
  | ok st => simp [downloadPct, hall st hres]

/-- Witness for C11 (amended): a plain `unpacker.json` whose content decodes to nothing. -/
theorem getAgiStatus_unpack_stage_pct_witness :
    isSnapshot (getAgiStatus (stageEnv stepsDownloaded
      [(gs "/opt/agi/ingest/unpacker.json", gs "%%% not json")] [] (fun _ => none)
      ⟨[]⟩ ⟨[]⟩ ⟨[]⟩) (gs "/opt/agi/ingest/")) = true ∧
    downloadPct (getAgiStatus (stageEnv stepsDownloaded
      [(gs "/opt/agi/ingest/unpacker.json", gs "%%% not json")] [] (fun _ => none)
      ⟨[]⟩ ⟨[]⟩ ⟨[]⟩) (gs "/opt/agi/ingest/")) = some 100 :=
  have h := getAgiStatus_unpack_stage_pct (stageEnv stepsDownloaded
      [(gs "/opt/agi/ingest/unpacker.json", gs "%%% not json")] [] (fun _ => none)
      ⟨[]⟩ ⟨[]⟩ ⟨[]⟩) (gs "/opt/agi/ingest/") (by decide) (by decide)
  ⟨by decide, h.2.2 (by decide)⟩

/-! ## Status aggregator: log-processing stage -/

theorem logStep_fold (files : List (GoString × LogFile)) (acc : LogAcc)
    (ht : wrapInt64 acc.totalSize = acc.totalSize) (hd : wrapInt64 acc.dlSize = acc.dlSize) :
    (files.foldl getAgiStatus.logStep acc).totalSize =
      wrapInt64 (acc.totalSize + (files.map (fun entry => entry.2.Size)).sum) ∧
    (files.foldl getAgiStatus.logStep acc).dlSize =
      wrapInt64 (acc.dlSize + (files.map processedBytes).sum) := by
  induction files generalizing acc with
  | nil => simp [ht, hd]
  | cons x xs ih =>
    have hstep_t : (getAgiStatus.logStep acc x).totalSize = wrapInt64 (acc.totalSize + x.2.Size) := by
      simp [getAgiStatus.logStep, add64]
    have hstep_d : (getAgiStatus.logStep acc x).dlSize =
        wrapInt64 (acc.dlSize + processedBytes x) := by
      unfold getAgiStatus.logStep processedBytes
      by_cases hf : x.2.Finished = true <;> simp [add64, hf]
    have h := ih (getAgiStatus.logStep acc x)
      (by rw [hstep_t]; exact wrapInt64_idem _) (by rw [hstep_d]; exact wrapInt64_idem _)
    rw [List.foldl_cons, h.1, h.2, hstep_t, hstep_d]
    simp only [List.map_cons, List.sum_cons]
    rw [wrapInt64_add_left, wrapInt64_add_left, add_assoc, add_assoc]
    exact ⟨rfl, rfl⟩

theorem stage_logs (e : StatusEnv) (steps : IngestSteps) (status : IngestStatusStruct)
    (rd : GoString) (hpp : steps.PreProcess = true)
    (h1 : (steps.Init && !steps.Download) = false) (h2 : (steps.Download && !steps.Unpack) = false)
    (h0 : status.Ingest.LogProcessorCompletePct = 0) :
    (getAgiStatus.stage e steps status rd).Ingest.DownloaderCompletePct = 100 ∧
    (getAgiStatus.stage e steps status rd).Ingest.LogProcessorTotalSize =
      wrapInt64 (logTotal (e.decodeLogProcessor rd)) ∧
    (getAgiStatus.stage e steps status rd).Ingest.LogProcessorCompleteSize =
      wrapInt64 (logDone (e.decodeLogProcessor rd)) ∧
    (getAgiStatus.stage e steps status rd).Ingest.LogProcessorCompletePct =
      (if wrapInt64 (logTotal (e.decodeLogProcessor rd)) > 0
       then div64 (mul64 100 (wrapInt64 (logDone (e.decodeLogProcessor rd))))
         (wrapInt64 (logTotal (e.decodeLogProcessor rd)))
       else 0) := by
  have z : wrapInt64 0 = 0 := by decide
  obtain ⟨ft, fd⟩ := logStep_fold (e.decodeLogProcessor rd).Files
    { totalSize := 0, dlSize := 0 } z z
  simp only [zero_add] at ft fd
  unfold getAgiStatus.stage
  simp only [h1, h2, hpp, Bool.not_true, Bool.and_false, if_true]
  simp only [Bool.false_eq_true, if_false]
  unfold logTotal logDone
  rw [ft, fd]
  split
  · exact ⟨rfl, rfl, rfl, rfl⟩
  · exact ⟨rfl, rfl, rfl, h0⟩

/-- Counterexample for C12 as stated. First input: pre-process done, one finished file of 10^17
bytes: total and processed are 10^17 but the percentage is -84, not 100, because 100 * processed
leaves the signed 64-bit range. Second input: a steps marker with pre-process done but download
not done: the download branch runs, the download percentage is not 100 and the log counters
stay 0 although the log progress holds 200 bytes. -/
theorem getAgiStatus_logs_counterexample :
    (getAgiStatus.steps (stageEnv stepsPreProcessed
      [(gs "/opt/agi/ingest/log-processor.json", gs "progress")] [] (fun _ => none)
      ⟨[]⟩ ⟨[]⟩ logProgressHuge)).PreProcess = true ∧
    logCounters (getAgiStatus (stageEnv stepsPreProcessed
      [(gs "/opt/agi/ingest/log-processor.json", gs "progress")] [] (fun _ => none)
      ⟨[]⟩ ⟨[]⟩ logProgressHuge) (gs "/opt/agi/ingest/")) =
        some (100000000000000000, 100000000000000000, -84, 100) ∧
    (100 * 100000000000000000 / 100000000000000000 : Int) = 100 ∧
    (getAgiStatus.steps (stageEnv stepsOutOfOrder
      [(gs "/opt/agi/ingest/log-processor.json", gs "progress")] [] (fun _ => none)
      ⟨[]⟩ ⟨[]⟩ logProgress200)).PreProcess = true ∧
    logTotal logProgress200 = 200 ∧
    logCounters (getAgiStatus (stageEnv stepsOutOfOrder
      [(gs "/opt/agi/ingest/log-processor.json", gs "progress")] [] (fun _ => none)
      ⟨[]⟩ ⟨[]⟩ logProgress200) (gs "/opt/agi/ingest/")) = some (0, 0, 0, 0) := by
  decide

/-- C12 (amended): when the log-processing branch runs (pre-process done, and neither "init
done, download not done" nor "download done, unpack not done" holds, as in every marker whose
steps complete in order) and the process list and the progress file can be read, `getAgiStatus`
returns a snapshot with download percentage 100, total = the sum of the file sizes and
processed = the sum over the files of the size when finished and else of the processed byte
count, both computed in signed 64-bit arithmetic, and percentage = the truncated 64-bit
quotient of 100 times processed by total when total is positive and 0 otherwise. Whenever the
exact sums are non-negative, the total is below 2^63 and 100 times the processed sum is below
2^63, these are the exact sums and the exact integer quotient. -/
theorem getAgiStatus_logs_stage (e : StatusEnv) (path : GoString) (plist : List Process)
    (rd : GoString) (hp : e.Processes = some plist)
    (hpp : (getAgiStatus.steps e).PreProcess = true)
    (h1 : ((getAgiStatus.steps e).Init && !(getAgiStatus.steps e).Download) = false)
    (h2 : ((getAgiStatus.steps e).Download && !(getAgiStatus.steps e).Unpack) = false)
    (hr : getAgiStatus.reader e path (getAgiStatus.steps e) = .ok rd) :
    ∃ st : IngestStatusStruct, getAgiStatus e path = .ok st ∧
      st.Ingest.DownloaderCompletePct = 100 ∧
      st.Ingest.LogProcessorTotalSize = wrapInt64 (logTotal (e.decodeLogProcessor rd)) ∧
      st.Ingest.LogProcessorCompleteSize = wrapInt64 (logDone (e.decodeLogProcessor rd)) ∧
      st.Ingest.LogProcessorCompletePct =
        (if st.Ingest.LogProcessorTotalSize > 0
         then div64 (mul64 100 st.Ingest.LogProcessorCompleteSize) st.Ingest.LogProcessorTotalSize
         else 0) ∧
      (0 ≤ logDone (e.decodeLogProcessor rd) →
        0 ≤ logTotal (e.decodeLogProcessor rd) →
        logTotal (e.decodeLogProcessor rd) < 2 ^ 63 →
        100 * logDone (e.decodeLogProcessor rd) < 2 ^ 63 →
        st.Ingest.LogProcessorTotalSize = logTotal (e.decodeLogProcessor rd) ∧
        st.Ingest.LogProcessorCompleteSize = logDone (e.decodeLogProcessor rd) ∧
        st.Ingest.LogProcessorCompletePct =
          (if logTotal (e.decodeLogProcessor rd) > 0
           then 100 * logDone (e.decodeLogProcessor rd) / logTotal (e.decodeLogProcessor rd)
           else 0)) := by
  obtain ⟨s1, s2, s3, s4⟩ := stage_logs e (getAgiStatus.steps e) (statusBeforeStage e plist) rd
    hpp h1 h2 rfl
  refine ⟨_, getAgiStatus_ok_of e path plist rd hp hr, s1, s2, s3, ?_, ?_⟩
  · rw [s4, s2, s3]
  · intro hD hT hT2 hD2
    have eT : wrapInt64 (logTotal (e.decodeLogProcessor rd)) = logTotal (e.decodeLogProcessor rd) :=
      wrapInt64_of_range (by omega) hT2
    have eD : wrapInt64 (logDone (e.decodeLogProcessor rd)) = logDone (e.decodeLogProcessor rd) :=
      wrapInt64_of_range (by omega) (by omega)
    rw [s4, s2, s3, eT, eD]
    refine ⟨rfl, rfl, ?_⟩
    by_cases hpos : logTotal (e.decodeLogProcessor rd) > 0
    · simp only [hpos, if_true]
      unfold div64 mul64
      have hm : 0 ≤ 100 * logDone (e.decodeLogProcessor rd) := by omega
      rw [wrapInt64_of_range (by omega) hD2, Int.tdiv_eq_ediv hm hT]
      have hq0 : 0 ≤ 100 * logDone (e.decodeLogProcessor rd) / logTotal (e.decodeLogProcessor rd) :=
        Int.ediv_nonneg hm hT
      have hq1 : 100 * logDone (e.decodeLogProcessor rd) / logTotal (e.decodeLogProcessor rd) ≤
          100 * logDone (e.decodeLogProcessor rd) := Int.ediv_le_self _ hm
      exact wrapInt64_of_range (by omega) (by omega)
    · simp only [hpos, if_false]

/-- Witness for C12 (amended): total 200, processed 50, percentage 25, download percentage
100. -/
theorem getAgiStatus_logs_stage_witness :
    logTotal logProgress200 = 200 ∧ logDone logProgress200 = 50 ∧
    logCounters (getAgiStatus (stageEnv stepsPreProcessed
      [(gs "/opt/agi/ingest/log-processor.json", gs "progress")] [] (fun _ => none)
      ⟨[]⟩ ⟨[]⟩ logProgress200) (gs "/opt/agi/ingest/")) = some (200, 50, 25, 100) :=
  have h := getAgiStatus_logs_stage (stageEnv stepsPreProcessed
      [(gs "/opt/agi/ingest/log-processor.json", gs "progress")] [] (fun _ => none)
      ⟨[]⟩ ⟨[]⟩ logProgress200) (gs "/opt/agi/ingest/") [] (gs "progress")
      rfl (by decide) (by decide) (by decide) rfl
  ⟨by decide, by decide, by
    obtain ⟨st, hst, h1, _, _, _, hex⟩ := h
    have hx := hex (by decide) (by decide) (by decide) (by decide)
    rw [hst]
    simp only [logCounters, hx.1, hx.2.1, hx.2.2, h1]
    decide⟩

/-! ## Status aggregator: error lists -/

theorem fileErrors_inner (name : GoString) (errs : List GoString) (acc : List GoString) :
    errs.foldl (fun acc nerr => acc ++ [name ++ gs "::" ++ nerr]) acc =
      acc ++ errs.map (fun nerr => name ++ gs "::" ++ nerr) := by
  induction errs generalizing acc with
  | nil => simp
  | cons x xs ih =>
    rw [List.foldl_cons, ih, List.map_cons, List.append_assoc]
    rfl

theorem fileErrors_eq (errors : List GoString) (files : List (GoString × ErrorsFile)) :
    getAgiStatus.fileErrors errors files = errors ++ expectedErrors files := by
  unfold getAgiStatus.fileErrors expectedErrors
  induction files generalizing errors with
  | nil => simp
  | cons f fs ih =>
    rw [List.foldl_cons, ih, fileErrors_inner]
    simp [List.flatMap_cons, List.append_assoc]

/-- C13: in the unpack stage (download done, unpack not done) and in the pre-process stage
(unpack done, pre-process not done, the download branch not taken) every snapshot
`getAgiStatus` returns has as error list exactly the lines `name::error`, one for every error
string of every file of the decoded progress structure, in loop order (so the same multiset:
nothing missing, nothing extra, duplicates kept), and download percentage 100. -/
theorem getAgiStatus_stage_errors (e : StatusEnv) (path : GoString) (plist : List Process)
    (rd : GoString) (hp : e.Processes = some plist)
    (hr : getAgiStatus.reader e path (getAgiStatus.steps e) = .ok rd) :
    ((getAgiStatus.steps e).Download = true → (getAgiStatus.steps e).Unpack = false →
      ∃ st, getAgiStatus e path = .ok st ∧
        st.Ingest.Errors = expectedErrors (e.decodeUnpacker rd).Files ∧
        (∀ line, st.Ingest.Errors.count line =
          (expectedErrors (e.decodeUnpacker rd).Files).count line) ∧
        st.Ingest.DownloaderCompletePct = 100) ∧
    ((getAgiStatus.steps e).Unpack = true → (getAgiStatus.steps e).PreProcess = false →
      ((getAgiStatus.steps e).Init && !(getAgiStatus.steps e).Download) = false →
      ∃ st, getAgiStatus e path = .ok st ∧
        st.Ingest.Errors = expectedErrors (e.decodePreProcessor rd).Files ∧
        (∀ line, st.Ingest.Errors.count line =
          (expectedErrors (e.decodePreProcessor rd).Files).count line) ∧
        st.Ingest.DownloaderCompletePct = 100) := by
  have hok := getAgiStatus_ok_of e path plist rd hp hr
  constructor
  · intro hd hu
    rw [stage_unpack e _ _ rd hd hu] at hok
    refine ⟨_, hok, ?_, ?_, rfl⟩
    · simp [fileErrors_eq, statusBeforeStage, IngestStatusStruct.zero]
    · intro line
      simp [fileErrors_eq, statusBeforeStage, IngestStatusStruct.zero]
  · intro hu hpp hnd
    rw [stage_preprocess e _ _ rd hu hpp hnd] at hok
    refine ⟨_, hok, ?_, ?_, rfl⟩
    · simp [fileErrors_eq, statusBeforeStage, IngestStatusStruct.zero]
    · intro line
      simp [fileErrors_eq, statusBeforeStage, IngestStatusStruct.zero]

/-- Witness for C13: the unpack stage with two files and three error strings (one twice), the
pre-process stage with one. -/
theorem getAgiStatus_stage_errors_witness :
    errorsAndPct (getAgiStatus (stageEnv stepsDownloaded
      [(gs "/opt/agi/ingest/unpacker.json", gs "progress")] [] (fun _ => none)
      unpackProgress ⟨[]⟩ ⟨[]⟩) (gs "/opt/agi/ingest/")) =
      some ([gs "a.tgz::bad header", gs "a.tgz::bad header", gs "b.zip::truncated"], 100) ∧
    errorsAndPct (getAgiStatus (stageEnv stepsUnpacked
      [(gs "/opt/agi/ingest/pre-processor.json", gs "progress")] [] (fun _ => none)
      ⟨[]⟩ preProcessProgress ⟨[]⟩) (gs "/opt/agi/ingest/")) =
      some ([gs "node1.log::unknown format"], 100) :=
  have h1 := (getAgiStatus_stage_errors (stageEnv stepsDownloaded
      [(gs "/opt/agi/ingest/unpacker.json", gs "progress")] [] (fun _ => none)
      unpackProgress ⟨[]⟩ ⟨[]⟩) (gs "/opt/agi/ingest/") [] (gs "progress") rfl rfl).1
      (by decide) (by decide)
  have h2 := (getAgiStatus_stage_errors (stageEnv stepsUnpacked
      [(gs "/opt/agi/ingest/pre-processor.json", gs "progress")] [] (fun _ => none)
      ⟨[]⟩ preProcessProgress ⟨[]⟩) (gs "/opt/agi/ingest/") [] (gs "progress") rfl rfl).2
      (by decide) (by decide) (by decide)
  ⟨by
    obtain ⟨st, hst, he, _, hpct⟩ := h1
    rw [hst]
    simp only [errorsAndPct, he, hpct]
    decide, by
    obtain ⟨st, hst, he, _, hpct⟩ := h2
    rw [hst]
    simp only [errorsAndPct, he, hpct]
    decide⟩

/-! ## Status aggregator: failures -/

theorem download_frame (e : StatusEnv) (status : IngestStatusStruct) (rd : GoString) :
    (getAgiStatus.download e status rd).AerospikeRunning = status.AerospikeRunning ∧
    (getAgiStatus.download e status rd).PluginRunning = status.PluginRunning ∧
    (getAgiStatus.download e status rd).GrafanaHelperRunning = status.GrafanaHelperRunning ∧
    (getAgiStatus.download e status rd).Ingest.Running = status.Ingest.Running ∧
    (getAgiStatus.download e status rd).Ingest.CompleteSteps = status.Ingest.CompleteSteps := by
  unfold getAgiStatus.download
  simp only []
  split <;> simp

theorem stage_frame (e : StatusEnv) (steps : IngestSteps) (status : IngestStatusStruct)
    (rd : GoString) :
    (getAgiStatus.stage e steps status rd).AerospikeRunning = status.AerospikeRunning ∧
    (getAgiStatus.stage e steps status rd).PluginRunning = status.PluginRunning ∧
    (getAgiStatus.stage e steps status rd).GrafanaHelperRunning = status.GrafanaHelperRunning ∧
    (getAgiStatus.stage e steps status rd).Ingest.Running = status.Ingest.Running ∧
    (getAgiStatus.stage e steps status rd).Ingest.CompleteSteps = status.Ingest.CompleteSteps := by
  unfold getAgiStatus.stage
  split
  · exact download_frame e status rd
  · split
    · exact ⟨rfl, rfl, rfl, rfl, rfl⟩
    · split
      · exact ⟨rfl, rfl, rfl, rfl, rfl⟩
      · split
        · simp only []
          split <;> simp
        · exact ⟨rfl, rfl, rfl, rfl, rfl⟩

theorem getAgiStatus_flags (e : StatusEnv) (path : GoString) (st : IngestStatusStruct)
    (h : getAgiStatus e path = .ok st) :
    ∃ plist, e.Processes = some plist ∧
      st.AerospikeRunning = plist.any (fun p => HasSuffix p.Executable (gs "asd")) ∧
      st.Ingest.Running = getAgiStatus.pidRunning e (gs "/opt/agi/ingest.pid") ∧
      st.PluginRunning = getAgiStatus.pidRunning e (gs "/opt/agi/plugin.pid") ∧
      st.GrafanaHelperRunning = getAgiStatus.pidRunning e (gs "/opt/agi/grafanafix.pid") ∧
      st.Ingest.CompleteSteps = getAgiStatus.steps e := by
  rw [getAgiStatus_eq] at h
  cases hp : e.Processes with
  | none => rw [hp] at h; cases h
  | some plist =>
    rw [hp] at h
    cases hr : getAgiStatus.reader e path (getAgiStatus.steps e) with
    | error err => rw [hr] at h; cases h
    | ok rd =>
      rw [hr] at h
      simp only [Except.ok.injEq] at h
      obtain ⟨f1, f2, f3, f4, f5⟩ :=
        stage_frame e (getAgiStatus.steps e) (statusBeforeStage e plist) rd
      rw [h] at f1 f2 f3 f4 f5
      exact ⟨plist, rfl, f1, f4, f2, f3, f5⟩

theorem reader_error_iff (e : StatusEnv) (path : GoString) (steps : IngestSteps) :
    (∃ err, getAgiStatus.reader e path steps = .error err) ↔
      ((e.Stat (e.pathJoin path (getAgiStatus.fname steps))).isSome = true ∧
        e.Open (e.pathJoin path (getAgiStatus.fname steps)) = none) ∨
      (e.Stat (e.pathJoin path (getAgiStatus.fname steps)) = none ∧
        (e.Stat (e.pathJoin path (getAgiStatus.fname steps) ++ gs ".gz")).isSome = true ∧
        (e.Open (e.pathJoin path (getAgiStatus.fname steps) ++ gs ".gz") = none ∨
          ∃ fa, e.Open (e.pathJoin path (getAgiStatus.fname steps) ++ gs ".gz") = some fa ∧
            e.gzipNewReader fa = none)) := by
  unfold getAgiStatus.reader
  simp only []
  cases h1 : e.Stat (e.pathJoin path (getAgiStatus.fname steps)) with
  | some info =>
    cases h2 : e.Open (e.pathJoin path (getAgiStatus.fname steps)) with
    | none => simp
    | some fa => simp
  | none =>
    cases h3 : e.Stat (e.pathJoin path (getAgiStatus.fname steps) ++ gs ".gz") with
    | none => simp
    | some info =>
      cases h4 : e.Open (e.pathJoin path (getAgiStatus.fname steps) ++ gs ".gz") with
      | none => simp
      | some fa =>
        cases h5 : e.gzipNewReader fa with
        | none => simp [h5]
        | some fx => simp [h5]

theorem reader_missing (e : StatusEnv) (path : GoString) (steps : IngestSteps)
    (h1 : e.Stat (e.pathJoin path (getAgiStatus.fname steps)) = none)
    (h2 : e.Stat (e.pathJoin path (getAgiStatus.fname steps) ++ gs ".gz") = none) :
    getAgiStatus.reader e path steps = .ok (gs "{}") := by
  unfold getAgiStatus.reader
  simp only [h1, h2]

theorem stage_empty (e : StatusEnv) (steps : IngestSteps) (plist : List Process) (rd : GoString)
    (hd : e.decodeDownloader rd = ⟨[], []⟩) (hu : e.decodeUnpacker rd = ⟨[]⟩)
    (hp : e.decodePreProcessor rd = ⟨[]⟩) (hl : e.decodeLogProcessor rd = ⟨[]⟩) :
    (getAgiStatus.stage e steps (statusBeforeStage e plist) rd).Ingest.Errors = [] ∧
    (getAgiStatus.stage e steps (statusBeforeStage e plist) rd).Ingest.DownloaderTotalSize = 0 ∧
    (getAgiStatus.stage e steps (statusBeforeStage e plist) rd).Ingest.DownloaderCompleteSize = 0 ∧
    (getAgiStatus.stage e steps (statusBeforeStage e plist) rd).Ingest.LogProcessorTotalSize = 0 ∧
    (getAgiStatus.stage e steps (statusBeforeStage e plist) rd).Ingest.LogProcessorCompleteSize = 0 ∧
    (getAgiStatus.stage e steps (statusBeforeStage e plist) rd).Ingest.LogProcessorCompletePct = 0 := by
  unfold getAgiStatus.stage getAgiStatus.download getAgiStatus.fileErrors
  simp only [hd, hu, hp, hl, List.foldl_nil]
  split
  · simp [statusBeforeStage, IngestStatusStruct.zero]
  · split
    · simp [statusBeforeStage, IngestStatusStruct.zero]
    · split
      · simp [statusBeforeStage, IngestStatusStruct.zero]
      · split
        · simp [statusBeforeStage, IngestStatusStruct.zero]
        · simp [statusBeforeStage, IngestStatusStruct.zero]

/-- Counterexample for C14 as stated: the progress file of the active stage exists but cannot
be opened (unreadable): `getAgiStatus` returns the open error and no snapshot. -/
theorem getAgiStatus_unreadable_counterexample :
    ({ stageEnv stepsDownloaded [(gs "/opt/agi/ingest/unpacker.json", gs "progress")] []
        (fun _ => none) ⟨[]⟩ ⟨[]⟩ ⟨[]⟩ with Open := fun _ => none } : StatusEnv).Stat
      (gs "/opt/agi/ingest/unpacker.json") = some ⟨8⟩ ∧
    isSnapshot (getAgiStatus
      { stageEnv stepsDownloaded [(gs "/opt/agi/ingest/unpacker.json", gs "progress")] []
          (fun _ => none) ⟨[]⟩ ⟨[]⟩ ⟨[]⟩ with Open := fun _ => none }
      (gs "/opt/agi/ingest/")) = false := by
  decide

/-- C14 (amended): `getAgiStatus` returns a snapshot rather than an error exactly when the
process list can be read and the progress file of the active stage is absent in both forms or
can be opened (with a gzip header for the `.gz` form); an existing progress file that cannot be
opened, or a `.gz` file without a gzip header, makes it return an error. A missing steps marker,
a missing progress file, content that decodes to nothing, and a missing or non-numeric PID file
never abort it: the steps are the zero value, the reader is `{}`, the stage counters and the
error list are zero, the running flag is false. -/
theorem getAgiStatus_degrades (e : StatusEnv) (path : GoString) :
    (isSnapshot (getAgiStatus e path) = true ↔
      (∃ plist, e.Processes = some plist) ∧
      ¬ (((e.Stat (e.pathJoin path (getAgiStatus.fname (getAgiStatus.steps e)))).isSome = true ∧
          e.Open (e.pathJoin path (getAgiStatus.fname (getAgiStatus.steps e))) = none) ∨
        (e.Stat (e.pathJoin path (getAgiStatus.fname (getAgiStatus.steps e))) = none ∧
          (e.Stat (e.pathJoin path (getAgiStatus.fname (getAgiStatus.steps e)) ++ gs ".gz")).isSome
            = true ∧
          (e.Open (e.pathJoin path (getAgiStatus.fname (getAgiStatus.steps e)) ++ gs ".gz") = none ∨
            ∃ fa, e.Open (e.pathJoin path (getAgiStatus.fname (getAgiStatus.steps e)) ++ gs ".gz")
                = some fa ∧ e.gzipNewReader fa = none)))) ∧
    (e.ReadFile (gs "/opt/agi/ingest/steps.json") = none →
      getAgiStatus.steps e = IngestSteps.zero) ∧
    (e.Stat (e.pathJoin path (getAgiStatus.fname (getAgiStatus.steps e))) = none →
      e.Stat (e.pathJoin path (getAgiStatus.fname (getAgiStatus.steps e)) ++ gs ".gz") = none →
      getAgiStatus.reader e path (getAgiStatus.steps e) = .ok (gs "{}")) ∧
    (∀ st, getAgiStatus e path = .ok st →
      st.Ingest.CompleteSteps = getAgiStatus.steps e ∧
      st.Ingest.Running = getAgiStatus.pidRunning e (gs "/opt/agi/ingest.pid") ∧
      st.PluginRunning = getAgiStatus.pidRunning e (gs "/opt/agi/plugin.pid") ∧
      st.GrafanaHelperRunning = getAgiStatus.pidRunning e (gs "/opt/agi/grafanafix.pid")) ∧
    (∀ pidFile, e.ReadFile pidFile = none ∨
        (∃ pidf, e.ReadFile pidFile = some pidf ∧ e.Atoi pidf = none) →
      getAgiStatus.pidRunning e pidFile = false) ∧
    (∀ st rd, getAgiStatus e path = .ok st →
      getAgiStatus.reader e path (getAgiStatus.steps e) = .ok rd →
      e.decodeDownloader rd = ⟨[], []⟩ → e.decodeUnpacker rd = ⟨[]⟩ →
      e.decodePreProcessor rd = ⟨[]⟩ → e.decodeLogProcessor rd = ⟨[]⟩ →
      st.Ingest.Errors = [] ∧ st.Ingest.DownloaderTotalSize = 0 ∧
      st.Ingest.DownloaderCompleteSize = 0 ∧ st.Ingest.LogProcessorTotalSize = 0 ∧
      st.Ingest.LogProcessorCompleteSize = 0 ∧ st.Ingest.LogProcessorCompletePct = 0) := by
  refine ⟨?_, ?_, ?_, ?_, ?_, ?_⟩
  · rw [isSnapshot_iff, ← reader_error_iff]
    constructor
    · rintro ⟨hp, rd, hrd⟩
      refine ⟨hp, ?_⟩
      rintro ⟨err, herr⟩
      rw [hrd] at herr
      cases herr
    · rintro ⟨hp, hne⟩
      refine ⟨hp, ?_⟩
      cases hr : getAgiStatus.reader e path (getAgiStatus.steps e) with
      | error err => exact absurd ⟨err, hr⟩ hne
      | ok rd => exact ⟨rd, rfl⟩
  · intro h
    unfold getAgiStatus.steps
    rw [h]
  · exact reader_missing e path _
  · intro st hst
    obtain ⟨plist, _, _, f2, f3, f4, f5⟩ := getAgiStatus_flags e path st hst
    exact ⟨f5, f2, f3, f4⟩
  · intro pidFile h
    unfold getAgiStatus.pidRunning
    rcases h with h | ⟨pidf, h1, h2⟩
    · rw [h]
    · rw [h1]
      simp only [h2]
  · intro st rd hst hrd hd hu hp hl
    rw [getAgiStatus_eq] at hst
    cases hpl : e.Processes with
    | none => rw [hpl] at hst; cases hst
    | some plist =>
      rw [hpl] at hst
      simp only [hrd, Except.ok.injEq] at hst
      rw [← hst]
      exact stage_empty e _ plist rd hd hu hp hl

/-! ## Status aggregator: PID files -/

theorem pidRunning_unix (e : StatusEnv) (pidFile : GoString)
    (hf : e.FindProcess = unixFindProcess) :
    getAgiStatus.pidRunning e pidFile = true ↔
      ∃ pidf pid, e.ReadFile pidFile = some pidf ∧ e.Atoi pidf = some pid := by
  unfold getAgiStatus.pidRunning
  cases h1 : e.ReadFile pidFile with
  | none => simp
  | some pidf =>
    cases h2 : e.Atoi pidf with
    | none => simp [h2]
    | some pid => simp [h2, hf, unixFindProcess]

/-- C15 (code evaluated at the failing input): the PID file of the pipeline records PID 4242,
the process list holds only PID 1, so no live process has that PID; `os.FindProcess` succeeds
all the same, as it always does on Unix, and the snapshot reports the pipeline as running. -/
theorem getAgiStatus_stale_pid_running :
    strconvAtoi (gs "4242") = some 4242 ∧
    isLive [{ Pid := 1, PPid := 0, Executable := gs "systemd" }] 4242 = false ∧
    runningFlags (getAgiStatus
      (stageEnv IngestSteps.zero [(gs "/opt/agi/ingest.pid", gs "4242")]
        [{ Pid := 1, PPid := 0, Executable := gs "systemd" }] (fun _ => none) ⟨[]⟩ ⟨[]⟩ ⟨[]⟩)
      (gs "/opt/agi/ingest/")) = some (true, false, false) := by
  decide

/-! ## Ingest-detail handler -/

theorem afterBasic_ok_w (c : agiExecProxyCmd) (now : Time) (w : ResponseWriter) (r : Request)
    (h : (checkAuth.afterBasic c now w r).ok = true) : (checkAuth.afterBasic c now w r).w = w := by
  cases ht : c.isTokenAuth with
  | false => rw [afterBasic_notoken c now w r ht]
  | true =>
    by_cases hq : Request.FormValue r c.TokenName = []
    · rw [afterBasic_token_cookie c now w r ht hq] at h ⊢
      split
      · rfl
      · rename_i hc
        simp only [hc, if_false] at h
        cases h
    · rw [afterBasic_token_query c now w r ht hq] at h
      cases h

theorem checkAuth_ok_w (c : agiExecProxyCmd) (now : Time) (w : ResponseWriter) (r : Request)
    (h : (checkAuth c now w r).ok = true) : (checkAuth c now w r).w = withSTS w := by
  rcases checkAuth_cases c now w r with hc | hc
  · rw [hc] at h ⊢
    exact afterBasic_ok_w c now _ r h
  · rw [hc] at h
    cases h

theorem serve_status (e : StatusEnv) (w : ResponseWriter) (npath : GoString) (gz : Bool)
    (hw : w.status = none) :
    (handleIngestDetail.serve e w npath gz).status = some 500 ∨
    (handleIngestDetail.serve e w npath gz).status = some 200 := by
  unfold handleIngestDetail.serve
  cases e.Open npath with
  | none => exact Or.inl (Error_status_fresh _ _ _ hw)
  | some f =>
    simp only []
    cases gz with
    | false =>
      right
      exact Write_status_written _ _ (WriteHeader_status_fresh _ _ hw)
    | true =>
      cases e.gzipNewReader f with
      | none => exact Or.inl (Error_status_fresh _ _ _ hw)
      | some fx =>
        right
        exact Write_status_written _ _ (WriteHeader_status_fresh _ _ hw)

theorem serve_not_400 (e : StatusEnv) (w : ResponseWriter) (hw : w.status = none)
    (npath : GoString) (gz : Bool) :
    ¬ (handleIngestDetail.serve e w npath gz).status = some 400 := by
  rcases serve_status e w npath gz hw with h | h <;> simp [h]

/-- C16: for every request that passes `checkAuth` (on a response not yet started), the
ingest-detail handler answers 400 if and only if the `detail` value is not one of the six
allow-listed names; for an allow-listed name it answers 404 whenever neither the file at the
resolved path nor that path with `.gz` exists; `detail=unknown.json` gives 400. -/
theorem handleIngestDetail_status (c : agiExecProxyCmd) (e : StatusEnv) (now : Time)
    (w : ResponseWriter) (r : Request) (hauth : (checkAuth c now w r).ok = true)
    (hw : w.status = none) :
    ((handleIngestDetail c e now w r).w.status = some 400 ↔
      HasString handleIngestDetail.files (Request.FormValue r (gs "detail")) = false) ∧
    (HasString handleIngestDetail.files (Request.FormValue r (gs "detail")) = true →
      e.Stat (detailPath c e (Request.FormValue r (gs "detail"))) = none →
      e.Stat (detailPath c e (Request.FormValue r (gs "detail")) ++ gs ".gz") = none →
      (handleIngestDetail c e now w r).w.status = some 404) ∧
    (Request.FormValue r (gs "detail") = gs "unknown.json" →
      (handleIngestDetail c e now w r).w.status = some 400) := by
  have hw1 : (checkAuth c now w r).w.status = none := by
    rw [checkAuth_ok_w c now w r hauth]
    exact hw
  have key : (handleIngestDetail c e now w r).w.status = some 400 ↔
      HasString handleIngestDetail.files (Request.FormValue r (gs "detail")) = false := by
    unfold handleIngestDetail
    simp only [hauth, Bool.not_true, Bool.false_eq_true, if_false]
    cases hin : HasString handleIngestDetail.files (Request.FormValue r (gs "detail")) with
    | false =>
      simp only [Bool.not_false, if_true]
      simp [Error_status_fresh _ _ _ hw1, StatusBadRequest]
    | true =>
      simp only [Bool.not_true, Bool.false_eq_true, if_false]
      have h400 := serve_not_400 e (checkAuth c now w r).w hw1
      split
      · simp [h400]
      · split
        · simp [Error_status_fresh _ _ _ hw1, StatusNotFound]
        · simp [h400]
  refine ⟨key, ?_, ?_⟩
  · intro hin h1 h2
    unfold handleIngestDetail
    unfold detailPath at h1 h2
    simp only [hauth, hin, Bool.not_true, Bool.false_eq_true, if_false]
    by_cases hs : Request.FormValue r (gs "detail") = gs "steps.json"
    · simp only [hs, if_true] at h1 h2 ⊢
      simp only [h1, h2]
      exact Error_status_fresh _ _ _ hw1
    · simp only [hs, if_false] at h1 h2 ⊢
      simp only [h1, h2]
      exact Error_status_fresh _ _ _ hw1
  · intro hu
    rw [key, hu]
    decide

/-- Witness for C16: `detail=unknown.json` gives 400, `detail=downloader.json` without any
file gives 404. -/
theorem handleIngestDetail_status_witness :
    (handleIngestDetail noneCmd emptyEnv 5 ResponseWriter.fresh
      (detailRequest (gs "unknown.json"))).w.status = some 400 ∧
    (handleIngestDetail noneCmd emptyEnv 5 ResponseWriter.fresh
      (detailRequest (gs "downloader.json"))).w.status = some 404 :=
  ⟨(handleIngestDetail_status noneCmd emptyEnv 5 ResponseWriter.fresh
      (detailRequest (gs "unknown.json")) (by decide) rfl).2.2 (by decide),
   (handleIngestDetail_status noneCmd emptyEnv 5 ResponseWriter.fresh
      (detailRequest (gs "downloader.json")) (by decide) rfl).2.1
      (by decide) (by decide) (by decide)⟩

/-! ## Shutdown Flag -/

theorem notifyBoth_no_clear (c : agiExecProxyCmd) (stat : IngestStatusStruct) (ev : AgiEvent)
    (detail : GoString) : (notifyBoth c stat ev detail).any clearsFlag = false := by
  simp [notifyBoth, clearsFlag]

theorem Task_run_no_clear (e : StatusEnv) (c : agiExecProxyCmd) (t : Task) :
    (Task.run e c t).any clearsFlag = false := by
  cases t with
  | notifyStatus ev =>
    unfold Task.run
    cases getAgiStatus e (gs "/opt/agi/ingest/") with
    | error err => rfl
    | ok st => exact notifyBoth_no_clear c st ev []
  | shutdownCommand => simp [Task.run, shutdownAction, clearsFlag]
  | serverShutdown => simp [Task.run, clearsFlag]

theorem activityTick_flag (e : StatusEnv) (tSet tCheck : Time) (c : agiExecProxyCmd) :
    (activityMonitor.tick e tSet tCheck c).trace.any clearsFlag = false ∧
    (c.shuttingDown = true → (activityMonitor.tick e tSet tCheck c).c.shuttingDown = true) ∧
    ((activityMonitor.tick e tSet tCheck c).c.shuttingDown = true ∨
      (activityMonitor.tick e tSet tCheck c).c.shuttingDown = c.shuttingDown) ∧
    (activityMonitor.tick e tSet tCheck c).c.shuttingDown =
      (applyAll c (activityMonitor.tick e tSet tCheck c).trace).shuttingDown := by
  unfold activityMonitor.tick
  simp only []
  split
  · simp [clearsFlag, applyAll, Effect.apply]
  · split
    · simp [clearsFlag, applyAll, Effect.apply]
    · split
      · split <;> simp [clearsFlag, applyAll, Effect.apply, shutdownAction]
      · split <;> simp [clearsFlag, applyAll, Effect.apply, shutdownAction]

theorem serviceTick_flag (e : StatusEnv) (hist : List Bool) (c : agiExecProxyCmd) :
    (serviceMonitor.tick e hist c).2.trace.any clearsFlag = false ∧
    (serviceMonitor.tick e hist c).2.c = c ∧
    (serviceMonitor.tick e hist c).2.c.shuttingDown =
      (applyAll c (serviceMonitor.tick e hist c).2.trace).shuttingDown := by
  unfold serviceMonitor.tick
  simp only []
  split
  · simp [clearsFlag, applyAll, Effect.apply]
  · split
    · simp [clearsFlag, applyAll, Effect.apply]
    · split
      · simp [clearsFlag, applyAll, Effect.apply, notifyBoth]
      · split <;> simp [clearsFlag, applyAll, Effect.apply, notifyBoth]

theorem control_flag (c : agiExecProxyCmd) (now : Time) (w : ResponseWriter) (r : Request) :
    ((handleShutdown c now w r).trace.any clearsFlag = false ∧
      ((handleShutdown c now w r).c.shuttingDown = true ∨
        (handleShutdown c now w r).c.shuttingDown = c.shuttingDown) ∧
      (c.shuttingDown = true → (handleShutdown c now w r).c.shuttingDown = true) ∧
      (handleShutdown c now w r).c.shuttingDown =
        (applyAll c (handleShutdown c now w r).trace).shuttingDown) ∧
    ((handlePoweroff c now w r).trace.any clearsFlag = false ∧
      ((handlePoweroff c now w r).c.shuttingDown = true ∨
        (handlePoweroff c now w r).c.shuttingDown = c.shuttingDown) ∧
      (c.shuttingDown = true → (handlePoweroff c now w r).c.shuttingDown = true) ∧
      (handlePoweroff c now w r).c.shuttingDown =
        (applyAll c (handlePoweroff c now w r).trace).shuttingDown) := by
  unfold handleShutdown handlePoweroff
  cases h : (checkAuth c now w r).ok <;> simp [h, clearsFlag, applyAll, Effect.apply]

theorem spotIteration_flag (spot : Option (GoString × Int)) (e : StatusEnv)
    (c : agiExecProxyCmd) :
    clearsOnlyAfterSleep (2 * Minute) none (spotMonitor.iteration spot e c).trace = true ∧
    (spotMonitor.iteration spot e c).c.shuttingDown =
      (applyAll c (spotMonitor.iteration spot e c).trace).shuttingDown := by
  unfold spotMonitor.iteration
  simp only []
  cases spot with
  | none => simp [clearsOnlyAfterSleep, clearsFlag, applyAll, Effect.apply]
  | some bc =>
    obtain ⟨body, code⟩ := bc
    simp only []
    split
    · simp [clearsOnlyAfterSleep, clearsFlag, applyAll, Effect.apply]
    · cases getAgiStatus e (gs "/opt/agi/ingest/") with
      | error err => simp [clearsOnlyAfterSleep, clearsFlag, applyAll, Effect.apply]
      | ok stat => simp [clearsOnlyAfterSleep, clearsFlag, applyAll, Effect.apply, notifyBoth]

/-- C17: over all operations that run against the command state (a round of the inactivity,
max-uptime, spot-interruption or service monitor, the shutdown and poweroff handlers, a token
reload, a pending goroutine or task), an operation other than a round of the spot-interruption
monitor never clears the Shutdown Flag: none of its effects writes false, a flag that is true
stays true, and the flag ends true or unchanged. In a round of the spot-interruption monitor
every effect that writes false comes directly after the sleep of 2 minutes. The flag an
operation ends with is the one its effects write. -/
theorem shutdown_flag_cleared_only_by_spot (c : agiExecProxyCmd) (op : Operation) :
    (op.isSpot = false →
      (Operation.run c op).trace.any clearsFlag = false ∧
      (c.shuttingDown = true → (Operation.run c op).c.shuttingDown = true) ∧
      ((Operation.run c op).c.shuttingDown = true ∨
        (Operation.run c op).c.shuttingDown = c.shuttingDown)) ∧
    (op.isSpot = true →
      clearsOnlyAfterSleep (2 * Minute) none (Operation.run c op).trace = true) ∧
    (Operation.run c op).c.shuttingDown =
      (applyAll c (Operation.run c op).trace).shuttingDown := by
  cases op with
  | activityTick e tSet tCheck =>
    obtain ⟨h1, h2, h3, h4⟩ := activityTick_flag e tSet tCheck c
    exact ⟨fun _ => ⟨h1, h2, h3⟩, (fun h => by cases h), h4⟩
  | maxUptime =>
    refine ⟨fun _ => ?_, (fun h => by cases h), ?_⟩
    · simp [Operation.run, maxUptime, clearsFlag, shutdownAction]
    · simp [Operation.run, maxUptime, applyAll, Effect.apply, shutdownAction]
  | spotIteration spot e =>
    obtain ⟨h1, h2⟩ := spotIteration_flag spot e c
    exact ⟨(fun h => by cases h), fun _ => h1, h2⟩
  | serviceTick e hist =>
    obtain ⟨h1, h2, h3⟩ := serviceTick_flag e hist c
    refine ⟨fun _ => ⟨h1, ?_, ?_⟩, (fun h => by cases h), h3⟩
    · intro hc
      simp only [Operation.run, h2, hc]
    · right
      simp only [Operation.run, h2]
  | handleShutdown now w r =>
    obtain ⟨⟨h1, h2, h3, h4⟩, _⟩ := control_flag c now w r
    exact ⟨fun _ => ⟨h1, h3, h2⟩, (fun h => by cases h), h4⟩
  | handlePoweroff now w r =>
    obtain ⟨_, ⟨h1, h2, h3, h4⟩⟩ := control_flag c now w r
    exact ⟨fun _ => ⟨h1, h3, h2⟩, (fun h => by cases h), h4⟩
  | loadTokens d =>
    have hsd : (loadTokensDo c d).shuttingDown = c.shuttingDown := by
      unfold loadTokensDo
      split <;> rfl
    refine ⟨fun _ => ⟨rfl, ?_, Or.inr hsd⟩, (fun h => by cases h), ?_⟩
    · intro hc
      simp only [Operation.run, hsd, hc]
    · simp only [Operation.run, hsd, applyAll, List.foldl_nil]
  | goroutine g =>
    cases g with
    | lastActivitySet t =>
      refine ⟨fun _ => ?_, (fun h => by cases h), ?_⟩
      · simp [Operation.run, Goroutine.run, clearsFlag]
      · simp [Operation.run, Goroutine.run, applyAll, Effect.apply]
  | task e t =>
    refine ⟨fun _ => ⟨Task_run_no_clear e c t, fun hc => hc, Or.inr rfl⟩, (fun h => by cases h), ?_⟩
    simp only [Operation.run]
    have hnc := Task_run_no_clear e c t
    have key : ∀ (tr : List Effect) (c1 : agiExecProxyCmd), tr.any clearsFlag = false →
        (∀ x ∈ tr, (∀ b, x ≠ Effect.setShuttingDown b)) →
        (applyAll c1 tr).shuttingDown = c1.shuttingDown := by
      intro tr
      induction tr with
      | nil => intro c1 _ _; rfl
      | cons x xs ih =>
        intro c1 h1 h2
        have hx : (Effect.apply c1 x).shuttingDown = c1.shuttingDown := by
          cases x with
          | setShuttingDown b => exact absurd rfl (h2 _ (List.mem_cons_self _ _) b)
          | _ => rfl
        simp only [applyAll, List.foldl_cons]
        have h1' : xs.any clearsFlag = false := by
          simp only [List.any_cons, Bool.or_eq_false_iff] at h1
          exact h1.2
        have := ih (Effect.apply c1 x) h1' (fun y hy => h2 y (List.mem_cons_of_mem _ hy))
        simp only [applyAll] at this
        rw [this, hx]
    symm
    apply key _ _ hnc
    intro x hx b
    cases t with
    | notifyStatus ev =>
      unfold Task.run at hx
      cases hg : getAgiStatus e (gs "/opt/agi/ingest/") with
      | error err => rw [hg] at hx; simp at hx
      | ok st =>
        rw [hg] at hx
        simp only [notifyBoth, List.mem_cons, List.mem_singleton, List.not_mem_nil, or_false] at hx
        rcases hx with hx | hx <;> (rw [hx]; intro hcon; cases hcon)
    | shutdownCommand =>
      simp only [Task.run, shutdownAction, List.mem_singleton] at hx
      rw [hx]; intro hcon; cases hcon
    | serverShutdown =>
      simp only [Task.run, List.mem_singleton] at hx
      rw [hx]; intro hcon; cases hcon

/-! ## Service Health Monitor -/

theorem serviceMonitor_loop_four (s1 s2 s3 s4 a b d f : Bool) :
    serviceMonitor.loop 0 [s1, s2, s3, s4]
        { servicesRunning := [a, b, d, f], notifyDown := false, notifyUp := false } =
      { servicesRunning := [!s1, !s2, !s3, !s4],
        notifyDown := goesDown [s1, s2, s3, s4] [a, b, d, f],
        notifyUp := goesUp [s1, s2, s3, s4] [a, b, d, f] } := by
  cases s1 <;> cases s2 <;> cases s3 <;> cases s4 <;> cases a <;> cases b <;> cases d <;>
    cases f <;> rfl

theorem signals_four (stat : IngestStatusStruct) :
    ∃ s1 s2 s3 s4, serviceMonitor.signals stat = [s1, s2, s3, s4] :=
  ⟨_, _, _, _, rfl⟩

theorem length_four {hist : List Bool} (h : hist.length = 4) :
    ∃ a b d f, hist = [a, b, d, f] := by
  match hist, h with
  | [a, b, d, f], _ => exact ⟨a, b, d, f, rfl⟩

theorem notifiedEvents_notifyBoth (c : agiExecProxyCmd) (stat : IngestStatusStruct)
    (ev : AgiEvent) (detail : GoString) :
    notifiedEvents (Effect.sleep Minute :: notifyBoth c stat ev detail) = [ev] := by
  simp [notifiedEvents, notifyBoth]

/-- C18: a round of the Service Health Monitor over a history of four entries. With the
Shutdown Flag set it makes no notification and leaves the history alone. With the flag clear
and a snapshot at hand it makes exactly one "service down" notification (one JSON event and one
chat message) when at least one of the four signals goes from running to down, however many do
and whatever goes up in the same round; otherwise exactly one "service up" notification when at
least one signal goes from down to running; otherwise none. Without a snapshot it makes
none. -/
theorem serviceMonitor_tick_notifications (e : StatusEnv) (hist : List Bool)
    (c : agiExecProxyCmd) (hlen : hist.length = 4) :
    (c.shuttingDown = true →
      (serviceMonitor.tick e hist c).2.trace = [Effect.sleep Minute] ∧
      (serviceMonitor.tick e hist c).1 = hist) ∧
    (c.shuttingDown = false → ∀ stat, getAgiStatus e (gs "/opt/agi/ingest/") = .ok stat →
      (serviceMonitor.tick e hist c).2.trace =
        Effect.sleep Minute ::
          (if goesDown (serviceMonitor.signals stat) hist
           then notifyBoth c stat AgiEvent.ServiceDown []
           else if goesUp (serviceMonitor.signals stat) hist
           then notifyBoth c stat AgiEvent.ServiceUp []
           else []) ∧
      notifiedEvents (serviceMonitor.tick e hist c).2.trace =
        (if goesDown (serviceMonitor.signals stat) hist then [AgiEvent.ServiceDown]
         else if goesUp (serviceMonitor.signals stat) hist then [AgiEvent.ServiceUp]
         else [])) ∧
    (c.shuttingDown = false → ∀ err, getAgiStatus e (gs "/opt/agi/ingest/") = .error err →
      (serviceMonitor.tick e hist c).2.trace = [Effect.sleep Minute]) := by
  refine ⟨?_, ?_, ?_⟩
  · intro hsd
    unfold serviceMonitor.tick
    simp [hsd]
  · intro hsd stat hstat
    obtain ⟨a, b, d, f, rfl⟩ := length_four hlen
    obtain ⟨s1, s2, s3, s4, hs⟩ := signals_four stat
    have htr : (serviceMonitor.tick e [a, b, d, f] c).2.trace =
        Effect.sleep Minute ::
          (if goesDown (serviceMonitor.signals stat) [a, b, d, f]
           then notifyBoth c stat AgiEvent.ServiceDown []
           else if goesUp (serviceMonitor.signals stat) [a, b, d, f]
           then notifyBoth c stat AgiEvent.ServiceUp []
           else []) := by
      unfold serviceMonitor.tick
      simp only [hsd, hstat, hs, serviceMonitor_loop_four, Bool.false_eq_true, if_false]
      cases goesDown [s1, s2, s3, s4] [a, b, d, f] <;>
        cases goesUp [s1, s2, s3, s4] [a, b, d, f] <;> simp
    refine ⟨htr, ?_⟩
    rw [htr]
    cases goesDown (serviceMonitor.signals stat) [a, b, d, f] with
    | true => simp only [if_true]; exact notifiedEvents_notifyBoth c stat _ _
    | false =>
      cases goesUp (serviceMonitor.signals stat) [a, b, d, f] with
      | true =>
        simp only [Bool.false_eq_true, if_false, if_true]
        exact notifiedEvents_notifyBoth c stat _ _
      | false => simp [notifiedEvents]
  · intro hsd err herr
    unfold serviceMonitor.tick
    simp [hsd, herr]

/-- Witness for C18: from the initial history (all running), with only the database daemon
running and all steps complete, two signals go down in the same round: one "service down"
notification. -/
theorem serviceMonitor_tick_notifications_witness :
    notifiedEvents (serviceMonitor.tick asdOnlyEnv serviceMonitor.initial noneCmd).2.trace =
      [AgiEvent.ServiceDown] ∧
    notifiedEvents (serviceMonitor.tick asdOnlyEnv serviceMonitor.initial
      { noneCmd with shuttingDown := true }).2.trace = [] :=
  have hset := serviceMonitor_tick_notifications asdOnlyEnv serviceMonitor.initial
    { noneCmd with shuttingDown := true } rfl
  ⟨by decide, by
    rw [(hset.1 rfl).1]
    rfl⟩

/-! ## Inactivity monitor -/

theorem activityTick_quiet (e : StatusEnv) (tSet tCheck : Time) (c : agiExecProxyCmd)
    (hq : quiet e = true) (hc : c.gottyConns = gs "0") :
    activityMonitor.tick e tSet tCheck c =
      if (tCheck : Int) - (c.lastActivity : Int) > c.MaxInactivity then
        { c := { c with shuttingDown := true },
          trace := [Effect.sleep Minute, Effect.spawn (Task.notifyStatus AgiEvent.MaxInactive),
                    Effect.sleep Minute, Effect.setShuttingDown true, shutdownAction c] }
      else { c := c, trace := [Effect.sleep Minute] } := by
  unfold quiet shellFound at hq
  simp only [Bool.and_eq_true, Option.isNone_iff_eq_none, Bool.not_eq_true'] at hq
  obtain ⟨h1, h2⟩ := hq
  unfold activityMonitor.tick
  simp only [h1, hc, ne_eq, not_true_eq_false, if_false, h2, Bool.false_eq_true]
  split <;> simp

theorem activityTick_signal (e : StatusEnv) (tSet tCheck : Time) (c : agiExecProxyCmd) :
    ((e.Stat (gs "/opt/agi/ingest.pid")).isSome = true →
      activityMonitor.tick e tSet tCheck c =
        { c := { c with lastActivity := tSet },
          trace := [Effect.sleep Minute, Effect.setLastActivity tSet] }) ∧
    (e.Stat (gs "/opt/agi/ingest.pid") = none → c.gottyConns ≠ gs "0" →
      activityMonitor.tick e tSet tCheck c =
        { c := { c with lastActivity := tSet },
          trace := [Effect.sleep Minute, Effect.setLastActivity tSet] }) ∧
    (e.Stat (gs "/opt/agi/ingest.pid") = none → c.gottyConns = gs "0" → shellFound e = true →
      activityMonitor.tick e tSet tCheck c =
        if (tCheck : Int) - (tSet : Int) > c.MaxInactivity then
          { c := { c with lastActivity := tSet, shuttingDown := true },
            trace := [Effect.sleep Minute, Effect.setLastActivity tSet,
                      Effect.spawn (Task.notifyStatus AgiEvent.MaxInactive),
                      Effect.sleep Minute, Effect.setShuttingDown true, shutdownAction c] }
        else
          { c := { c with lastActivity := tSet },
            trace := [Effect.sleep Minute, Effect.setLastActivity tSet] }) := by
  refine ⟨?_, ?_, ?_⟩
  · intro h
    unfold activityMonitor.tick
    cases hs : e.Stat (gs "/opt/agi/ingest.pid") with
    | none => rw [hs] at h; cases h
    | some info => simp
  · intro h1 h2
    unfold activityMonitor.tick
    simp [h1, h2]
  · intro h1 h2 h3
    unfold shellFound at h3
    unfold activityMonitor.tick
    simp only [h1, h2, ne_eq, not_true_eq_false, if_false, h3, if_true]
    split <;> simp [shutdownAction]

/-- Counterexample for C20 as stated: max-inactivity is 1 nanosecond (positive), an interactive
shell runs, the timestamp is set at instant 1000 and the inactivity check reads the clock at
1005: the round sets the timestamp and all the same starts the notification, sets the Shutdown
Flag and runs the shutdown command. -/
theorem activityTick_shell_counterexample :
    ({ noneCmd with MaxInactivity := 1 } : agiExecProxyCmd).MaxInactivity > 0 ∧
    shellFound shellEnv = true ∧
    activityMonitor.tick shellEnv 1000 1005 { noneCmd with MaxInactivity := 1 } =
      { c := { noneCmd with MaxInactivity := 1, lastActivity := 1000, shuttingDown := true },
        trace := [Effect.sleep Minute, Effect.setLastActivity 1000,
                  Effect.spawn (Task.notifyStatus AgiEvent.MaxInactive), Effect.sleep Minute,
                  Effect.setShuttingDown true, Effect.exec (gs "/sbin/poweroff") []] } := by
  decide

/-- C20 (amended): in a round of the inactivity monitor the three signals are checked in the
order PID file, connection counter, interactive shell. When the pipeline PID file is present,
or it is absent and the Live-Connection Counter is not "0", the round sets the Activity
Timestamp to the current time and does nothing else, for every max-inactivity. When only the
interactive shell (a process other than PID 1 named `bash`) is found, the round sets the
Activity Timestamp and then still makes the inactivity check against the fresh timestamp: it
does nothing else exactly when the time between the update and the check does not exceed
max-inactivity, and otherwise starts the notification, sets the Shutdown Flag and runs the
shutdown action. -/
theorem activityTick_signals (e : StatusEnv) (tSet tCheck : Time) (c : agiExecProxyCmd) :
    ((e.Stat (gs "/opt/agi/ingest.pid")).isSome = true →
      activityMonitor.tick e tSet tCheck c =
        { c := { c with lastActivity := tSet },
          trace := [Effect.sleep Minute, Effect.setLastActivity tSet] }) ∧
    (e.Stat (gs "/opt/agi/ingest.pid") = none → c.gottyConns ≠ gs "0" →
      activityMonitor.tick e tSet tCheck c =
        { c := { c with lastActivity := tSet },
          trace := [Effect.sleep Minute, Effect.setLastActivity tSet] }) ∧
    (e.Stat (gs "/opt/agi/ingest.pid") = none → c.gottyConns = gs "0" → shellFound e = true →
      (activityMonitor.tick e tSet tCheck c).c.lastActivity = tSet ∧
      ((tCheck : Int) - (tSet : Int) ≤ c.MaxInactivity →
        activityMonitor.tick e tSet tCheck c =
          { c := { c with lastActivity := tSet },
            trace := [Effect.sleep Minute, Effect.setLastActivity tSet] }) ∧
      ((tCheck : Int) - (tSet : Int) > c.MaxInactivity →
        activityMonitor.tick e tSet tCheck c =
          { c := { c with lastActivity := tSet, shuttingDown := true },
            trace := [Effect.sleep Minute, Effect.setLastActivity tSet,
                      Effect.spawn (Task.notifyStatus AgiEvent.MaxInactive),
                      Effect.sleep Minute, Effect.setShuttingDown true, shutdownAction c] })) := by
  obtain ⟨h1, h2, h3⟩ := activityTick_signal e tSet tCheck c
  refine ⟨h1, h2, ?_⟩
  intro a b d
  have h := h3 a b d
  refine ⟨?_, ?_, ?_⟩
  · rw [h]
    split <;> rfl
  · intro hle
    rw [h, if_neg (by omega)]
  · intro hgt
    rw [h, if_pos hgt]

theorem isExec_shutdownAction (c : agiExecProxyCmd) : isExec (shutdownAction c) = true := by
  unfold shutdownAction
  rfl

theorem run_one (o : TickObs) (c : agiExecProxyCmd) :
    activityMonitor.run [o] c = activityMonitor.tick o.e o.tSet o.tCheck c := by
  simp [activityMonitor.run]

theorem run_cons_quiet (o : TickObs) (rest : List TickObs) (c : agiExecProxyCmd)
    (h : activityMonitor.tick o.e o.tSet o.tCheck c = { c := c, trace := [Effect.sleep Minute] }) :
    activityMonitor.run (o :: rest) c =
      { c := (activityMonitor.run rest c).c,
        trace := Effect.sleep Minute :: (activityMonitor.run rest c).trace } := by
  simp [activityMonitor.run, h]

theorem activityTick_quiet_round (e : StatusEnv) (tSet tCheck : Time) (c : agiExecProxyCmd)
    (hq : quiet e = true) (hc : c.gottyConns = gs "0") :
    activityMonitor.tick e tSet tCheck c =
      if (tCheck : Int) - (c.lastActivity : Int) > c.MaxInactivity then breachRound c
      else { c := c, trace := [Effect.sleep Minute] } :=
  activityTick_quiet e tSet tCheck c hq hc

theorem breachRound_facts (c : agiExecProxyCmd) (pre : List Effect)
    (hpre : pre.filter isExec = []) :
    (pre ++ (breachRound c).trace).filter isExec = [shutdownAction c] ∧
    (∃ before, pre ++ (breachRound c).trace =
      before ++ [Effect.spawn (Task.notifyStatus AgiEvent.MaxInactive), Effect.sleep Minute,
                 Effect.setShuttingDown true, shutdownAction c] ∧
      before.filter isExec = [] ∧
      (applyAll c (before ++ [Effect.spawn (Task.notifyStatus AgiEvent.MaxInactive),
        Effect.sleep Minute, Effect.setShuttingDown true])).shuttingDown = true) := by
  constructor
  · rw [List.filter_append, hpre]
    have h := isExec_shutdownAction c
    simp only [breachRound, List.nil_append]
    rw [List.filter_cons_of_neg (by simp [isExec]), List.filter_cons_of_neg (by simp [isExec]),
      List.filter_cons_of_neg (by simp [isExec]), List.filter_cons_of_neg (by simp [isExec]),
      List.filter_cons_of_pos h, List.filter_nil]
  · refine ⟨pre ++ [Effect.sleep Minute], ?_, ?_, ?_⟩
    · simp [breachRound]
    · rw [List.filter_append, hpre]
      simp [isExec]
    · simp [applyAll, Effect.apply, List.foldl_append]

/-- C19: with max-inactivity = 2 minutes, the connection counter at "0" and three consecutive
rounds of the inactivity monitor that see no pipeline PID file and no interactive shell, the
third of them at least 3 minutes after the last activity: the limit is found breached in one of
these rounds (the third at the latest), and up to the end of that round the shutdown action is
invoked exactly once, directly after the Shutdown Flag is set to true, which comes after the
one-minute wait, which comes after the start of the inactivity notification. Every round that
finds the limit breached has exactly this order of effects. (The loop itself does not end
there: a later round of a process that is still running would find the breach again.) -/
theorem activityMonitor_breach (c : agiExecProxyCmd) (o1 o2 o3 : TickObs)
    (hmax : c.MaxInactivity = 2 * Minute) (hconn : c.gottyConns = gs "0")
    (hq1 : quiet o1.e = true) (hq2 : quiet o2.e = true) (hq3 : quiet o3.e = true)
    (h3 : (o3.tCheck : Int) - (c.lastActivity : Int) ≥ 3 * Minute) :
    (∃ k, 1 ≤ k ∧ k ≤ 3 ∧
      ((activityMonitor.run ([o1, o2, o3].take k) c).trace.filter isExec = [shutdownAction c]) ∧
      (∃ before, (activityMonitor.run ([o1, o2, o3].take k) c).trace =
        before ++ [Effect.spawn (Task.notifyStatus AgiEvent.MaxInactive), Effect.sleep Minute,
                   Effect.setShuttingDown true, shutdownAction c] ∧
        before.filter isExec = [] ∧
        (applyAll c (before ++ [Effect.spawn (Task.notifyStatus AgiEvent.MaxInactive),
          Effect.sleep Minute, Effect.setShuttingDown true])).shuttingDown = true) ∧
      (activityMonitor.run ([o1, o2, o3].take k) c).c.shuttingDown = true) ∧
    ((o1.tCheck : Int) - (c.lastActivity : Int) ≤ 2 * Minute →
      (o2.tCheck : Int) - (c.lastActivity : Int) ≤ 2 * Minute →
      (activityMonitor.run [o1, o2, o3] c).trace =
        [Effect.sleep Minute, Effect.sleep Minute, Effect.sleep Minute,
         Effect.spawn (Task.notifyStatus AgiEvent.MaxInactive), Effect.sleep Minute,
         Effect.setShuttingDown true, shutdownAction c]) ∧
    (∀ (e : StatusEnv) (tSet tCheck : Time) (c1 : agiExecProxyCmd),
      quiet e = true → c1.gottyConns = gs "0" →
      (tCheck : Int) - (c1.lastActivity : Int) > c1.MaxInactivity →
      activityMonitor.tick e tSet tCheck c1 = breachRound c1) := by
  have t1 := activityTick_quiet_round o1.e o1.tSet o1.tCheck c hq1 hconn
  have t2 := activityTick_quiet_round o2.e o2.tSet o2.tCheck c hq2 hconn
  have t3 := activityTick_quiet_round o3.e o3.tSet o3.tCheck c hq3 hconn
  have hm : Minute = 60000000000 := by decide
  have b3 : (o3.tCheck : Int) - (c.lastActivity : Int) > c.MaxInactivity := by
    rw [hmax]; omega
  rw [if_pos b3] at t3
  refine ⟨?_, ?_, ?_⟩
  · by_cases b1 : (o1.tCheck : Int) - (c.lastActivity : Int) > c.MaxInactivity
    · rw [if_pos b1] at t1
      refine ⟨1, le_refl _, by omega, ?_⟩
      have hrun : activityMonitor.run (List.take 1 [o1, o2, o3]) c =
          { c := (breachRound c).c, trace := [] ++ (breachRound c).trace } := by
        rw [List.take_succ_cons, List.take_zero, run_one, t1]
        rfl
      rw [hrun]
      obtain ⟨f1, f2⟩ := breachRound_facts c [] rfl
      exact ⟨f1, f2, rfl⟩
    · rw [if_neg b1] at t1
      by_cases b2 : (o2.tCheck : Int) - (c.lastActivity : Int) > c.MaxInactivity
      · rw [if_pos b2] at t2
        refine ⟨2, by omega, by omega, ?_⟩
        have hrun : activityMonitor.run (List.take 2 [o1, o2, o3]) c =
            { c := (breachRound c).c, trace := [Effect.sleep Minute] ++ (breachRound c).trace } := by
          rw [List.take_succ_cons, List.take_succ_cons, List.take_zero, run_cons_quiet o1 _ c t1,
            run_one, t2]
          rfl
        rw [hrun]
        obtain ⟨f1, f2⟩ := breachRound_facts c [Effect.sleep Minute] rfl
        exact ⟨f1, f2, rfl⟩
      · rw [if_neg b2] at t2
        refine ⟨3, by omega, le_refl _, ?_⟩
        have hrun : activityMonitor.run (List.take 3 [o1, o2, o3]) c =
            { c := (breachRound c).c,
              trace := [Effect.sleep Minute, Effect.sleep Minute] ++ (breachRound c).trace } := by
          rw [List.take_succ_cons, List.take_succ_cons, List.take_succ_cons, List.take_zero,
            run_cons_quiet o1 _ c t1, run_cons_quiet o2 _ c t2, run_one, t3]
          rfl
        rw [hrun]
        obtain ⟨f1, f2⟩ := breachRound_facts c [Effect.sleep Minute, Effect.sleep Minute] rfl
        exact ⟨f1, f2, rfl⟩
  · intro b1 b2
    rw [if_neg (by rw [hmax]; omega)] at t1 t2
    rw [run_cons_quiet o1 _ c t1, run_cons_quiet o2 _ c t2, run_one, t3]
    rfl
  · intro e tSet tCheck c1 hq hc hb
    rw [activityTick_quiet_round e tSet tCheck c1 hq hc, if_pos hb]

/-- Witness for C19: rounds at 1, 2 and 3 minutes after the last activity (instant 0) with
nothing running: one run of `/sbin/poweroff`, in the third round. -/
theorem activityMonitor_breach_witness :
    (activityMonitor.run
      [⟨emptyEnv, 60000000000, 60000000000⟩, ⟨emptyEnv, 120000000000, 120000000000⟩,
       ⟨emptyEnv, 180000000000, 180000000000⟩] twoMinuteCmd).trace =
      [Effect.sleep Minute, Effect.sleep Minute, Effect.sleep Minute,
       Effect.spawn (Task.notifyStatus AgiEvent.MaxInactive), Effect.sleep Minute,
       Effect.setShuttingDown true, shutdownAction twoMinuteCmd] ∧
    shutdownAction twoMinuteCmd = Effect.exec (gs "/sbin/poweroff") [] :=
  ⟨(activityMonitor_breach twoMinuteCmd ⟨emptyEnv, 60000000000, 60000000000⟩
      ⟨emptyEnv, 120000000000, 120000000000⟩ ⟨emptyEnv, 180000000000, 180000000000⟩
      (by decide) (by decide) (by decide) (by decide) (by decide) (by decide)).2.1
      (by decide) (by decide),
   by decide⟩

/-! ## Monitors and the Shutdown Flag -/

/-- Counterexample for C21 as stated: the Shutdown Flag is already true, max-inactivity is 2
minutes and the round of the inactivity monitor comes 3 minutes after the last activity with
nothing running: the round still starts the inactivity notification and runs the shutdown
command, while the Service Health Monitor skips its round. -/
theorem activityTick_flag_set_counterexample :
    ({ twoMinuteCmd with shuttingDown := true } : agiExecProxyCmd).shuttingDown = true ∧
    (activityMonitor.tick emptyEnv 180000000000 180000000000
      { twoMinuteCmd with shuttingDown := true }).trace =
      [Effect.sleep Minute, Effect.spawn (Task.notifyStatus AgiEvent.MaxInactive),
       Effect.sleep Minute, Effect.setShuttingDown true, Effect.exec (gs "/sbin/poweroff") []] ∧
    (serviceMonitor.tick emptyEnv serviceMonitor.initial
      { twoMinuteCmd with shuttingDown := true }).2.trace = [Effect.sleep Minute] := by
  decide

/-- C21 (amended): only the Service Health Monitor consults the Shutdown Flag: with the flag
true its round is the sleep alone. The inactivity monitor, the max-uptime monitor and the
spot-interruption monitor never read the flag: whatever its value, a round of each makes the
same effects (notifications and shutdown action included) as with any other value. -/
theorem monitors_ignore_flag (c : agiExecProxyCmd) (b : Bool) (e : StatusEnv)
    (tSet tCheck : Time) (spot : Option (GoString × Int)) (hist : List Bool) :
    (activityMonitor.tick e tSet tCheck { c with shuttingDown := b }).trace =
      (activityMonitor.tick e tSet tCheck c).trace ∧
    (maxUptime { c with shuttingDown := b }).trace = (maxUptime c).trace ∧
    (spotMonitor.iteration spot e { c with shuttingDown := b }).trace =
      (spotMonitor.iteration spot e c).trace ∧
    (serviceMonitor.tick e hist { c with shuttingDown := true }).2.trace = [Effect.sleep Minute] ∧
    (serviceMonitor.tick e hist { c with shuttingDown := true }).1 = hist := by
  refine ⟨?_, ?_, ?_, ?_, ?_⟩
  · unfold activityMonitor.tick
    simp only []
    split
    · rfl
    · split
      · rfl
      · split <;> split <;> simp [shutdownAction]
  · simp [maxUptime, shutdownAction]
  · unfold spotMonitor.iteration
    simp only []
    cases spot with
    | none => rfl
    | some bc =>
      obtain ⟨body, code⟩ := bc
      simp only []
      split
      · rfl
      · cases getAgiStatus e (gs "/opt/agi/ingest/") with
        | error err => rfl
        | ok stat => simp [notifyBoth]
  · simp [serviceMonitor.tick]
  · simp [serviceMonitor.tick]

/-! ## Spot-interruption monitor -/

/-- Counterexample for C22 as stated: the metadata request succeeds with status 200 but the
status snapshot cannot be computed: the round neither sets the Shutdown Flag nor emits a
notification. -/
theorem spotIteration_no_status_counterexample :
    isSnapshot (getAgiStatus failingEnv (gs "/opt/agi/ingest/")) = false ∧
    spotMonitor.iteration (some (gs "terminate", 200)) failingEnv noneCmd =
      { c := noneCmd, trace := [Effect.sleep (30 * Second)] } := by
  decide

/-- C22 (amended): for every poll result of the spot-interruption monitor: if the metadata
request succeeds with a status code in 200..299 and the status snapshot can be computed, the
round sets the Shutdown Flag, emits one notification (JSON event and chat message) whose
free-text detail is the raw response body, waits 2 minutes and sets the flag back to false,
with no run of the shutdown action; if the request fails, or the status code is outside
200..299, or the status snapshot cannot be computed, it changes nothing and emits nothing. -/
theorem spotIteration_effects (spot : Option (GoString × Int)) (e : StatusEnv)
    (c : agiExecProxyCmd) :
    (∀ body code stat, spot = some (body, code) → 200 ≤ code → code ≤ 299 →
      getAgiStatus e (gs "/opt/agi/ingest/") = .ok stat →
      spotMonitor.iteration spot e c =
        { c := { c with shuttingDown := false },
          trace := [Effect.sleep (30 * Second), Effect.setShuttingDown true,
                    Effect.notifyJSON { IsDataInMemory := c.isDim, IngestStatus := stat,
                                        Event := AgiEvent.SpotNoCapacity, AGIName := c.AGIName,
                                        EventDetail := body },
                    Effect.notifySlack AgiEvent.SpotNoCapacity,
                    Effect.sleep (2 * Minute), Effect.setShuttingDown false] }) ∧
    ((spot = none ∨ (∃ body code, spot = some (body, code) ∧ (code < 200 ∨ code > 299)) ∨
        (∃ err, getAgiStatus e (gs "/opt/agi/ingest/") = .error err)) →
      spotMonitor.iteration spot e c = { c := c, trace := [Effect.sleep (30 * Second)] }) ∧
    (spotMonitor.iteration spot e c).trace.filter isExec = [] := by
  refine ⟨?_, ?_, ?_⟩
  · intro body code stat hs h1 h2 hst
    unfold spotMonitor.iteration
    simp only [hs, hst]
    rw [if_neg (by omega)]
    simp [notifyBoth]
  · intro h
    unfold spotMonitor.iteration
    simp only []
    rcases h with h | ⟨body, code, hs, hc⟩ | ⟨err, herr⟩
    · rw [h]
    · rw [hs]
      simp only []
      rw [if_pos hc]
    · cases spot with
      | none => rfl
      | some bc =>
        obtain ⟨body, code⟩ := bc
        simp only [herr]
        split <;> rfl
  · unfold spotMonitor.iteration
    simp only []
    cases spot with
    | none => simp [isExec]
    | some bc =>
      obtain ⟨body, code⟩ := bc
      simp only []
      split
      · simp [isExec]
      · cases getAgiStatus e (gs "/opt/agi/ingest/") with
        | error err => simp [isExec]
        | ok stat => simp [isExec, notifyBoth]

/-! ## Max-uptime monitor -/

/-- C23: for every max-uptime of at least one minute the max-uptime monitor makes, in this
order: the wait of max-uptime minus one minute, the write of true to the Shutdown Flag, the
start of the max-age notification, the wait of one minute, the shutdown action. The flag is
true before the notification starts and before the shutdown action; the shutdown action is run
exactly once, after waits that add up to max-uptime. The started notification emits the max-age
JSON event and chat message when the status snapshot can be computed. -/
theorem maxUptime_order (c : agiExecProxyCmd) (hge : c.MaxUptime ≥ Minute) :
    (maxUptime c).trace =
      [Effect.sleep (c.MaxUptime - Minute), Effect.setShuttingDown true,
       Effect.spawn (Task.notifyStatus AgiEvent.MaxAge), Effect.sleep Minute,
       shutdownAction c] ∧
    (applyAll c [Effect.sleep (c.MaxUptime - Minute), Effect.setShuttingDown true]).shuttingDown
      = true ∧
    (applyAll c [Effect.sleep (c.MaxUptime - Minute), Effect.setShuttingDown true,
       Effect.spawn (Task.notifyStatus AgiEvent.MaxAge), Effect.sleep Minute]).shuttingDown
      = true ∧
    (maxUptime c).trace.filter isExec = [shutdownAction c] ∧
    sleptFor [Effect.sleep (c.MaxUptime - Minute), Effect.setShuttingDown true,
       Effect.spawn (Task.notifyStatus AgiEvent.MaxAge), Effect.sleep Minute] = c.MaxUptime ∧
    (∀ e stat, getAgiStatus e (gs "/opt/agi/ingest/") = .ok stat →
      Task.run e c (Task.notifyStatus AgiEvent.MaxAge) =
        [Effect.notifyJSON { IsDataInMemory := c.isDim, IngestStatus := stat,
                             Event := AgiEvent.MaxAge, AGIName := c.AGIName, EventDetail := [] },
         Effect.notifySlack AgiEvent.MaxAge]) := by
  have hm : Minute = 60000000000 := by decide
  refine ⟨rfl, rfl, rfl, ?_, ?_, ?_⟩
  · have h := isExec_shutdownAction c
    simp only [maxUptime]
    rw [List.filter_cons_of_neg (by simp [isExec]), List.filter_cons_of_neg (by simp [isExec]),
      List.filter_cons_of_neg (by simp [isExec]), List.filter_cons_of_neg (by simp [isExec]),
      List.filter_cons_of_pos h, List.filter_nil]
  · simp only [sleptFor, List.map_cons, List.map_nil, sleepTime, List.sum_cons, List.sum_nil]
    rw [if_neg (by omega), if_neg (by omega)]
    omega
  · intro e stat hst
    simp [Task.run, hst, notifyBoth]

/-- Witness for C23: the default max-uptime of 24 hours. -/
theorem maxUptime_order_witness :
    noneCmd.MaxUptime ≥ Minute ∧
    (maxUptime noneCmd).trace =
      [Effect.sleep (86400000000000 - Minute), Effect.setShuttingDown true,
       Effect.spawn (Task.notifyStatus AgiEvent.MaxAge), Effect.sleep Minute,
       Effect.exec (gs "/sbin/poweroff") []] :=
  ⟨by decide, by
    rw [(maxUptime_order noneCmd (by decide)).1]
    decide⟩

/-! ## Shutdown action -/

theorem shutdownAction_eq (c : agiExecProxyCmd) :
    shutdownAction c =
      Effect.exec ((stringsSplit 32 c.ShutdownCommand).headD [])
        ((stringsSplit 32 c.ShutdownCommand).drop 1) := by
  unfold shutdownAction
  simp only []
  cases hsp : stringsSplit 32 c.ShutdownCommand with
  | nil => exact absurd hsp (stringsSplit_ne_nil 32 _)
  | cons x xs =>
    cases xs with
    | nil => simp
    | cons y ys => simp

/-- Counterexample for C24 as stated: with two spaces in a row the argument list holds an empty
token, and a tab does not separate tokens. -/
theorem shutdownAction_tokens_counterexample :
    shutdownAction { noneCmd with ShutdownCommand := gs "shutdown  -h now" } =
      Effect.exec (gs "shutdown") [[], gs "-h", gs "now"] ∧
    shutdownAction { noneCmd with ShutdownCommand := gs "shutdown\t-h" } =
      Effect.exec (gs "shutdown\t-h") [] := by
  decide

/-- C24 (amended): for every shutdown command string the shutdown action cuts the string at
every single space character (and at no other whitespace): the pieces hold no space and, put
together with single spaces, give the string back; the executable is the first piece and the
arguments are the remaining pieces in order, empty pieces (from leading, trailing or repeated
spaces) included. So for a string made of space-free pieces joined by single spaces the
executable and arguments are exactly those pieces. The three places that run the action
(poweroff handler task, max-uptime monitor, inactivity monitor) run the same executable with
the same arguments. -/
theorem shutdownAction_pieces (c : agiExecProxyCmd) :
    (shutdownAction c =
      Effect.exec ((stringsSplit 32 c.ShutdownCommand).headD [])
        ((stringsSplit 32 c.ShutdownCommand).drop 1) ∧
      joinWith 32 (stringsSplit 32 c.ShutdownCommand) = c.ShutdownCommand ∧
      ∀ p ∈ stringsSplit 32 c.ShutdownCommand, (32 : UInt8) ∉ p) ∧
    (∀ (first : GoString) (others : List GoString),
      (∀ p ∈ first :: others, (32 : UInt8) ∉ p) →
      c.ShutdownCommand = joinWith 32 (first :: others) →
      shutdownAction c = Effect.exec first others) ∧
    ((∀ e, Task.run e c Task.shutdownCommand = [shutdownAction c]) ∧
      (maxUptime c).trace.filter isExec = [shutdownAction c] ∧
      (∀ (e : StatusEnv) (tSet tCheck : Time), quiet e = true → c.gottyConns = gs "0" →
        (tCheck : Int) - (c.lastActivity : Int) > c.MaxInactivity →
        (activityMonitor.tick e tSet tCheck c).trace.filter isExec = [shutdownAction c])) := by
  obtain ⟨hj, hm⟩ := stringsSplit_pieces 32 c.ShutdownCommand
  refine ⟨⟨shutdownAction_eq c, hj, hm⟩, ?_, ?_, ?_, ?_⟩
  · intro first others hfree hcmd
    rw [shutdownAction_eq, hcmd, stringsSplit_joinWith 32 _ (by simp) hfree]
    rfl
  · intro e
    rfl
  · have h := isExec_shutdownAction c
    simp only [maxUptime]
    rw [List.filter_cons_of_neg (by simp [isExec]), List.filter_cons_of_neg (by simp [isExec]),
      List.filter_cons_of_neg (by simp [isExec]), List.filter_cons_of_neg (by simp [isExec]),
      List.filter_cons_of_pos h, List.filter_nil]
  · intro e tSet tCheck hq hc hb
    have h := isExec_shutdownAction c
    rw [activityTick_quiet_round e tSet tCheck c hq hc, if_pos hb]
    simp only [breachRound]
    rw [List.filter_cons_of_neg (by simp [isExec]), List.filter_cons_of_neg (by simp [isExec]),
      List.filter_cons_of_neg (by simp [isExec]), List.filter_cons_of_neg (by simp [isExec]),
      List.filter_cons_of_pos h, List.filter_nil]

/-! ## Control endpoints -/

theorem WriteHeader_Write_status (w : ResponseWriter) (b : GoString) (code : Nat)
    (hw : w.status = none) :
    (ResponseWriter.Write (ResponseWriter.WriteHeader w code) b).status = some code :=
  Write_status_written _ _ (WriteHeader_status_fresh w code hw)

/-- C25: the shutdown and the poweroff endpoint are gated by `checkAuth`. For a request that
passes (on a response not yet started) each writes true to the Shutdown Flag, then writes
status 200 and its body, and only then starts its asynchronous task (the graceful server
shutdown with a 60 second timeout, respectively the shutdown action). For a request that fails
`checkAuth` the command state, the Shutdown Flag included, is unchanged and nothing is
started. -/
theorem control_endpoints_gated (c : agiExecProxyCmd) (now : Time) (w : ResponseWriter)
    (r : Request) (hw : w.status = none) :
    ((checkAuth c now w r).ok = true →
      ((handleShutdown c now w r).c = { c with shuttingDown := true } ∧
        (handleShutdown c now w r).w.status = some 200 ∧
        (handleShutdown c now w r).trace =
          [Effect.setShuttingDown true, Effect.writeHeader 200,
           Effect.write (gs "Shutting down..."), Effect.spawn Task.serverShutdown] ∧
        (∀ e, Task.run e (handleShutdown c now w r).c Task.serverShutdown =
          [Effect.serverShutdown (60 * Second)])) ∧
      ((handlePoweroff c now w r).c = { c with shuttingDown := true } ∧
        (handlePoweroff c now w r).w.status = some 200 ∧
        (handlePoweroff c now w r).trace =
          [Effect.setShuttingDown true, Effect.writeHeader 200,
           Effect.write (gs "Poweroff..."), Effect.spawn Task.shutdownCommand] ∧
        (∀ e, Task.run e (handlePoweroff c now w r).c Task.shutdownCommand =
          [shutdownAction c]))) ∧
    ((checkAuth c now w r).ok = false →
      ((handleShutdown c now w r).c = c ∧ (handleShutdown c now w r).trace = [] ∧
        (handleShutdown c now w r).w = (checkAuth c now w r).w) ∧
      ((handlePoweroff c now w r).c = c ∧ (handlePoweroff c now w r).trace = [] ∧
        (handlePoweroff c now w r).w = (checkAuth c now w r).w)) := by
  constructor
  · intro hok
    have hw1 : (checkAuth c now w r).w.status = none := by
      rw [checkAuth_ok_w c now w r hok]
      exact hw
    have hs := WriteHeader_Write_status (checkAuth c now w r).w (gs "Shutting down...") 200 hw1
    have hp := WriteHeader_Write_status (checkAuth c now w r).w (gs "Poweroff...") 200 hw1
    unfold handleShutdown handlePoweroff
    simp only [hok, Bool.not_true, Bool.false_eq_true, if_false, StatusOK]
    exact ⟨⟨trivial, hs, trivial, fun _ => rfl⟩, ⟨trivial, hp, trivial, fun _ => rfl⟩⟩
  · intro hno
    unfold handleShutdown handlePoweroff
    simp only [hno, Bool.not_false, if_true]
    exact ⟨⟨trivial, trivial, trivial⟩, trivial, trivial, trivial⟩

/-- Witness for C25: the shutdown endpoint under the none policy. -/
theorem control_endpoints_gated_witness :
    (handleShutdown noneCmd 5 ResponseWriter.fresh (getRequest (gs "/agi/shutdown"))).c.shuttingDown
      = true ∧
    (handleShutdown noneCmd 5 ResponseWriter.fresh (getRequest (gs "/agi/shutdown"))).w.status
      = some 200 :=
  have h := (control_endpoints_gated noneCmd 5 ResponseWriter.fresh
    (getRequest (gs "/agi/shutdown")) rfl).1 (by decide)
  ⟨by rw [h.1.1], h.1.2.1⟩

/-! ## Auth gate: credential comparison -/

theorem run_compared (c : agiExecProxyCmd) (now : Time) (w : ResponseWriter) (r : Request)
    (user pass : GoString) (hb : c.isBasicAuth = true) (hr : r.basicAuth = some (user, pass)) :
    (checkAuth.run c now w r).compared = [(user, c.BasicAuthUser), (pass, c.BasicAuthPass)] := by
  unfold checkAuth.run Request.BasicAuth ConstantTimeCompare.logged
  simp only [hb, hr, if_true, Bool.not_true, Bool.false_eq_true, if_false, List.nil_append,
    List.singleton_append]
  split <;> rfl

/-- C26: under the basic policy a run of `checkAuth` on a request with credentials makes the
username comparison and then the password comparison, both of them whatever the first one
returns and whatever the credentials are (no early exit). So for two requests whose
credentials are both wrong and have the same lengths (they differ only in which characters
are wrong, such as a correct prefix against a wrong first character) the comparisons made
have arguments of the same lengths, their time (by the contract of
`subtle.ConstantTimeCompare` a function of the lengths only) is the same, and the two outcomes
(the 401 response, false, nothing started) are equal. -/
theorem checkAuth_basic_handling_same (c0 c : agiExecProxyCmd) (start now : Time)
    (w : ResponseWriter) (r1 r2 : Request) (u1 p1 u2 p2 : GoString)
    (hs : startedFrom c0 start c) (ha : c0.AuthType = gs "basic")
    (h1 : r1.basicAuth = some (u1, p1)) (h2 : r2.basicAuth = some (u2, p2))
    (hw1 : (u1, p1) ≠ (c.BasicAuthUser, c.BasicAuthPass))
    (hw2 : (u2, p2) ≠ (c.BasicAuthUser, c.BasicAuthPass))
    (hlu : u1.length = u2.length) (hlp : p1.length = p2.length) :
    (∀ (r : Request) (u p : GoString), r.basicAuth = some (u, p) →
      (checkAuth.run c now w r).compared = [(u, c.BasicAuthUser), (p, c.BasicAuthPass)]) ∧
    (checkAuth.run c now w r1).compared = [(u1, c.BasicAuthUser), (p1, c.BasicAuthPass)] ∧
    (checkAuth.run c now w r2).compared = [(u2, c.BasicAuthUser), (p2, c.BasicAuthPass)] ∧
    (∀ cost : Nat → Nat → Nat,
      compareTime cost (checkAuth.run c now w r1).compared =
        compareTime cost (checkAuth.run c now w r2).compared) ∧
    (checkAuth.run c now w r1).outcome = (checkAuth.run c now w r2).outcome ∧
    (checkAuth.run c now w r1).outcome.ok = false := by
  obtain ⟨hb, _⟩ := startedFrom_basic hs ha
  have e1 := run_compared c now w r1 u1 p1 hb h1
  have e2 := run_compared c now w r2 u2 p2 hb h2
  have n1 : r1.basicAuth ≠ some (c.BasicAuthUser, c.BasicAuthPass) := by
    rw [h1]
    intro h
    exact hw1 (Option.some.inj h)
  have n2 : r2.basicAuth ≠ some (c.BasicAuthUser, c.BasicAuthPass) := by
    rw [h2]
    intro h
    exact hw2 (Option.some.inj h)
  have o1 : (checkAuth.run c now w r1).outcome = checkAuth.unauthorized (withSTS w) := by
    have := checkAuth_basic_eq c now w r1 hb
    rw [if_neg n1] at this
    exact this
  have o2 : (checkAuth.run c now w r2).outcome = checkAuth.unauthorized (withSTS w) := by
    have := checkAuth_basic_eq c now w r2 hb
    rw [if_neg n2] at this
    exact this
  refine ⟨fun r u p hr => run_compared c now w r u p hb hr, e1, e2, ?_, ?_, ?_⟩
  · intro cost
    rw [e1, e2]
    simp [compareTime, hlu, hlp]
  · rw [o1, o2]
  · rw [o1]
    rfl

/-- Witness for C26: against `admin` / `secure`, the username `admiX` (correct prefix) and the
username `Xdmin` (wrong first character). -/
theorem checkAuth_basic_handling_same_witness :
    (checkAuth.run (Execute_setup basicFlags 0) 5 ResponseWriter.fresh
        (loginRequest (gs "admiX") (gs "secure"))).outcome =
      (checkAuth.run (Execute_setup basicFlags 0) 5 ResponseWriter.fresh
        (loginRequest (gs "Xdmin") (gs "secure"))).outcome ∧
    (checkAuth.run (Execute_setup basicFlags 0) 5 ResponseWriter.fresh
        (loginRequest (gs "admiX") (gs "secure"))).compared =
      [(gs "admiX", gs "admin"), (gs "secure", gs "secure")] :=
  have h := checkAuth_basic_handling_same basicFlags (Execute_setup basicFlags 0) 0 5
    ResponseWriter.fresh (loginRequest (gs "admiX") (gs "secure"))
    (loginRequest (gs "Xdmin") (gs "secure")) (gs "admiX") (gs "secure") (gs "Xdmin")
    (gs "secure") (by decide) rfl rfl rfl (by decide) (by decide) (by decide) (by decide)
  ⟨h.2.2.2.2.1, by
    rw [h.2.1]
    decide⟩

/-! ## Service Health Monitor: signals and history -/

/-- C27: the four "is down" signals derived from a snapshot are, in order: database daemon not
running; auxiliary helper not running; plugin not running; pipeline not running and not (both
the log-processing step and the collection-info step complete). The fourth is false whenever
the pipeline runs and whenever both steps are complete. -/
theorem serviceMonitor_signals_meaning (stat : IngestStatusStruct) :
    serviceMonitor.signals stat =
      [ !stat.AerospikeRunning, !stat.GrafanaHelperRunning, !stat.PluginRunning,
        !stat.Ingest.Running &&
          !(stat.Ingest.CompleteSteps.ProcessLogs && stat.Ingest.CompleteSteps.ProcessCollectInfo) ] ∧
    (stat.Ingest.Running = true → (serviceMonitor.signals stat).getD 3 true = false) ∧
    (stat.Ingest.CompleteSteps.ProcessLogs = true →
      stat.Ingest.CompleteSteps.ProcessCollectInfo = true →
      (serviceMonitor.signals stat).getD 3 true = false) ∧
    (serviceMonitor.signals stat).length = 4 := by
  unfold serviceMonitor.signals
  refine ⟨?_, ?_, ?_, rfl⟩
  · cases stat.Ingest.CompleteSteps.ProcessLogs <;>
      cases stat.Ingest.CompleteSteps.ProcessCollectInfo <;> rfl
  · intro h
    simp [h]
  · intro h1 h2
    simp [h1, h2]

theorem serviceTick_eq (e : StatusEnv) (hist : List Bool) (c : agiExecProxyCmd)
    (stat : IngestStatusStruct) (hlen : hist.length = 4) (hsd : c.shuttingDown = false)
    (hstat : getAgiStatus e (gs "/opt/agi/ingest/") = .ok stat) :
    serviceMonitor.tick e hist c =
      ((serviceMonitor.signals stat).map (fun b => !b),
        { c := c,
          trace := Effect.sleep Minute ::
            (if goesDown (serviceMonitor.signals stat) hist
             then notifyBoth c stat AgiEvent.ServiceDown []
             else if goesUp (serviceMonitor.signals stat) hist
             then notifyBoth c stat AgiEvent.ServiceUp []
             else []) }) := by
  obtain ⟨a, b, d, f, rfl⟩ := length_four hlen
  obtain ⟨s1, s2, s3, s4, hs⟩ := signals_four stat
  unfold serviceMonitor.tick
  simp only [hsd, hstat, hs, serviceMonitor_loop_four, Bool.false_eq_true, if_false]
  cases goesDown [s1, s2, s3, s4] [a, b, d, f] <;>
    cases goesUp [s1, s2, s3, s4] [a, b, d, f] <;> simp

theorem no_transition_after (stat : IngestStatusStruct) :
    goesDown (serviceMonitor.signals stat) ((serviceMonitor.signals stat).map (fun b => !b))
      = false ∧
    goesUp (serviceMonitor.signals stat) ((serviceMonitor.signals stat).map (fun b => !b))
      = false ∧
    goesUp (serviceMonitor.signals stat) serviceMonitor.initial = false := by
  obtain ⟨s1, s2, s3, s4, hs⟩ := signals_four stat
  rw [hs]
  cases s1 <;> cases s2 <;> cases s3 <;> cases s4 <;> decide

theorem signals_length (stat : IngestStatusStruct) :
    ((serviceMonitor.signals stat).map (fun b => !b)).length = 4 := rfl

/-- C28: a round of the Service Health Monitor over a history of four entries. When the round
is not skipped (Shutdown Flag clear, snapshot at hand) the history after it is the negation of
the four signals of this round, whatever the history before and whichever notification was
made. So what a later round reports depends on this round only through its signals, not on a
transition this round left unreported; a later round with the same signals makes no
notification; and the first round, from the all-true history, never makes a "service up"
notification (and can make a "service down" one). A round skipped because the flag is set, or
because no snapshot could be computed, leaves the history unchanged. -/
theorem serviceMonitor_history (e : StatusEnv) (hist : List Bool) (c : agiExecProxyCmd)
    (hlen : hist.length = 4) :
    (c.shuttingDown = false → ∀ stat, getAgiStatus e (gs "/opt/agi/ingest/") = .ok stat →
      (serviceMonitor.tick e hist c).1 = (serviceMonitor.signals stat).map (fun b => !b) ∧
      (∀ e2 c2 stat2, c2.shuttingDown = false →
        getAgiStatus e2 (gs "/opt/agi/ingest/") = .ok stat2 →
        notifiedEvents (serviceMonitor.tick e2 (serviceMonitor.tick e hist c).1 c2).2.trace =
          (if goesDown (serviceMonitor.signals stat2)
              ((serviceMonitor.signals stat).map (fun b => !b))
           then [AgiEvent.ServiceDown]
           else if goesUp (serviceMonitor.signals stat2)
              ((serviceMonitor.signals stat).map (fun b => !b))
           then [AgiEvent.ServiceUp]
           else []) ∧
        (serviceMonitor.signals stat2 = serviceMonitor.signals stat →
          (serviceMonitor.tick e2 (serviceMonitor.tick e hist c).1 c2).2.trace =
            [Effect.sleep Minute]))) ∧
    (AgiEvent.ServiceUp ∉ notifiedEvents (serviceMonitor.tick e serviceMonitor.initial c).2.trace) ∧
    notifiedEvents (serviceMonitor.tick asdOnlyEnv serviceMonitor.initial noneCmd).2.trace =
      [AgiEvent.ServiceDown] ∧
    (c.shuttingDown = true → (serviceMonitor.tick e hist c).1 = hist) ∧
    (c.shuttingDown = false → ∀ err, getAgiStatus e (gs "/opt/agi/ingest/") = .error err →
      (serviceMonitor.tick e hist c).1 = hist) := by
  refine ⟨?_, ?_, by decide, ?_, ?_⟩
  · intro hsd stat hstat
    rw [serviceTick_eq e hist c stat hlen hsd hstat]
    refine ⟨rfl, ?_⟩
    intro e2 c2 stat2 hsd2 hstat2
    rw [serviceTick_eq e2 _ c2 stat2 (signals_length stat) hsd2 hstat2]
    constructor
    · simp only []
      cases goesDown (serviceMonitor.signals stat2)
          ((serviceMonitor.signals stat).map (fun b => !b)) with
      | true => simp only [if_true]; exact notifiedEvents_notifyBoth c2 stat2 _ _
      | false =>
        cases goesUp (serviceMonitor.signals stat2)
            ((serviceMonitor.signals stat).map (fun b => !b)) with
        | true =>
          simp only [Bool.false_eq_true, if_false, if_true]
          exact notifiedEvents_notifyBoth c2 stat2 _ _
        | false => simp [notifiedEvents]
    · intro hsame
      obtain ⟨n1, n2, _⟩ := no_transition_after stat
      simp only [hsame, n1, n2, Bool.false_eq_true, if_false]
  · cases hsd : c.shuttingDown with
    | true =>
      unfold serviceMonitor.tick
      simp [hsd, notifiedEvents]
    | false =>
      cases hstat : getAgiStatus e (gs "/opt/agi/ingest/") with
      | error err =>
        unfold serviceMonitor.tick
        simp [hsd, hstat, notifiedEvents]
      | ok stat =>
        rw [serviceTick_eq e serviceMonitor.initial c stat rfl hsd hstat]
        obtain ⟨_, _, n3⟩ := no_transition_after stat
        simp only [n3, Bool.false_eq_true, if_false]
        cases goesDown (serviceMonitor.signals stat) serviceMonitor.initial with
        | true =>
          simp only [if_true]
          rw [notifiedEvents_notifyBoth c stat _ _]
          decide
        | false => simp [notifiedEvents]
  · intro hsd
    unfold serviceMonitor.tick
    simp [hsd]
  · intro hsd err herr
    unfold serviceMonitor.tick
    simp [hsd, herr]

/-- Witness for C28: the first round with only the database daemon running and all steps
complete leaves the history `[true, false, false, true]`. -/
theorem serviceMonitor_history_witness :
    (serviceMonitor.tick asdOnlyEnv serviceMonitor.initial noneCmd).1 =
      [true, false, false, true] ∧
    (serviceMonitor.tick asdOnlyEnv [true, false, false, true]
      { noneCmd with shuttingDown := true }).1 = [true, false, false, true] :=
  ⟨((serviceMonitor_history asdOnlyEnv serviceMonitor.initial noneCmd rfl).1 rfl _ rfl).1.trans
      (by decide),
    (serviceMonitor_history asdOnlyEnv [true, false, false, true]
      { noneCmd with shuttingDown := true } rfl).2.2.2.1 rfl⟩

/-! ## Status aggregator: progress file and decoder -/

theorem stage_eq_stageOf (e : StatusEnv) (steps : IngestSteps) (status : IngestStatusStruct)
    (rd : GoString) :
    getAgiStatus.stage e steps status rd = stageOf e status rd (getAgiStatus.decoder steps) := by
  unfold getAgiStatus.stage getAgiStatus.decoder
  split
  · rfl
  · split
    · rfl
    · split
      · rfl
      · split <;> rfl

theorem progressFile_injective (a b : Option Decoder) (h : progressFile a = progressFile b) :
    a = b := by
  rcases a with _ | (_ | _ | _ | _) <;> rcases b with _ | (_ | _ | _ | _) <;>
    first
    | rfl
    | exact absurd h (by decide)

/-- C29: in `getAgiStatus` the progress file chosen from the steps marker (lines 441 to 450)
and the decoder applied to it (lines 481 to 554) agree for every steps marker: the stage part
of the snapshot is the body of exactly the branch `getAgiStatus.decoder` selects (at most one),
the file name chosen is the progress file of that decoder, so `downloader.json` is chosen
exactly when the download branch decodes, `unpacker.json` exactly when the unpack branch
decodes, `pre-processor.json` exactly when the pre-process branch decodes,
`log-processor.json` exactly when the log-processing branch decodes, and the empty name
exactly when no branch decodes. -/
theorem getAgiStatus_file_matches_decoder (e : StatusEnv) (steps : IngestSteps)
    (status : IngestStatusStruct) (rd : GoString) :
    getAgiStatus.stage e steps status rd = stageOf e status rd (getAgiStatus.decoder steps) ∧
    getAgiStatus.fname steps = progressFile (getAgiStatus.decoder steps) ∧
    (getAgiStatus.fname steps = gs "downloader.json" ↔
      getAgiStatus.decoder steps = some Decoder.downloader) ∧
    (getAgiStatus.fname steps = gs "unpacker.json" ↔
      getAgiStatus.decoder steps = some Decoder.unpacker) ∧
    (getAgiStatus.fname steps = gs "pre-processor.json" ↔
      getAgiStatus.decoder steps = some Decoder.preProcessor) ∧
    (getAgiStatus.fname steps = gs "log-processor.json" ↔
      getAgiStatus.decoder steps = some Decoder.logProcessor) ∧
    (getAgiStatus.fname steps = [] ↔ getAgiStatus.decoder steps = none) := by
  have hf : getAgiStatus.fname steps = progressFile (getAgiStatus.decoder steps) := by
    unfold getAgiStatus.fname getAgiStatus.decoder
    split
    · rfl
    · split
      · rfl
      · split
        · rfl
        · split <;> rfl
  have key : ∀ d : Option Decoder,
      getAgiStatus.fname steps = progressFile d ↔ getAgiStatus.decoder steps = d := by
    intro d
    rw [hf]
    constructor
    · exact progressFile_injective _ _
    · intro h
      rw [h]
  exact ⟨stage_eq_stageOf e steps status rd, hf, key (some Decoder.downloader),
    key (some Decoder.unpacker), key (some Decoder.preProcessor),
    key (some Decoder.logProcessor), key none⟩

/-! ## Status aggregator: range of the percentages -/

theorem sum_map_bounds {α : Type} (l : List α) (f g : α → Int)
    (h : ∀ x ∈ l, 0 ≤ f x ∧ f x ≤ g x) :
    0 ≤ (l.map f).sum ∧ (l.map f).sum ≤ (l.map g).sum := by
  induction l with
  | nil => simp
  | cons x xs ih =>
    have hx := h x (List.mem_cons_self x xs)
    have hxs := ih (fun y hy => h y (List.mem_cons_of_mem x hy))
    simp only [List.map_cons, List.sum_cons]
    constructor <;> omega

theorem sum_map_same {α : Type} (l : List α) (f g : α → Int) (h : ∀ x ∈ l, f x = g x) :
    (l.map f).sum = (l.map g).sum := by
  induction l with
  | nil => rfl
  | cons x xs ih =>
    have hx := h x (List.mem_cons_self x xs)
    have hxs := ih (fun y hy => h y (List.mem_cons_of_mem x hy))
    simp only [List.map_cons, List.sum_cons, hx, hxs]

theorem pct_in_range (d t : Int) (h0 : 0 ≤ d) (h1 : d ≤ t) (ht : 100 * t < 2 ^ 63) :
    (if wrapInt64 t > 0 then div64 (mul64 100 (wrapInt64 d)) (wrapInt64 t) else 0) =
      (if t > 0 then 100 * d / t else 0) ∧
    0 ≤ (if t > 0 then 100 * d / t else 0) ∧
    (if t > 0 then 100 * d / t else 0) ≤ 100 ∧
    (0 < t → d = t → (if t > 0 then 100 * d / t else 0) = 100) := by
  have eT : wrapInt64 t = t := wrapInt64_of_range (by omega) (by omega)
  have eD : wrapInt64 d = d := wrapInt64_of_range (by omega) (by omega)
  rw [eT, eD]
  by_cases hpos : t > 0
  · simp only [hpos, if_true]
    have hm : 0 ≤ 100 * d := by omega
    have hq0 : 0 ≤ 100 * d / t := Int.ediv_nonneg hm (by omega)
    have hq1 : 100 * d / t ≤ 100 := by
      have h2 : 100 * d / t ≤ 100 * t / t := Int.ediv_le_ediv hpos (by omega)
      rw [Int.mul_ediv_cancel 100 (by omega)] at h2
      exact h2
    refine ⟨?_, hq0, hq1, ?_⟩
    · have e1 : wrapInt64 (100 * d) = 100 * d := wrapInt64_of_range (by omega) (by omega)
      unfold div64 mul64
      rw [e1, Int.tdiv_eq_ediv hm (by omega)]
      exact wrapInt64_of_range (by omega) (by omega)
    · intro _ hdt
      rw [hdt]
      exact Int.mul_ediv_cancel 100 (by omega)
  · simp only [hpos, if_false]
    refine ⟨trivial, le_refl 0, by decide, ?_⟩
    intro h
    exact False.elim h

theorem wellFormedEntry_bounds (e : StatusEnv) (dir : GoString)
    (x : GoString × DownloaderFile) (h : wellFormedEntry e dir x = true) :
    0 ≤ downloadedBytes e dir x ∧ downloadedBytes e dir x ≤ entrySize x := by
  unfold wellFormedEntry at h
  unfold downloadedBytes entrySize
  cases hd : x.2.IsDownloaded <;> cases hs : e.Stat (e.pathJoin dir x.1) <;>
    simp [hs] at h ⊢ <;> omega

theorem wellFormedDownload_bounds (e : StatusEnv) (p : ProgressDownloader)
    (h : wellFormedDownload e p = true) :
    0 ≤ downloadDone e p ∧ downloadDone e p ≤ downloadTotal p := by
  unfold wellFormedDownload at h
  rw [Bool.and_eq_true, List.all_eq_true, List.all_eq_true] at h
  have b1 := sum_map_bounds p.S3Files (downloadedBytes e (gs "/opt/agi/files/input/s3source"))
    entrySize (fun x hx => wellFormedEntry_bounds e _ x (h.1 x hx))
  have b2 := sum_map_bounds p.SftpFiles
    (downloadedBytes e (gs "/opt/agi/files/input/sftpsource"))
    entrySize (fun x hx => wellFormedEntry_bounds e _ x (h.2 x hx))
  unfold downloadDone downloadTotal
  constructor <;> omega

theorem downloadDone_all (e : StatusEnv) (p : ProgressDownloader)
    (h : ∀ entry ∈ p.S3Files ++ p.SftpFiles, entry.2.IsDownloaded = true) :
    downloadDone e p = downloadTotal p := by
  unfold downloadDone downloadTotal
  rw [sum_map_same p.S3Files (downloadedBytes e (gs "/opt/agi/files/input/s3source")) entrySize
      (fun x hx => by
        simp [downloadedBytes, entrySize, h x (List.mem_append_left _ hx)]),
    sum_map_same p.SftpFiles (downloadedBytes e (gs "/opt/agi/files/input/sftpsource")) entrySize
      (fun x hx => by
        simp [downloadedBytes, entrySize, h x (List.mem_append_right _ hx)])]

theorem wellFormedLog_bounds (p : ProgressLogProcessor) (h : wellFormedLog p = true) :
    0 ≤ logDone p ∧ logDone p ≤ logTotal p := by
  unfold wellFormedLog at h
  rw [List.all_eq_true] at h
  unfold logDone logTotal
  refine sum_map_bounds p.Files processedBytes (fun entry => entry.2.Size) ?_
  intro x hx
  have hx2 := h x hx
  unfold processedBytes
  cases hf : x.2.Finished <;> simp at hx2 ⊢ <;> omega

theorem logDone_all (p : ProgressLogProcessor)
    (h : ∀ entry ∈ p.Files, entry.2.Finished = true) : logDone p = logTotal p := by
  unfold logDone logTotal
  exact sum_map_same p.Files processedBytes (fun entry => entry.2.Size)
    (fun x hx => by simp [processedBytes, h x hx])

theorem download_other_pct (e : StatusEnv) (status : IngestStatusStruct) (rd : GoString) :
    (getAgiStatus.download e status rd).Ingest.LogProcessorCompletePct =
      status.Ingest.LogProcessorCompletePct := by
  unfold getAgiStatus.download
  simp only []
  split <;> rfl

theorem logBranch_counters (e : StatusEnv) (status : IngestStatusStruct) (rd : GoString)
    (h0 : status.Ingest.LogProcessorCompletePct = 0) :
    (logBranch e status rd).Ingest.DownloaderCompletePct = 100 ∧
    (logBranch e status rd).Ingest.LogProcessorCompletePct =
      (if wrapInt64 (logTotal (e.decodeLogProcessor rd)) > 0
       then div64 (mul64 100 (wrapInt64 (logDone (e.decodeLogProcessor rd))))
         (wrapInt64 (logTotal (e.decodeLogProcessor rd)))
       else 0) := by
  have z : wrapInt64 0 = 0 := by decide
  obtain ⟨ft, fd⟩ := logStep_fold (e.decodeLogProcessor rd).Files
    { totalSize := 0, dlSize := 0 } z z
  simp only [zero_add] at ft fd
  unfold logBranch logTotal logDone
  simp only []
  rw [ft, fd]
  split
  · exact ⟨rfl, rfl⟩
  · exact ⟨rfl, h0⟩

/-- C30: both percentages of the snapshot stay within 0..100 under well-formed progress data.
Whenever the process list and the progress file can be read, the download branch is given
download progress in which every entry has size >= 0 and an on-disk size (a file length, so
not negative) no larger than its recorded size, with 100 * total below 2^63, and the
log-processing branch is given log progress in which every file has 0 <= processed <= size,
with 100 * total below 2^63, `getAgiStatus` returns a snapshot whose download percentage and
log-processing percentage are both between 0 and 100. In the download branch the download
percentage is the exact quotient and is 100 when total > 0 and every entry is marked
downloaded; in the log-processing branch the same holds of the log percentage when total > 0
and every file is finished. -/
theorem getAgiStatus_pct_range (e : StatusEnv) (path : GoString) (plist : List Process)
    (rd : GoString) (hp : e.Processes = some plist)
    (hr : getAgiStatus.reader e path (getAgiStatus.steps e) = .ok rd)
    (hd : getAgiStatus.decoder (getAgiStatus.steps e) = some Decoder.downloader →
      wellFormedDownload e (e.decodeDownloader rd) = true ∧
      100 * downloadTotal (e.decodeDownloader rd) < 2 ^ 63)
    (hl : getAgiStatus.decoder (getAgiStatus.steps e) = some Decoder.logProcessor →
      wellFormedLog (e.decodeLogProcessor rd) = true ∧
      100 * logTotal (e.decodeLogProcessor rd) < 2 ^ 63) :
    ∃ st : IngestStatusStruct, getAgiStatus e path = .ok st ∧
      (0 ≤ st.Ingest.DownloaderCompletePct ∧ st.Ingest.DownloaderCompletePct ≤ 100) ∧
      (0 ≤ st.Ingest.LogProcessorCompletePct ∧ st.Ingest.LogProcessorCompletePct ≤ 100) ∧
      (getAgiStatus.decoder (getAgiStatus.steps e) = some Decoder.downloader →
        st.Ingest.DownloaderCompletePct =
          (if downloadTotal (e.decodeDownloader rd) > 0
           then 100 * downloadDone e (e.decodeDownloader rd) / downloadTotal (e.decodeDownloader rd)
           else 0) ∧
        (0 < downloadTotal (e.decodeDownloader rd) →
          (∀ entry ∈ (e.decodeDownloader rd).S3Files ++ (e.decodeDownloader rd).SftpFiles,
            entry.2.IsDownloaded = true) →
          st.Ingest.DownloaderCompletePct = 100)) ∧
      (getAgiStatus.decoder (getAgiStatus.steps e) = some Decoder.logProcessor →
        st.Ingest.LogProcessorCompletePct =
          (if logTotal (e.decodeLogProcessor rd) > 0
           then 100 * logDone (e.decodeLogProcessor rd) / logTotal (e.decodeLogProcessor rd)
           else 0) ∧
        (0 < logTotal (e.decodeLogProcessor rd) →
          (∀ entry ∈ (e.decodeLogProcessor rd).Files, entry.2.Finished = true) →
          st.Ingest.LogProcessorCompletePct = 100)) := by
  refine ⟨_, getAgiStatus_ok_of e path plist rd hp hr, ?_⟩
  rw [stage_eq_stageOf]
  cases hdec : getAgiStatus.decoder (getAgiStatus.steps e) with
  | none =>
    have z100 : (0 : Int) ≤ 100 := by decide
    refine ⟨⟨le_refl 0, z100⟩, ⟨le_refl 0, z100⟩, ?_, ?_⟩ <;>
      (intro h; cases h)
  | some dec =>
    cases dec with
    | unpacker =>
      have z100 : (0 : Int) ≤ 100 := by decide
      refine ⟨⟨z100, le_refl 100⟩, ⟨le_refl 0, z100⟩, ?_, ?_⟩ <;>
        (intro h; cases h)
    | preProcessor =>
      have z100 : (0 : Int) ≤ 100 := by decide
      refine ⟨⟨z100, le_refl 100⟩, ⟨le_refl 0, z100⟩, ?_, ?_⟩ <;>
        (intro h; cases h)
    | downloader =>
      obtain ⟨hw, hT⟩ := hd hdec
      obtain ⟨b0, b1⟩ := wellFormedDownload_bounds e _ hw
      obtain ⟨q1, q2, q3, q4⟩ := pct_in_range _ _ b0 b1 hT
      obtain ⟨ht, hdl⟩ := download_sizes e (statusBeforeStage e plist) rd
      have hpct := download_pct e (statusBeforeStage e plist) rd rfl
      rw [ht, hdl, q1] at hpct
      have hlog := download_other_pct e (statusBeforeStage e plist) rd
      simp only [stageOf]
      rw [hpct, hlog]
      have z100 : (0 : Int) ≤ 100 := by decide
      refine ⟨⟨q2, q3⟩, ⟨le_refl 0, z100⟩, ?_, ?_⟩
      · intro _
        refine ⟨rfl, ?_⟩
        intro hpos hall
        exact q4 hpos (downloadDone_all e _ hall)
      · intro h
        cases h
    | logProcessor =>
      obtain ⟨hw, hT⟩ := hl hdec
      obtain ⟨b0, b1⟩ := wellFormedLog_bounds _ hw
      obtain ⟨q1, q2, q3, q4⟩ := pct_in_range _ _ b0 b1 hT
      obtain ⟨s1, s2⟩ := logBranch_counters e (statusBeforeStage e plist) rd rfl
      rw [q1] at s2
      simp only [stageOf]
      rw [s1, s2]
      have z100 : (0 : Int) ≤ 100 := by decide
      refine ⟨⟨z100, le_refl 100⟩, ⟨q2, q3⟩, ?_, ?_⟩
      · intro h
        cases h
      · intro _
        refine ⟨rfl, ?_⟩
        intro hpos hall
        exact q4 hpos (logDone_all _ hall)

/-- Witness for C30: download progress with total 200 and downloaded 50 gives the percentages
(25, 0); log progress with total 200 and processed 50 gives (100, 25). -/
theorem getAgiStatus_pct_range_witness :
    bothPct (getAgiStatus (downloadEnv progress200) (gs "/opt/agi/ingest/")) = some (25, 0) ∧
    (∃ st, getAgiStatus (stageEnv stepsPreProcessed
        [(gs "/opt/agi/ingest/log-processor.json", gs "progress")] [] (fun _ => none)
        ⟨[]⟩ ⟨[]⟩ logProgress200) (gs "/opt/agi/ingest/") = .ok st ∧
      0 ≤ st.Ingest.LogProcessorCompletePct ∧ st.Ingest.LogProcessorCompletePct ≤ 100) :=
  have h1 := getAgiStatus_pct_range (downloadEnv progress200) (gs "/opt/agi/ingest/") []
    (gs "progress") rfl rfl (fun _ => ⟨by decide, by decide⟩) (fun _ => ⟨by decide, by decide⟩)
  have h2 := getAgiStatus_pct_range (stageEnv stepsPreProcessed
      [(gs "/opt/agi/ingest/log-processor.json", gs "progress")] [] (fun _ => none)
      ⟨[]⟩ ⟨[]⟩ logProgress200) (gs "/opt/agi/ingest/") [] (gs "progress") rfl rfl
      (fun _ => ⟨by decide, by decide⟩) (fun _ => ⟨by decide, by decide⟩)
  ⟨by decide, by
    obtain ⟨st, hst, _, hlog, _⟩ := h2
    exact ⟨st, hst, hlog.1, hlog.2⟩⟩

end Aerolab
